import Mathlib

/-!
# 2fas-server: mobile API handlers and websocket connection handler

A shallow embedding of

* `internal/api/mobile/ports/http.go` (the gin handlers of the mobile API),
* `internal/websocket/common/handler.go` (origin check, `serveWs`, lifetime supervisor),

together with the collaborators these files call.  Collaborators whose code is not
part of the embedded files are either taken as parameters of the handlers or, where a
property is about their behaviour, modelled from the written specification; the latter
definitions say so in their doc comment.
-/

set_option autoImplicit false

namespace TwoFas

/-! ## Go values shared by the handlers -/

/-- A 128-bit identifier (`uuid.UUID`). -/
structure UUID where
  bits : Nat
deriving DecidableEq, Repr

namespace uuid

/-- The zero identifier `uuid.Nil`, which `uuid.Parse` returns next to its error. -/
def Nil : UUID := ⟨0⟩

end uuid

/-- The dynamic type of a Go error value: the name of the struct type and whether the
value is a pointer to it.  `errors.As` compares exactly this. -/
structure GoType where
  name : String
  pointer : Bool
deriving DecidableEq, Repr

/-- A Go `error`: a value of some dynamic type which may wrap another error
(`Unwrap() error`). -/
inductive GoError where
  | leaf (type : GoType) (detail : String)
  | wrap (type : GoType) (detail : String) (inner : GoError)
deriving DecidableEq, Repr

namespace GoError

/-- The dynamic type of the outermost error value. -/
def type : GoError → GoType
  | leaf t _ => t
  | wrap t _ _ => t

/-- The chain `err, Unwrap(err), Unwrap(Unwrap(err)), ...` of dynamic types. -/
def chain : GoError → List GoType
  | leaf t _ => [t]
  | wrap t _ inner => t :: chain inner

end GoError

namespace errors

/-- The function `errors.As(err, &target)` for a target variable of concrete type
`target`: walks the chain of `err` and reports whether some error in it has exactly
that dynamic type. -/
def As : GoError → GoType → Bool
  | .leaf t _, target => decide (t = target)
  | .wrap t _ inner, target => decide (t = target) || As inner target

end errors

/-- The struct type `domain.ExtensionHasAlreadyBeenPairedError`, the type of the
variable `conflictError` in `PairMobileWithExtension`. -/
def ExtensionHasAlreadyBeenPairedError : GoType :=
  ⟨"domain.ExtensionHasAlreadyBeenPairedError", false⟩

/-- The struct type `adapters.MobileDeviceCouldNotBeFound`. -/
def MobileDeviceCouldNotBeFound : GoType :=
  ⟨"adapters.MobileDeviceCouldNotBeFound", false⟩

/-- The struct type `browser_adapters.BrowserExtensionsCouldNotBeFound`. -/
def BrowserExtensionsCouldNotBeFound : GoType :=
  ⟨"browser_adapters.BrowserExtensionsCouldNotBeFound", false⟩

/-- One failed field of `validator.ValidationErrors`. -/
structure FieldError where
  field : String
  tag : String
deriving DecidableEq, Repr

/-- The error `validator.ValidationErrors`, returned by `validator.Struct`. -/
abbrev ValidationErrors := List FieldError

/-- The JSON bodies the handlers write with `c.JSON`. -/
inductive Body (P : Type) where
  /-- The body `api.NewBadRequestError(validationErrors)`. -/
  | badRequestValidation (errs : ValidationErrors)
  /-- The body `api.NewBadRequestError(err)`. -/
  | badRequest (err : GoError)
  /-- The body `api.NotFoundError(err)`. -/
  | notFound (err : GoError)
  /-- The body `api.ConflictError(err)`. -/
  | conflict (err : GoError)
  /-- The body `api.NewInternalServerError(err)`. -/
  | internalServerError (err : GoError)
  /-- The body `api.NewOk(message)`. -/
  | ok (message : String)
  /-- A presenter or a query result. -/
  | json (payload : P)
deriving DecidableEq, Repr

/-- The collaborators a handler can invoke, as they appear in a call trace. -/
inductive Port where
  | RegisterMobileDevice
  | MobileDeviceQuery
  | PairMobileWithExtension
  | PairedBrowserExtensionQuery
  | Send2FaToken
  | DeviceBrowserExtension2FaRequestQuery
  | FindById
  | UpdateMobileDevice
  | RemovePairingWithExtension
  | DeviceBrowserExtensionsQuery
deriving DecidableEq, Repr

/-- What one run of a handler leaves behind: the status code of the response, the body
passed to `c.JSON`, the state of the store, and the collaborators invoked, in order.  The
status code is the one passed to `c.JSON` unless the header of the response had been written
before that call (see `gin.JSON`). -/
structure Outcome (S P : Type) where
  code : Nat
  body : Body P
  store : S
  calls : List Port

namespace gin

/-- The method `c.BindJSON(obj)` of gin, as far as the status of the response goes.  It is
`c.MustBindWith(obj, binding.JSON)`: when the body does not bind, `c.AbortWithError(400, err)`
writes the header of the response with status 400 before the error is returned to the
handler.  `err` is the error of the binding (`none` when the body has bound); the result is
the status of the header written so far, `none` when no header has been written. -/
def BindJSON (err : Option GoError) : Option Nat :=
  match err with
  | some _ => some 400
  | none => none

/-- The status of the response after `c.JSON(code, obj)`: a header that has been written
keeps its status, the call then only writes the body; else the status is `code`. -/
def JSON (written : Option Nat) (code : Nat) : Nat :=
  match written with
  | some status => status
  | none => code

end gin

/-! ## Commands and queries bound from the request -/

namespace command

/-- The command `command.RegisterMobileDevice` after `c.ShouldBindJSON`; the JSON
fields are those sent by `createDevice` in `tests/mobile/mobile_device_test.go`. -/
structure RegisterMobileDevice where
  Id : UUID
  Name : String
  Platform : String
  FcmToken : String
deriving DecidableEq, Repr

/-- The command `command.PairMobileWithBrowserExtension` as `c.BindJSON` and `c.BindUri`
leave it; fields as sent by `PairDeviceWithBrowserExtension` in `tests/helpers.go`. -/
structure PairMobileWithBrowserExtension where
  DeviceId : String
  ExtensionId : String
  DeviceName : String
  DevicePublicKey : String
deriving DecidableEq, Repr

/-- The command `command.Send2FaToken` as `c.BindJSON` and `c.BindUri` leave it; fields as
sent by `Send2FaTokenToExtension` in `tests/helpers.go`. -/
structure Send2FaToken where
  DeviceId : String
  ExtensionId : String
  TokenRequestId : String
  Token : String
deriving DecidableEq, Repr

end command

namespace query

/-- The query `query.MobileDeviceQuery`. -/
structure MobileDeviceQuery where
  Id : String
deriving DecidableEq, Repr

/-- The query `query.PairedBrowserExtensionQuery`. -/
structure PairedBrowserExtensionQuery where
  ExtensionId : String
deriving DecidableEq, Repr

/-- The query `query.DeviceBrowserExtension2FaRequestQuery` after `c.BindUri`. -/
structure DeviceBrowserExtension2FaRequestQuery where
  DeviceId : String
deriving DecidableEq, Repr

end query

/-! ## The handlers of `internal/api/mobile/ports/http.go` -/

/-- The collaborators of `RoutesHandler.RegisterMobileDevice` over a store `S`; `P` is
the presenter type of the device query. -/
structure RegisterMobileDevicePorts (S P : Type) where
  /-- The call `r.validator.Struct(cmd)`. -/
  validate : command.RegisterMobileDevice → Option ValidationErrors
  /-- The call `r.cqrs.Commands.RegisterMobileDevice.Handle(cmd)`. -/
  Handle : command.RegisterMobileDevice → S → Option GoError × S
  /-- The method `id.String()`. -/
  uuidString : UUID → String
  /-- The call `r.cqrs.Queries.MobileDeviceQuery.Handle(q)`. -/
  Query : query.MobileDeviceQuery → S → Except GoError P

/-- The handler `RoutesHandler.RegisterMobileDevice` (http.go, lines 82-121).  `id` is the
value of `uuid.New()` and `cmd` the command after binding. -/
def RegisterMobileDevice {S P : Type} (r : RegisterMobileDevicePorts S P) (id : UUID)
    (cmd : command.RegisterMobileDevice) (s : S) : Outcome S P :=
  match r.validate cmd with
  | some validationErrors => ⟨400, .badRequestValidation validationErrors, s, []⟩
  | none =>
    match r.Handle cmd s with
    | (some err, s1) => ⟨400, .badRequest err, s1, [.RegisterMobileDevice]⟩
    | (none, s1) =>
      match r.Query ⟨r.uuidString id⟩ s1 with
      | .error err =>
        ⟨500, .internalServerError err, s1, [.RegisterMobileDevice, .MobileDeviceQuery]⟩
      | .ok presenter =>
        ⟨200, .json presenter, s1, [.RegisterMobileDevice, .MobileDeviceQuery]⟩

/-- The collaborators of `RoutesHandler.PairMobileWithExtension`. -/
structure PairMobileWithExtensionPorts (S P : Type) where
  /-- The call `r.validator.Struct(cmd)`. -/
  validate : command.PairMobileWithBrowserExtension → Option ValidationErrors
  /-- The call `r.cqrs.Commands.PairMobileWithExtension.Handle(cmd)`. -/
  Handle : command.PairMobileWithBrowserExtension → S → Option GoError × S
  /-- The call `r.cqrs.Queries.PairedBrowserExtensionQuery.Handle(q)`. -/
  Query : query.PairedBrowserExtensionQuery → S → Except GoError P

/-- The handler `RoutesHandler.PairMobileWithExtension` (http.go, lines 131-169).
`bindJSON` is the error of `c.BindJSON(&cmd)` in line 134 (`none` when the body has bound),
which the handler discards: it goes on whatever the error is, while gin has written the
header of the response when there is one.  `cmd` is the command as `c.BindJSON` and
`c.BindUri` leave it; `c.BindUri` fills the string fields of the route. -/
def PairMobileWithExtension {S P : Type} (r : PairMobileWithExtensionPorts S P)
    (bindJSON : Option GoError) (cmd : command.PairMobileWithBrowserExtension) (s : S) :
    Outcome S P :=
  let written := gin.BindJSON bindJSON
  match r.validate cmd with
  | some validationErrors =>
    ⟨gin.JSON written 400, .badRequestValidation validationErrors, s, []⟩
  | none =>
    match r.Handle cmd s with
    | (some err, s1) =>
      if errors.As err ExtensionHasAlreadyBeenPairedError then
        ⟨gin.JSON written 409, .conflict err, s1, [.PairMobileWithExtension]⟩
      else
        ⟨gin.JSON written 400, .badRequest err, s1, [.PairMobileWithExtension]⟩
    | (none, s1) =>
      match r.Query ⟨cmd.ExtensionId⟩ s1 with
      | .error err =>
        ⟨gin.JSON written 500, .internalServerError err, s1,
          [.PairMobileWithExtension, .PairedBrowserExtensionQuery]⟩
      | .ok presenter =>
        ⟨gin.JSON written 200, .json presenter, s1,
          [.PairMobileWithExtension, .PairedBrowserExtensionQuery]⟩

/-- The collaborators of `RoutesHandler.Send2FaToken`; `D` is the device type returned by
the repository. -/
structure Send2FaTokenPorts (S D : Type) where
  /-- The call `r.validator.Struct(cmd)`. -/
  validate : command.Send2FaToken → Option ValidationErrors
  /-- The function `uuid.Parse`; `none` stands for a returned error. -/
  uuidParse : String → Option UUID
  /-- The call `r.mobileDeviceRepository.FindById(deviceId)`. -/
  FindById : UUID → S → Except GoError D
  /-- The call `r.cqrs.Commands.Send2FaToken.Handle(ctx, cmd)`. -/
  Handle : command.Send2FaToken → S → Option GoError × S

/-- The handler `RoutesHandler.Send2FaToken` (http.go, lines 271-301).  `bindJSON` is the
error of `c.BindJSON(&cmd)` in line 274 (`none` when the body has bound), which the handler
discards: it goes on whatever the error is, while gin has written the header of the response
when there is one.  `cmd` is the command as `c.BindJSON` and `c.BindUri` leave it; `c.BindUri`
fills the string fields of the route.  The error of `uuid.Parse` is discarded, which leaves
`uuid.Nil` in `deviceId`. -/
def Send2FaToken {S D P : Type} (r : Send2FaTokenPorts S D) (bindJSON : Option GoError)
    (cmd : command.Send2FaToken) (s : S) : Outcome S P :=
  let written := gin.BindJSON bindJSON
  match r.validate cmd with
  | some validationErrors =>
    ⟨gin.JSON written 400, .badRequestValidation validationErrors, s, []⟩
  | none =>
    let deviceId := (r.uuidParse cmd.DeviceId).getD uuid.Nil
    match r.FindById deviceId s with
    | .error err => ⟨gin.JSON written 404, .notFound err, s, [.FindById]⟩
    | .ok _ =>
      match r.Handle cmd s with
      | (some err, s1) =>
        ⟨gin.JSON written 500, .internalServerError err, s1, [.FindById, .Send2FaToken]⟩
      | (none, s1) =>
        ⟨gin.JSON written 200, .ok "Token has been sent to browser extension", s1,
          [.FindById, .Send2FaToken]⟩

/-- The collaborators of `RoutesHandler.GetAll2FaTokenRequests`. -/
structure GetAll2FaTokenRequestsPorts (S D P : Type) where
  /-- The call `r.validator.Struct(q)`. -/
  validate : query.DeviceBrowserExtension2FaRequestQuery → Option ValidationErrors
  /-- The function `uuid.Parse`; `none` stands for a returned error. -/
  uuidParse : String → Option UUID
  /-- The call `r.mobileDeviceRepository.FindById(deviceId)`. -/
  FindById : UUID → S → Except GoError D
  /-- The call `r.cqrs.Queries.DeviceBrowserExtension2FaRequestQuery.Handle(q)`. -/
  Query : query.DeviceBrowserExtension2FaRequestQuery → S → Except GoError P

/-- The handler `RoutesHandler.GetAll2FaTokenRequests` (http.go, lines 303-332); `q` is the
query after `c.BindUri` has bound the request. -/
def GetAll2FaTokenRequests {S D P : Type} (r : GetAll2FaTokenRequestsPorts S D P)
    (q : query.DeviceBrowserExtension2FaRequestQuery) (s : S) : Outcome S P :=
  match r.validate q with
  | some validationErrors => ⟨400, .badRequestValidation validationErrors, s, []⟩
  | none =>
    let deviceId := (r.uuidParse q.DeviceId).getD uuid.Nil
    match r.FindById deviceId s with
    | .error err => ⟨404, .notFound err, s, [.FindById]⟩
    | .ok _ =>
      match r.Query q s with
      | .error err =>
        ⟨500, .internalServerError err, s, [.FindById, .DeviceBrowserExtension2FaRequestQuery]⟩
      | .ok result =>
        ⟨200, .json result, s, [.FindById, .DeviceBrowserExtension2FaRequestQuery]⟩

/-! ## Durable records and coordinators

The commands, queries, validation tags and repositories behind the handlers are not part
of the embedded files.  The definitions of this section follow the written specification
(sections 3, 4.4, 4.5 and 6) and the integration tests under `tests/`. -/

namespace Spec

/-- Modelled from the spec: the status of a TokenRequest, `pending` or one of the terminal
states `completed` and `expired` (section 4.5). -/
inductive Status where
  | pending
  | completed
  | expired
deriving DecidableEq, Repr

/-- Modelled from the spec: a TokenRequest with the attributes of section 3 and the token
persisted by `respond`. -/
structure TokenRequest where
  id : UUID
  extensionId : UUID
  deviceId : UUID
  domain : String
  status : Status
  createdAt : Nat
  token : Option String
deriving DecidableEq, Repr

/-- Modelled from the spec: a Pairing, keyed by (device id, extension id) (section 3). -/
structure Pairing where
  deviceId : UUID
  extensionId : UUID
  devicePublicKey : String
deriving DecidableEq, Repr

/-- Modelled from the spec: a mobile device record, with the fields of the registration
request. -/
structure MobileDevice where
  id : UUID
  name : String
  platform : String
  fcmToken : String
deriving DecidableEq, Repr

/-- Modelled from the spec: a browser extension record. -/
structure BrowserExtension where
  id : UUID
  name : String
deriving DecidableEq, Repr

/-- Modelled from the spec: the events published on a channel (section 6). -/
inductive Event where
  | token_requested (deviceId requestId : UUID) (domain : String)
  | token_delivered (extensionId requestId : UUID) (token : String)
deriving DecidableEq, Repr

/-- Modelled from the spec: the state behind the persistence collaborator (section 6),
the clock the validity window is measured on, and the published events. -/
structure World where
  devices : List MobileDevice
  extensions : List BrowserExtension
  pairings : List Pairing
  requests : List TokenRequest
  events : List Event
  now : Nat
deriving DecidableEq, Repr

/-- Modelled from the spec: what the specification leaves to configuration or to
libraries: the validity window of a pending request (section 9), the pairing policy
(section 4.4) and the textual form of identifiers. -/
structure Config where
  window : Nat
  allowMultiPairing : Bool
  uuidParse : String → Option UUID
  uuidString : UUID → String

/-- Modelled from the spec: the error of the taxonomy entry `NotFound`, "referenced
device/extension/pairing/request absent" (section 7), for a pairing or a request. -/
def NotFound : GoType := ⟨"NotFound", false⟩

/-- Modelled from the spec: the error of the taxonomy entry `Expired`, "operation attempted
on a terminal TokenRequest" (section 7). -/
def Expired : GoType := ⟨"Expired", false⟩

/-- Modelled from the spec: a request is pending when its status is `pending` and its
validity window has not elapsed; "a request not answered within its validity window is
considered expired" (section 3). -/
def TokenRequest.isPending (window now : Nat) (r : TokenRequest) : Bool :=
  decide (r.status = .pending) && decide (now < r.createdAt + window)

/-- Modelled from the spec: `findById(id) -> entity | NotFound` for devices
(section 6). -/
def findById (cfg : Config) (id : UUID) (w : World) : Except GoError MobileDevice :=
  match w.devices.find? (fun d => decide (d.id = id)) with
  | some d => .ok d
  | none => .error (.leaf MobileDeviceCouldNotBeFound (cfg.uuidString id))

/-- Modelled from the spec: `findPending(deviceId)`, the read contract "list pending
requests for a device returns only pending requests, ordered by creation time"
(section 4.5). -/
def findPending (cfg : Config) (deviceId : UUID) (w : World) : List TokenRequest :=
  (w.requests.filter
    (fun r => decide (r.deviceId = deviceId) && r.isPending cfg.window w.now)).insertionSort
    (fun a b => a.createdAt ≤ b.createdAt)

/-- Modelled from the spec: time passing on the clock of the store. -/
def advance (dt : Nat) (w : World) : World :=
  { w with now := w.now + dt }

/-- Modelled from the spec: the target devices of a request of an extension, "resolves the
target device(s) from that pairing" (section 4.5): the devices the extension is paired
with, each of them once. -/
def targets (extensionId : UUID) (w : World) : List UUID :=
  ((w.pairings.filter (fun p => decide (p.extensionId = extensionId))).map
    (fun p => p.deviceId)).dedup

/-- Modelled from the spec: transition 1 of section 4.5, `create(extensionId, domain)`:
"validates that the extension has at least one active pairing; resolves the target
device(s) from that pairing; persists the request; publishes a token requested event on
the device's channel".  A TokenRequest names one device (section 3), so the request is
persisted and published for each target device; the request returned is the one of the
first target.  `rid` is the fresh request id. -/
def create (rid extensionId : UUID) (domain : String) (w : World) :
    Except GoError TokenRequest × World :=
  match targets extensionId w with
  | [] => (.error (.leaf NotFound "no active pairing"), w)
  | deviceId :: more =>
    let request (target : UUID) : TokenRequest :=
      { id := rid, extensionId := extensionId, deviceId := target, domain := domain,
        status := .pending, createdAt := w.now, token := none }
    (.ok (request deviceId),
      { w with
        requests := w.requests ++ (deviceId :: more).map request,
        events := w.events ++
          (deviceId :: more).map (fun target => .token_requested target rid domain) })

/-- Modelled from the spec: transition 3 of section 4.5, `respond(requestId, token)`:
"fails with NotFound if the request does not exist or is already terminal" (`Expired`
in the taxonomy of section 7 for a terminal one); "on success persists the completed
status and token, then broadcasts the token to the extension's channel". -/
def respond (cfg : Config) (requestId : UUID) (token : String) (w : World) :
    Option GoError × World :=
  match w.requests.find? (fun r => decide (r.id = requestId)) with
  | none => (some (.leaf NotFound (cfg.uuidString requestId)), w)
  | some r =>
    if r.isPending cfg.window w.now then
      (none,
        { w with
          requests := w.requests.map (fun x =>
            if x.id = requestId then { x with status := .completed, token := some token }
            else x),
          events := w.events ++ [.token_delivered r.extensionId requestId token] })
    else
      (some (.leaf Expired (cfg.uuidString requestId)), w)

/-- Modelled from the spec: transition 4 of section 4.5, the "explicit close command from
the extension" (`close_2fa_request` in the tests, which carries the terminal status to
record) and the time-based sweep: a pending request takes the given status, a request
that is already `completed` or `expired` is left as it is. -/
def close (requestId : UUID) (status : Status) (w : World) : World :=
  { w with
    requests := w.requests.map (fun x =>
      if x.id = requestId ∧ x.status = .pending then { x with status := status } else x) }

/-- Modelled from the spec: operation `pair(deviceId, extensionId, devicePublicKey)` of
section 4.4: "fails with NotFound if either side does not exist", "fails with Conflict if
the extension is already paired with a different device and the policy forbids
multi-device pairing", otherwise "creates or replaces the Pairing record".  That the key
is well formed is a condition on the input, which is not checked here. -/
def pair (cfg : Config) (deviceId extensionId : UUID) (devicePublicKey : String)
    (w : World) : Option GoError × World :=
  if !(w.devices.any (fun d => decide (d.id = deviceId))) then
    (some (.leaf MobileDeviceCouldNotBeFound (cfg.uuidString deviceId)), w)
  else if !(w.extensions.any (fun e => decide (e.id = extensionId))) then
    (some (.leaf BrowserExtensionsCouldNotBeFound (cfg.uuidString extensionId)), w)
  else if !cfg.allowMultiPairing &&
      w.pairings.any (fun p => decide (p.extensionId = extensionId) &&
        !decide (p.deviceId = deviceId)) then
    (some (.leaf ExtensionHasAlreadyBeenPairedError (cfg.uuidString extensionId)), w)
  else
    (none,
      { w with
        pairings :=
          w.pairings.filter (fun p =>
            !(decide (p.deviceId = deviceId) && decide (p.extensionId = extensionId)))
          ++ [⟨deviceId, extensionId, devicePublicKey⟩] })

/-- Modelled from the spec: a device name is blank when it is empty or consists only of
space characters; `TestCreateMobileDevice` expects 400 for the names of this kind and
200 for the others. -/
def isBlank (name : String) : Bool :=
  name.data.all (fun c => decide (c = ' '))

/-- Modelled from the spec: the validation of `command.RegisterMobileDevice`, whose tags
are declared outside the embedded files: the name must not be blank; the FCM token may be
empty ("empty FCM token should be also valid"). -/
def validateRegisterMobileDevice (cmd : command.RegisterMobileDevice) :
    Option ValidationErrors :=
  if isBlank cmd.Name then some [⟨"Name", "not_blank"⟩] else none

/-- Modelled from the spec: the register command saves the device (`save(entity)`,
section 6). -/
def registerMobileDevice (cmd : command.RegisterMobileDevice) (w : World) :
    Option GoError × World :=
  (none, { w with devices := w.devices ++ [⟨cmd.Id, cmd.Name, cmd.Platform, cmd.FcmToken⟩] })

/-- Modelled from the spec: the device query finds the device by the textual form of its
id (`findById(id) -> entity | NotFound`, section 6). -/
def mobileDeviceQuery (cfg : Config) (q : query.MobileDeviceQuery) (w : World) :
    Except GoError MobileDevice :=
  match w.devices.find? (fun d => decide (cfg.uuidString d.id = q.Id)) with
  | some d => .ok d
  | none => .error (.leaf MobileDeviceCouldNotBeFound q.Id)

/-- Modelled from the spec: the pairing descriptor returned after a successful pairing:
the pairings of the extension. -/
def pairedBrowserExtensionQuery (cfg : Config) (q : query.PairedBrowserExtensionQuery)
    (w : World) : Except GoError (List Pairing) :=
  .ok (w.pairings.filter (fun p => decide (cfg.uuidString p.extensionId = q.ExtensionId)))

/-- Modelled from the spec: the collaborators of `RegisterMobileDevice`. -/
def registerPorts (cfg : Config) : RegisterMobileDevicePorts World MobileDevice where
  validate := validateRegisterMobileDevice
  Handle := registerMobileDevice
  uuidString := cfg.uuidString
  Query := mobileDeviceQuery cfg

/-- Modelled from the spec: the collaborators of `PairMobileWithExtension`; the pairing
command is `pair` on the parsed identifiers.  `validate` stands for the validation tags of
the command, which the specification does not describe. -/
def pairPorts (cfg : Config)
    (validate : command.PairMobileWithBrowserExtension → Option ValidationErrors) :
    PairMobileWithExtensionPorts World (List Pairing) where
  validate := validate
  Handle := fun cmd w =>
    pair cfg ((cfg.uuidParse cmd.DeviceId).getD uuid.Nil)
      ((cfg.uuidParse cmd.ExtensionId).getD uuid.Nil) cmd.DevicePublicKey w
  Query := pairedBrowserExtensionQuery cfg

/-- Modelled from the spec: the collaborators of `Send2FaToken`; the command is `respond`
on the parsed request id. -/
def send2FaTokenPorts (cfg : Config)
    (validate : command.Send2FaToken → Option ValidationErrors) :
    Send2FaTokenPorts World MobileDevice where
  validate := validate
  uuidParse := cfg.uuidParse
  FindById := findById cfg
  Handle := fun cmd w =>
    respond cfg ((cfg.uuidParse cmd.TokenRequestId).getD uuid.Nil) cmd.Token w

/-- Modelled from the spec: the collaborators of `GetAll2FaTokenRequests`; the query is
`findPending` on the parsed device id. -/
def getAll2FaTokenRequestsPorts (cfg : Config)
    (validate : query.DeviceBrowserExtension2FaRequestQuery → Option ValidationErrors) :
    GetAll2FaTokenRequestsPorts World MobileDevice (List TokenRequest) where
  validate := validate
  uuidParse := cfg.uuidParse
  FindById := findById cfg
  Query := fun q w => .ok (findPending cfg ((cfg.uuidParse q.DeviceId).getD uuid.Nil) w)

end Spec

/-! ## `internal/websocket/common/handler.go` -/

namespace os

/-- The environment of the process: variable names with their values. -/
abbrev Environ := List (String × String)

/-- The function `os.Getenv`: the value of the variable, or the empty string when the
variable is not set. -/
def Getenv (env : Environ) (key : String) : String :=
  match env.find? (fun kv => decide (kv.1 = key)) with
  | some kv => kv.2
  | none => ""

end os

namespace http

/-- The type `http.Header`, a map from canonical header names to their values. -/
abbrev Header := List (String × List String)

/-- The method `Header.Get` for a key in canonical form (such as `Origin`): the first
value stored under the key, or the empty string when there is none. -/
def Header.Get (h : Header) (key : String) : String :=
  match h.find? (fun kv => decide (kv.1 = key)) with
  | some (_, v :: _) => v
  | _ => ""

/-- The parts of `url.URL` the handlers read. -/
structure URL where
  Path : String
  RawQuery : String
deriving DecidableEq, Repr

/-- The parts of `http.Request` the handlers read. -/
structure Request where
  Header : List (String × List String)
  URL : URL
deriving DecidableEq, Repr

/-- The state of an `http.ResponseWriter` as far as the status of the response goes: no
header written yet, the header written with a status, or the connection taken over with
`Hijack`. -/
inductive ResponseWriter where
  | fresh
  | wrote (status : Nat)
  | hijacked
deriving DecidableEq, Repr

/-- The method `WriteHeader(statusCode)`: the first header written fixes the status of the
response; a call after the header has been written, or on a connection that has been taken
over, is superfluous and changes nothing. -/
def ResponseWriter.WriteHeader (w : ResponseWriter) (statusCode : Nat) : ResponseWriter :=
  match w with
  | .fresh => .wrote statusCode
  | .wrote status => .wrote status
  | .hijacked => .hijacked

/-- The status of the response, when its header has been written. -/
def ResponseWriter.status : ResponseWriter → Option Nat
  | .fresh => none
  | .wrote status => some status
  | .hijacked => none

end http

namespace time

/-- The constant `time.Second`, in nanoseconds (the unit of `time.Duration`). -/
def Second : Nat := 1000000000

/-- The constant `time.Minute`. -/
def Minute : Nat := 60 * Second

end time

namespace websocket

/-- The field `CheckOrigin` of `upgrader` (handler.go, lines 18-26). -/
def CheckOrigin (env : os.Environ) (r : http.Request) : Bool :=
  let allowedOrigin := os.Getenv env "WEBSOCKET_ALLOWED_ORIGIN"
  if allowedOrigin ≠ "" then
    decide (http.Header.Get r.Header "Origin" = allowedOrigin)
  else
    true

/-- A transport `*websocket.Conn`, known by its identity. -/
structure Conn where
  id : Nat
deriving DecidableEq, Repr

/-- A `*Client`: its identity, its hub (known by the channel key) and its transport. -/
structure Client where
  id : Nat
  hub : String
  conn : Conn
deriving DecidableEq, Repr

/-- Modelled from the spec: a Hub, "the set of connections subscribed to one channel"
(section 2); the hub type is declared outside the embedded files. -/
structure Hub where
  channel : String
  clients : List Client
deriving DecidableEq, Repr

/-- Modelled from the spec: the ChannelRegistry behind `hubPool`, the live hubs by channel
key, and the identity of the next client. -/
structure hubPool where
  hubs : List Hub
  next : Nat
deriving DecidableEq, Repr

namespace hubPool

/-- Modelled from the spec: the membership count of the hub of a channel. -/
def count (p : hubPool) (channel : String) : Nat :=
  match p.hubs.find? (fun h => decide (h.channel = channel)) with
  | some h => h.clients.length
  | none => 0

/-- Modelled from the spec: whether the client is a member of its hub. -/
def isRegistered (p : hubPool) (c : Client) : Bool :=
  p.hubs.any (fun h => decide (h.channel = c.hub) && decide (c ∈ h.clients))

/-- Modelled from the spec: `resolve(channelKey)` followed by `register(connection)`
(sections 4.1 and 4.2): the hub of the channel is created when there is none, and the new
client joins its member set. -/
def registerClient (channel : String) (conn : Conn) (p : hubPool) :
    (Client × Option GoError) × hubPool :=
  let client : Client := ⟨p.next, channel, conn⟩
  let hubs :=
    if p.hubs.any (fun h => decide (h.channel = channel)) then
      p.hubs.map (fun h =>
        if h.channel = channel then { h with clients := h.clients ++ [client] } else h)
    else
      p.hubs ++ [⟨channel, [client]⟩]
  ((client, none), ⟨hubs, p.next + 1⟩)

/-- Modelled from the spec: `unregister(membershipHandle)`, an "idempotent removal"
(section 4.2), followed by `release(channelKey)` when the membership of the hub drops to
zero (section 4.1). -/
def unregisterClient (c : Client) (p : hubPool) : hubPool :=
  { p with
    hubs :=
      (p.hubs.map (fun h =>
        if h.channel = c.hub then { h with clients := h.clients.filter (fun x => x ≠ c) }
        else h)).filter
        (fun h => !(decide (h.channel = c.hub) && h.clients.isEmpty)) }

end hubPool

/-- The goroutines `serveWs` starts for a client. -/
inductive Task where
  | writePump (client : Client)
  | readPump (client : Client)
  | supervisor (client : Client)
deriving DecidableEq, Repr

/-- A failed `upgrader.Upgrade(w, r, nil)`: the error it returns, and the state in which the
call leaves the response writer `w`.  The upgrader replies to the request itself before it
returns an error (with 400 to a request that is no websocket handshake, with 403 to an
origin that `CheckOrigin` refuses), or has taken the connection over by then. -/
structure UpgradeError where
  err : GoError
  w : http.ResponseWriter
deriving DecidableEq, Repr

/-- What `serveWs` has done when it returns: the error logged, the status passed to
`w.WriteHeader`, the status of the response written through `w` (`none` when no header has
been written through it), the results of `registerClient`, the goroutines started (in
order) and the hub pool. -/
structure Served (β : Type) where
  logged : Option GoError
  header : Option Nat
  status : Option Nat
  registered : Option (Client × β)
  tasks : List Task
  hubs : hubPool

/-- The method `ConnectionHandler.serveWs` (handler.go, lines 53-81).  `upgrade` is the
result of `upgrader.Upgrade(w, r, nil)`, `registerClient` the method of the hub pool,
whose second result is discarded.  On a failed upgrade line 57 calls `w.WriteHeader` on the
writer as the upgrader has left it; on a successful one the connection has been taken over
and `serveWs` writes nothing through `w`. -/
def serveWs {β : Type} (registerClient : String → Conn → hubPool → (Client × β) × hubPool)
    (upgrade : Except UpgradeError Conn) (channel : String) (hubs : hubPool) : Served β :=
  match upgrade with
  | .error failed =>
    ⟨some failed.err, some 500, (failed.w.WriteHeader 500).status, none, [], hubs⟩
  | .ok conn =>
    match registerClient channel conn hubs with
    | ((client, x), hubs1) =>
      ⟨none, none, none, some (client, x),
        [.writePump client, .readPump client, .supervisor client], hubs1⟩

/-- The method `ConnectionHandler.Handler` (handler.go, lines 41-51): the channel is the
path of the request URL.  The logger of lines 45-47 is `HandlerLog`; this definition is the
handler once that logger has been obtained. -/
def Handler {β : Type} (registerClient : String → Conn → hubPool → (Client × β) × hubPool)
    (upgrade : http.Request → Except UpgradeError Conn) (r : http.Request) (hubs : hubPool) :
    Served β :=
  let channel := r.URL.Path
  serveWs registerClient (upgrade r) channel hubs

/-! ### The goroutines of one connection -/

/-- Who performs an action on the hub or the transport. -/
inductive Actor where
  | readPump
  | writePump
  | supervisor
deriving DecidableEq, Repr

/-- The actions on the hub and on the transport, and the log line of the supervisor. -/
inductive Action where
  | logInfo (actor : Actor) (message : String) (disconnectAfter : Nat)
  | unregisterClient (actor : Actor) (client : Client)
  | Close (actor : Actor) (conn : Conn)
deriving DecidableEq, Repr

/-- The actor of an action. -/
def Action.actor : Action → Actor
  | .logInfo a _ _ => a
  | .unregisterClient a _ => a
  | .Close a _ => a

/-- The statement the supervisor goroutine (handler.go, lines 71-80) executes next. -/
inductive Line where
  /-- Lines 72-73: `disconnectAfter := 3 * time.Minute; timeout := time.After(...)`. -/
  | arm
  /-- Line 75: `<-timeout`. -/
  | wait
  /-- Line 76: `log.Info("Connection closed after", disconnectAfter)`. -/
  | log
  /-- Line 78: `client.hub.unregisterClient(client)`. -/
  | unregister
  /-- Line 79: `client.conn.Close()`. -/
  | close
  /-- The goroutine has returned. -/
  | done
deriving DecidableEq, Repr

/-- The supervisor goroutine: the captured `client`, its local variables
`disconnectAfter` and `timeout` (the instant at which the channel of `time.After`
delivers), and its next statement. -/
structure Supervisor where
  client : Client
  pc : Line
  disconnectAfter : Nat
  timeout : Option Nat
deriving DecidableEq, Repr

/-- The state the goroutines of one connection act on: the clock (nanoseconds), the hub
pool, the transport, the last-activity time and the supervisor, with the trace of the
actions performed so far. -/
structure Runtime where
  clock : Nat
  hubs : hubPool
  closed : Bool
  lastActivity : Nat
  sup : Supervisor
  trace : List Action
deriving DecidableEq, Repr

/-- The state right after `serveWs` has started the goroutines of `client` at instant
`clock`. -/
def Runtime.start (clock : Nat) (client : Client) (hubs : hubPool) : Runtime :=
  { clock := clock, hubs := hubs, closed := false, lastActivity := clock,
    sup := ⟨client, .arm, 0, none⟩, trace := [] }

/-- One step of the supervisor goroutine (handler.go, lines 71-80).  At `<-timeout` the
goroutine stays blocked until the clock has reached the instant of the timer. -/
def Runtime.supervisorStep (s : Runtime) : Runtime :=
  match s.sup.pc with
  | .arm =>
    let disconnectAfter := 3 * time.Minute
    { s with sup := { s.sup with disconnectAfter := disconnectAfter,
                                 timeout := some (s.clock + disconnectAfter),
                                 pc := .wait } }
  | .wait =>
    match s.sup.timeout with
    | some t => if t ≤ s.clock then { s with sup := { s.sup with pc := .log } } else s
    | none => s
  | .log =>
    { s with trace := s.trace ++
               [.logInfo .supervisor "Connection closed after" s.sup.disconnectAfter],
             sup := { s.sup with pc := .unregister } }
  | .unregister =>
    { s with hubs := s.hubs.unregisterClient s.sup.client,
             trace := s.trace ++ [.unregisterClient .supervisor s.sup.client],
             sup := { s.sup with pc := .close } }
  | .close =>
    { s with closed := true,
             trace := s.trace ++ [.Close .supervisor s.sup.client.conn],
             sup := { s.sup with pc := .done } }
  | .done => s

/-- What happens to a connection besides the steps of its supervisor. -/
inductive Traffic where
  /-- Time passes. -/
  | tick (dt : Nat)
  /-- The inbound pump reads a frame. -/
  | inbound
  /-- The outbound pump writes a queued message. -/
  | outbound
  /-- The inbound pump gets a read error or the peer closes. -/
  | readError
  /-- The outbound pump gets a write error. -/
  | writeError
deriving DecidableEq, Repr

/-- Modelled from the spec: the pumps of section 4.3, whose code is outside the embedded
files: a frame read updates the last-activity time; a read error makes the inbound pump
unregister from the hub and release the transport; a write error is treated identically. -/
def Runtime.traffic (e : Traffic) (s : Runtime) : Runtime :=
  match e with
  | .tick dt => { s with clock := s.clock + dt }
  | .inbound => { s with lastActivity := s.clock }
  | .outbound => s
  | .readError =>
    { s with hubs := s.hubs.unregisterClient s.sup.client, closed := true,
             trace := s.trace ++ [.unregisterClient .readPump s.sup.client,
                                  .Close .readPump s.sup.client.conn] }
  | .writeError =>
    { s with hubs := s.hubs.unregisterClient s.sup.client, closed := true,
             trace := s.trace ++ [.unregisterClient .writePump s.sup.client,
                                  .Close .writePump s.sup.client.conn] }

/-- The events of a connection: traffic and clock, or a step of the supervisor. -/
inductive Event where
  | traffic (e : Traffic)
  | supervisor
deriving DecidableEq, Repr

/-- One event. -/
def Runtime.step (s : Runtime) : Event → Runtime
  | .traffic e => s.traffic e
  | .supervisor => s.supervisorStep

/-- A schedule of events, run from left to right. -/
def Runtime.run (s : Runtime) (es : List Event) : Runtime :=
  es.foldl Runtime.step s

/-- The time that passes during traffic. -/
def elapsed : List Traffic → Nat
  | [] => 0
  | .tick dt :: es => dt + elapsed es
  | _ :: es => elapsed es

/-- The actions of the supervisor in a trace. -/
def supervisorActions (trace : List Action) : List Action :=
  trace.filter (fun a => decide (a.actor = .supervisor))

end websocket

/-! ## Sample data

A small store and the requests sent to it, used to run the handlers on concrete input. -/

namespace Sample

/-- The identifiers that have a textual form in the sample data. -/
def ids : List (String × UUID) :=
  [("7d0c1a3e-0000-4000-8000-000000000001", ⟨1⟩),
   ("7d0c1a3e-0000-4000-8000-000000000002", ⟨2⟩),
   ("7d0c1a3e-0000-4000-8000-000000000003", ⟨3⟩),
   ("7d0c1a3e-0000-4000-8000-000000000004", ⟨4⟩),
   ("7d0c1a3e-0000-4000-8000-000000000005", ⟨5⟩)]

/-- The textual form of the sample identifiers, a validity window of two minutes and
exclusive pairing. -/
def config : Spec.Config where
  window := 120
  allowMultiPairing := false
  uuidParse := fun s => (ids.find? (fun kv => decide (kv.1 = s))).map (fun kv => kv.2)
  uuidString := fun u => ((ids.find? (fun kv => decide (kv.2 = u))).map (fun kv => kv.1)).getD ""

/-- The device with identifier 1. -/
def device1 : Spec.MobileDevice := ⟨⟨1⟩, "SM-955F", "android", "fcm-token"⟩

/-- The device with identifier 4. -/
def device4 : Spec.MobileDevice := ⟨⟨4⟩, "Pixel", "android", ""⟩

/-- The extension with identifier 2. -/
def extension2 : Spec.BrowserExtension := ⟨⟨2⟩, "go-ext"⟩

/-- A store with no record at all, at instant 1000. -/
def empty : Spec.World := ⟨[], [], [], [], [], 1000⟩

/-- A store with device 1 and extension 2, not paired. -/
def unpaired : Spec.World := ⟨[device1], [extension2], [], [], [], 1000⟩

/-- A store with extension 2 only: device 1 does not exist. -/
def noDevice : Spec.World := ⟨[], [extension2], [], [], [], 1000⟩

/-- A store with device 1 only: extension 2 does not exist. -/
def noExtension : Spec.World := ⟨[device1], [], [], [], [], 1000⟩

/-- A store in which extension 2 is paired with device 4. -/
def pairedElsewhere : Spec.World :=
  ⟨[device1, device4], [extension2], [⟨⟨4⟩, ⟨2⟩, "key-4"⟩], [], [], 1000⟩

/-- A store in which device 1 is paired with extension 2. -/
def paired : Spec.World := ⟨[device1], [extension2], [⟨⟨1⟩, ⟨2⟩, "key-1"⟩], [], [], 1000⟩

/-- The request 3 of extension 2 for device 1, completed. -/
def completed3 : Spec.TokenRequest :=
  ⟨⟨3⟩, ⟨2⟩, ⟨1⟩, "domain.com", .completed, 990, some "123456"⟩

/-- The store `paired` holding the completed request 3. -/
def withCompleted : Spec.World := { paired with requests := [completed3] }

/-- The pairing request of device 1 with extension 2. -/
def pairCmd : command.PairMobileWithBrowserExtension :=
  ⟨"7d0c1a3e-0000-4000-8000-000000000001", "7d0c1a3e-0000-4000-8000-000000000002",
    "SM-955F", "key-1"⟩

/-- Device 1 answers token request 3 of extension 2. -/
def sendCmd : command.Send2FaToken :=
  ⟨"7d0c1a3e-0000-4000-8000-000000000001", "7d0c1a3e-0000-4000-8000-000000000002",
    "7d0c1a3e-0000-4000-8000-000000000003", "123456"⟩

/-- The error `c.BindJSON` returns for a JSON body that gives a member of the command twice,
first as a number and then as the string of the command: the decoder reports the number and
goes on, so the command is bound in full and the error is not nil. -/
def bindError : GoError :=
  .leaf ⟨"*json.UnmarshalTypeError", true⟩
    "json: cannot unmarshal number into Go value of type string"

/-- The listing of the pending requests of device 1. -/
def listQuery : query.DeviceBrowserExtension2FaRequestQuery :=
  ⟨"7d0c1a3e-0000-4000-8000-000000000001"⟩

/-- A registration with a name that has a leading space, and an empty FCM token. -/
def registerCmd : command.RegisterMobileDevice := ⟨⟨5⟩, " john doe", "android", ""⟩

/-- A registration with a name of three spaces. -/
def registerBlankCmd : command.RegisterMobileDevice := ⟨⟨5⟩, "   ", "android", "some-fake-token"⟩

end Sample

end TwoFas

namespace TwoFas

namespace websocket

/-- The actions the supervisor has performed when it is about to execute a statement. -/
def Line.performed (c : Client) : Line → List Action
  | .arm => []
  | .wait => []
  | .log => []
  | .unregister => [.logInfo .supervisor "Connection closed after" (3 * time.Minute)]
  | .close =>
    [.logInfo .supervisor "Connection closed after" (3 * time.Minute),
     .unregisterClient .supervisor c]
  | .done =>
    [.logInfo .supervisor "Connection closed after" (3 * time.Minute),
     .unregisterClient .supervisor c, .Close .supervisor c.conn]

/-- What holds in every state of the goroutines of the connection of client `c`: the
supervisor keeps its client; once armed it has its duration and its timer; it is past
`<-timeout` only when the clock has reached the timer; its actions so far are those of its
position; and it reaches `client.conn.Close()` only with the client unregistered. -/
structure Runtime.Inv (c : Client) (s : Runtime) : Prop where
  client : s.sup.client = c
  armed : s.sup.pc ≠ .arm →
    s.sup.disconnectAfter = 3 * time.Minute ∧ ∃ t, s.sup.timeout = some t
  fired : s.sup.pc ≠ .arm → s.sup.pc ≠ .wait → ∃ t, s.sup.timeout = some t ∧ t ≤ s.clock
  actions : supervisorActions s.trace = s.sup.pc.performed c
  unregistered : s.sup.pc = .close ∨ s.sup.pc = .done → s.hubs.isRegistered c = false

end websocket

namespace websocket

/-- The state of the goroutines of the connection when `serveWs` returns at instant
`clock`: the supervisor it has started is about to arm its timer.  There is none when
`serveWs` has started no supervisor. -/
def Served.runtime {β : Type} (served : Served β) (clock : Nat) : Option Runtime :=
  match served.tasks.findSome? (fun t =>
      match t with
      | .supervisor client => some client
      | _ => none) with
  | some client => some (Runtime.start clock client served.hubs)
  | none => none

end websocket

namespace Sample

/-- An environment in which the allowed origin is configured. -/
def environ : os.Environ :=
  [("PORT", "8081"), ("WEBSOCKET_ALLOWED_ORIGIN", "https://2fas.com")]

/-- An upgrade request from the allowed origin. -/
def fromAllowedOrigin : http.Request :=
  ⟨[("Connection", ["Upgrade"]), ("Origin", ["https://2fas.com"])],
    ⟨"/browser_extensions/7d0c1a3e-0000-4000-8000-000000000002", ""⟩⟩

/-- An upgrade request from another origin. -/
def fromOtherOrigin : http.Request :=
  ⟨[("Connection", ["Upgrade"]), ("Origin", ["https://2fas.com.evil.example"])],
    ⟨"/browser_extensions/7d0c1a3e-0000-4000-8000-000000000002", ""⟩⟩

/-- An upgrade request without an `Origin` header. -/
def withoutOrigin : http.Request :=
  ⟨[("Connection", ["Upgrade"])],
    ⟨"/browser_extensions/7d0c1a3e-0000-4000-8000-000000000002", ""⟩⟩

/-- The failed upgrade of a request that is no websocket handshake: the upgrader has replied
400 and returns a handshake error. -/
def notAHandshake : websocket.UpgradeError :=
  ⟨.leaf ⟨"websocket.HandshakeError", false⟩
      "websocket: the client is not using the websocket protocol", .wrote 400⟩

/-- The failed upgrade of a request whose origin `CheckOrigin` refuses: the upgrader has
replied 403. -/
def originRefused : websocket.UpgradeError :=
  ⟨.leaf ⟨"websocket.HandshakeError", false⟩
      "websocket: request origin not allowed by Upgrader.CheckOrigin", .wrote 403⟩

/-- A hub pool with no hub. -/
def noHubs : websocket.hubPool := ⟨[], 0⟩

end Sample

end TwoFas

namespace TwoFas

/-! ## More handlers of `internal/api/mobile/ports/http.go` -/

/-- The pointer type `*T` of a struct type `T`, the type of a variable declared
`var x *T`. -/
def GoType.ptr (t : GoType) : GoType := { t with pointer := true }

namespace command

/-- The command `command.UpdateMobileDevice` after binding; `Id` is the field the handler
reads. -/
structure UpdateMobileDevice where
  Id : String
deriving DecidableEq, Repr

/-- The command `command.RemoveDevicePairedExtension` after `c.BindUri`. -/
structure RemoveDevicePairedExtension where
  DeviceId : String
  ExtensionId : String
deriving DecidableEq, Repr

end command

/-- The collaborators of `RoutesHandler.UpdateMobileDevice`. -/
structure UpdateMobileDevicePorts (S P : Type) where
  /-- The call `r.validator.Struct(cmd)`. -/
  validate : command.UpdateMobileDevice → Option ValidationErrors
  /-- The call `r.cqrs.Commands.UpdateMobileDevice.Handle(cmd)`. -/
  Handle : command.UpdateMobileDevice → S → Option GoError × S
  /-- The call `r.cqrs.Queries.MobileDeviceQuery.Handle(q)`. -/
  Query : query.MobileDeviceQuery → S → Except GoError P

/-- The handler `RoutesHandler.UpdateMobileDevice` (http.go, lines 37-80); `cmd` is the
command after binding.  The variable `deviceNotFoundErr` has the struct type
`adapters.MobileDeviceCouldNotBeFound`. -/
def UpdateMobileDevice {S P : Type} (r : UpdateMobileDevicePorts S P)
    (cmd : command.UpdateMobileDevice) (s : S) : Outcome S P :=
  match r.validate cmd with
  | some validationErrors => ⟨400, .badRequestValidation validationErrors, s, []⟩
  | none =>
    match r.Handle cmd s with
    | (some err, s1) =>
      if errors.As err MobileDeviceCouldNotBeFound then
        ⟨404, .notFound err, s1, [.UpdateMobileDevice]⟩
      else
        ⟨400, .badRequest err, s1, [.UpdateMobileDevice]⟩
    | (none, s1) =>
      match r.Query ⟨cmd.Id⟩ s1 with
      | .error err => ⟨404, .notFound err, s1, [.UpdateMobileDevice, .MobileDeviceQuery]⟩
      | .ok presenter => ⟨200, .json presenter, s1, [.UpdateMobileDevice, .MobileDeviceQuery]⟩

/-- The collaborators of `RoutesHandler.RemovePairingWithExtension`. -/
structure RemovePairingWithExtensionPorts (S : Type) where
  /-- The call `r.validator.Struct(cmd)`. -/
  validate : command.RemoveDevicePairedExtension → Option ValidationErrors
  /-- The call `r.cqrs.Commands.RemovePairingWithExtension.Handle(cmd)`. -/
  Handle : command.RemoveDevicePairedExtension → S → Option GoError × S

/-- The handler `RoutesHandler.RemovePairingWithExtension` (http.go, lines 171-200); `cmd`
is the command after `c.BindUri`.  The variables `deviceNotFoundErr` and
`extensionsNotFoundErr` have the pointer types `*adapters.MobileDeviceCouldNotBeFound` and
`*browser_adapters.BrowserExtensionsCouldNotBeFound`. -/
def RemovePairingWithExtension {S P : Type} (r : RemovePairingWithExtensionPorts S)
    (cmd : command.RemoveDevicePairedExtension) (s : S) : Outcome S P :=
  match r.validate cmd with
  | some validationErrors => ⟨400, .badRequestValidation validationErrors, s, []⟩
  | none =>
    match r.Handle cmd s with
    | (some err, s1) =>
      if errors.As err MobileDeviceCouldNotBeFound.ptr ||
          errors.As err BrowserExtensionsCouldNotBeFound.ptr then
        ⟨404, .notFound err, s1, [.RemovePairingWithExtension]⟩
      else
        ⟨500, .internalServerError err, s1, [.RemovePairingWithExtension]⟩
    | (none, s1) =>
      ⟨200, .ok "Extension has been disconnected from device.", s1,
        [.RemovePairingWithExtension]⟩

namespace Spec

/-- Modelled from the spec: a pairing is "deleted explicitly by either side" (section 3);
the command fails with the not-found error of the side that does not exist, the error values
being those of `findById` and of `FindMobileAppExtensionById` (http.go, line 259). -/
def removePairing (cfg : Config) (deviceId extensionId : UUID) (w : World) :
    Option GoError × World :=
  if !(w.devices.any (fun d => decide (d.id = deviceId))) then
    (some (.leaf MobileDeviceCouldNotBeFound (cfg.uuidString deviceId)), w)
  else if !(w.extensions.any (fun e => decide (e.id = extensionId))) then
    (some (.leaf BrowserExtensionsCouldNotBeFound (cfg.uuidString extensionId)), w)
  else
    (none,
      { w with
        pairings := w.pairings.filter (fun p =>
          !(decide (p.deviceId = deviceId) && decide (p.extensionId = extensionId))) })

/-- Modelled from the spec: the collaborators of `RemovePairingWithExtension`. -/
def removePairingPorts (cfg : Config)
    (validate : command.RemoveDevicePairedExtension → Option ValidationErrors) :
    RemovePairingWithExtensionPorts World where
  validate := validate
  Handle := fun cmd w =>
    removePairing cfg ((cfg.uuidParse cmd.DeviceId).getD uuid.Nil)
      ((cfg.uuidParse cmd.ExtensionId).getD uuid.Nil) w

/-- Modelled from the spec: the collaborators of `UpdateMobileDevice` for a device that
the update command looks up with `findById`. -/
def updatePorts (cfg : Config)
    (validate : command.UpdateMobileDevice → Option ValidationErrors) :
    UpdateMobileDevicePorts World MobileDevice where
  validate := validate
  Handle := fun cmd w =>
    match findById cfg ((cfg.uuidParse cmd.Id).getD uuid.Nil) w with
    | .ok _ => (none, w)
    | .error err => (some err, w)
  Query := mobileDeviceQuery cfg

end Spec

namespace Sample

/-- The removal of the pairing of device 1 with extension 2. -/
def removeCmd : command.RemoveDevicePairedExtension :=
  ⟨"7d0c1a3e-0000-4000-8000-000000000001", "7d0c1a3e-0000-4000-8000-000000000002"⟩

/-- An update of device 1. -/
def updateCmd : command.UpdateMobileDevice := ⟨"7d0c1a3e-0000-4000-8000-000000000001"⟩

end Sample

end TwoFas

namespace TwoFas

namespace websocket

/-! ### Sequences of registrations and unregistrations -/

/-- An operation on the hub pool: the registration `serveWs` issues for a new connection
(handler.go, line 61), or the unregistration of a client, as issued by the lifetime
supervisor (handler.go, line 78) and by the pumps. -/
inductive HubOp where
  | register (channel : String) (conn : Conn)
  | unregister (client : Client)
deriving DecidableEq, Repr

/-- The hub pool after one operation. -/
def hubPool.apply (p : hubPool) : HubOp → hubPool
  | .register channel conn => (serveWs hubPool.registerClient (.ok conn) channel p).hubs
  | .unregister client => p.unregisterClient client

/-- The hub pool after a sequence of operations, from left to right. -/
def hubPool.applyAll (p : hubPool) (ops : List HubOp) : hubPool :=
  ops.foldl hubPool.apply p

/-- The ledger of a sequence of operations: the clients registered so far that have not
been unregistered since, in the order of their registration, and the identity of the next
client. -/
structure Ledger where
  live : List Client
  next : Nat
deriving DecidableEq, Repr

/-- The ledger after one operation: a registration enters the new client, an
unregistration strikes the client out if it is entered. -/
def Ledger.apply (l : Ledger) : HubOp → Ledger
  | .register channel conn => ⟨l.live ++ [⟨l.next, channel, conn⟩], l.next + 1⟩
  | .unregister client => ⟨l.live.filter (fun x => x ≠ client), l.next⟩

/-- The ledger after a sequence of operations. -/
def Ledger.applyAll (l : Ledger) (ops : List HubOp) : Ledger :=
  ops.foldl Ledger.apply l

/-- The number of clients of a channel that the ledger holds. -/
def Ledger.count (l : Ledger) (channel : String) : Nat :=
  (l.live.filter (fun c => decide (c.hub = channel))).length

/-- The hub pool agrees with the ledger: the same next identity, every hub holds exactly
the entered clients of its channel and at least one, and every entered client has its
hub. -/
structure hubPool.Agrees (p : hubPool) (l : Ledger) : Prop where
  next : p.next = l.next
  members : ∀ h ∈ p.hubs,
    h.clients = l.live.filter (fun c => decide (c.hub = h.channel)) ∧ h.clients ≠ []
  hubs : ∀ c ∈ l.live, ∃ h ∈ p.hubs, h.channel = c.hub

end websocket

namespace Sample

/-- An environment in which no allowed origin is configured. -/
def environWithoutOrigin : os.Environ := [("PORT", "8081")]

/-- An environment in which the allowed origin is set to the empty string. -/
def environWithEmptyOrigin : os.Environ :=
  [("PORT", "8081"), ("WEBSOCKET_ALLOWED_ORIGIN", "")]

/-- An upgrade request on the path of `fromAllowedOrigin`, with a query string and from
another origin. -/
def samePathOtherQuery : http.Request :=
  ⟨[("Connection", ["Upgrade"]), ("Origin", ["https://elsewhere.example"])],
    ⟨"/browser_extensions/7d0c1a3e-0000-4000-8000-000000000002", "token=1"⟩⟩

end Sample

end TwoFas

namespace TwoFas

namespace Sample

/-- A `registerClient` that fails: it returns a client that it has not entered into any
hub, together with an error. -/
def failingRegisterClient (channel : String) (conn : websocket.Conn)
    (p : websocket.hubPool) : (websocket.Client × Option GoError) × websocket.hubPool :=
  ((⟨p.next, channel, conn⟩, some (.leaf ⟨"*errors.errorString", true⟩ "hub is closed")), p)

end Sample

end TwoFas

namespace TwoFas

/-! ## `internal/api/icons/adapters/mobile_web_services_gorm_repository.go` -/

namespace errors

/-- The function `errors.Is(err, target)`: walks the chain of `err` and reports whether
some error in it equals `target`.  A sentinel error is a value of its own. -/
def Is : GoError → GoError → Bool
  | .leaf t d, target => decide (GoError.leaf t d = target)
  | .wrap t d inner, target => decide (GoError.wrap t d inner = target) || Is inner target

end errors

namespace fmt

/-- The dynamic type of the errors built by `fmt.Errorf` with the verb `%w`. -/
def wrapError : GoType := ⟨"fmt.wrapError", true⟩

/-- The function `fmt.Errorf(format, args..., err)` with one `%w` verb for `err`: an error
that wraps `err`.  The detail keeps the format and the other arguments. -/
def Errorf (format : String) (args : List String) (err : GoError) : GoError :=
  .wrap wrapError (String.intercalate " " (format :: args)) err

end fmt

namespace gorm

/-- The sentinel `gorm.ErrRecordNotFound`. -/
def ErrRecordNotFound : GoError := .leaf ⟨"gorm.ErrRecordNotFound", true⟩ "record not found"

/-- A table behind `*gorm.DB`: its rows, and the error every statement meets (a lost
connection, say) if there is one. -/
structure DB (R : Type) where
  rows : List R
  failure : Option GoError

/-- The result of `db.First(&dest, condition, arg)`: the error of the statement, else the
first row that meets the condition, else `gorm.ErrRecordNotFound`. -/
def DB.First {R : Type} (db : DB R) (condition : R → Bool) : Except GoError R :=
  match db.failure with
  | some err => .error err
  | none =>
    match db.rows.find? condition with
    | some row => .ok row
    | none => .error ErrRecordNotFound

end gorm

namespace icons

/-- The type `datatypes.JSON`: the bytes of a JSON document. -/
abbrev JSON := String

/-- The record `domain.WebService`, with the fields `TransformIconRequestToWebService`
sets (icons_requests.go, lines 427-434). -/
structure WebService where
  Id : UUID
  Name : String
  Issuers : JSON
  Tags : JSON
  IconsCollections : JSON
  MatchRules : Option JSON
deriving DecidableEq, Repr

/-- The struct type `adapters.WebServiceCouldNotBeFound`; the detail of an error of this
type is its field `Identifier`. -/
def WebServiceCouldNotBeFound : GoType := ⟨"adapters.WebServiceCouldNotBeFound", false⟩

/-- The method `WebServiceCouldNotBeFound.Error` (lines 18-20). -/
def WebServiceCouldNotBeFound.Error (identifier : String) : String :=
  "Web service could not be found: " ++ identifier

/-- The repository `WebServiceMysqlRepository`: its table, with the method `String` of
`uuid.UUID` and the helper `db.WrapError`, which is declared in another package. -/
structure WebServiceMysqlRepository where
  db : gorm.DB WebService
  uuidString : UUID → String
  WrapError : GoError → GoError

/-- The method `WebServiceMysqlRepository.FindById` (lines 54-67): `.ok` stands for
`(webService, nil)` and `.error` for `(nil, err)`. -/
def WebServiceMysqlRepository.FindById (r : WebServiceMysqlRepository) (id : UUID) :
    Except GoError WebService :=
  match r.db.First (fun row => decide (r.uuidString row.Id = r.uuidString id)) with
  | .error err =>
    if errors.Is err gorm.ErrRecordNotFound then
      .error (.leaf WebServiceCouldNotBeFound (r.uuidString id))
    else
      .error (r.WrapError err)
  | .ok webService => .ok webService

end icons

namespace Sample

/-- The sample web service 1, with one icons collection. -/
def webService1 : icons.WebService :=
  ⟨⟨1⟩, "2FAS", "[\"2fas\"]", "[]", "[\"7d0c1a3e-0000-4000-8000-000000000002\"]", none⟩

/-- A repository that holds web service 1; `db.WrapError` wraps the error in a `db.DBError`. -/
def webServices : icons.WebServiceMysqlRepository where
  db := ⟨[webService1], none⟩
  uuidString := config.uuidString
  WrapError := fun err => .wrap ⟨"db.DBError", false⟩ "db error" err

/-- The repository `webServices` when the connection to the database is lost. -/
def webServicesOffline : icons.WebServiceMysqlRepository :=
  { webServices with
    db := ⟨[webService1], some (.leaf ⟨"*net.OpError", true⟩ "connection refused")⟩ }

end Sample

end TwoFas

namespace TwoFas

/-! ## `internal/api/icons/app/command/icons_requests.go` -/

namespace icons

/-- The record `domain.IconRequest`, with the fields `CreateIconRequestHandler.Handle` sets
(lines 56-63 and 80). -/
structure IconRequest where
  Id : UUID
  CallerId : String
  Issuers : JSON
  ServiceName : String
  Description : String
  LightIconUrl : String
  DarkIconUrl : String
deriving DecidableEq, Repr

/-- The constants `domain.Light` and `domain.Dark`. -/
inductive IconType where
  | Light
  | Dark
deriving DecidableEq, Repr

/-- The record `domain.Icon`, with the fields set in lines 172-179; `Type_` is its field
`Type`. -/
structure Icon where
  Id : UUID
  Name : String
  Url : String
  Width : Int
  Height : Int
  Type_ : IconType
deriving DecidableEq, Repr

/-- The record `domain.IconsCollection`, with the fields set in lines 232-236. -/
structure IconsCollection where
  Id : UUID
  Name : String
  Icons : JSON
deriving DecidableEq, Repr

/-- The command `UpdateWebServiceFromIconRequest` (lines 117-120). -/
structure UpdateWebServiceFromIconRequest where
  IconRequestId : String
  WebServiceId : String
deriving DecidableEq, Repr

/-- The calls of `Handle` to its collaborators, its log lines and its read of the field
`Icons` through the pointer `outDatedIconsCollection` (`none` is the nil pointer), as they
appear in a trace. -/
inductive Call where
  | IconsRequestsFindById (id : UUID)
  | WebServiceFindById (id : UUID)
  | StorageGet (path : String)
  | StorageMove (source destination : String)
  | IconsSave (icon : Icon)
  | IconsCollectionsSave (collection : IconsCollection)
  | IconsCollectionsFindById (id : UUID)
  | IconsCollectionsDelete (collection : Option IconsCollection)
  | IconsField (collection : Option IconsCollection)
  | IconsFindById (id : UUID)
  | IconsDelete (icon : Option Icon)
  | logError (field value message : String)
  | WebServiceUpdate (webService : WebService)
  | IconsRequestsDelete (iconRequest : IconRequest)
deriving DecidableEq, Repr

/-- How a part of `Handle` ends: it goes on with a value, it returns an error, or it
panics. -/
inductive Flow (α : Type) where
  | next (value : α)
  | returned (err : GoError)
  | panicked (reason : String)
deriving DecidableEq, Repr

/-- A part of `Handle` that has run: how it ended, the store it left and its calls, in
order. -/
structure Step (S α : Type) where
  flow : Flow α
  store : S
  calls : List Call

/-- Sequencing: the second part runs on the value and the store of the first when the first
goes on; an error returned or a panic ends the run. -/
def Step.andThen {S α β : Type} (x : Step S α) (f : α → S → Step S β) : Step S β :=
  match x.flow with
  | .next a => ⟨(f a x.store).flow, (f a x.store).store, x.calls ++ (f a x.store).calls⟩
  | .returned err => ⟨.returned err, x.store, x.calls⟩
  | .panicked reason => ⟨.panicked reason, x.store, x.calls⟩

/-- A failed `uuid.Parse`: the error, and the identifier the function returns next to it,
which is what a caller that discards the error goes on with. -/
structure ParseFailure where
  err : GoError
  value : UUID
deriving DecidableEq, Repr

/-- The libraries `Handle` calls, and the constant `iconsStoragePath`, which is declared in
another file of the package.  `I` is the type of a stored image. -/
structure Libraries (I : Type) where
  /-- The function `uuid.Parse`, with its two results. -/
  uuidParse : String → Except ParseFailure UUID
  /-- The method `String` of `uuid.UUID`. -/
  uuidString : UUID → String
  iconsStoragePath : String
  /-- The function `filepath.Join` of two elements. -/
  filepathJoin : String → String → String
  /-- The function `filepath.Base`. -/
  filepathBase : String → String
  /-- The function `png.Decode` followed by `Bounds().Dx()` and `Bounds().Dy()`. -/
  pngDecode : I → Except GoError (Int × Int)
  /-- The function `json.Marshal` on a `[]string`. -/
  jsonMarshal : List String → Except GoError JSON
  /-- The function `json.Unmarshal` into a `[]string`. -/
  jsonUnmarshal : JSON → Except GoError (List String)
  /-- The helper `db.IsDBError`. -/
  IsDBError : GoError → Bool

/-- The methods of `storage.FileSystemStorage` that `Handle` calls, on a store `S`. -/
structure FileSystemStorage (S I : Type) where
  Get : String → S → Except GoError I
  Move : String → String → S → Except GoError String × S

/-- The methods of `domain.WebServicesRepository` that `Handle` calls. -/
structure WebServicesRepository (S : Type) where
  FindById : UUID → S → Except GoError WebService
  Update : WebService → S → Option GoError × S

/-- The methods of `domain.IconsCollectionRepository` that `Handle` calls.  `FindById`
returns the two results of the Go method, a pointer (`none` when nil) and an error. -/
structure IconsCollectionRepository (S : Type) where
  Save : IconsCollection → S → Option GoError × S
  FindById : UUID → S → Option IconsCollection × Option GoError
  Delete : Option IconsCollection → S → Option GoError × S

/-- The methods of `domain.IconsRepository` that `Handle` calls.  `FindById` returns the two
results of the Go method, a pointer (`none` when nil) and an error. -/
structure IconsRepository (S : Type) where
  Save : Icon → S → Option GoError × S
  FindById : UUID → S → Option Icon × Option GoError
  Delete : Option Icon → S → Option GoError × S

/-- The methods of `domain.IconsRequestsRepository` that `Handle` calls. -/
structure IconsRequestsRepository (S : Type) where
  FindById : UUID → S → Except GoError IconRequest
  Delete : IconRequest → S → Option GoError × S

/-- The struct `UpdateWebServiceFromIconRequestHandler` (lines 122-128), with the libraries
it calls. -/
structure UpdateWebServiceFromIconRequestHandler (S I : Type) where
  lib : Libraries I
  IconsStorage : FileSystemStorage S I
  WebServiceRepository : WebServicesRepository S
  IconsCollectionsRepository : IconsCollectionRepository S
  IconsRepository : IconsRepository S
  IconsRequestsRepository : IconsRequestsRepository S

/-- The three values of `uuid.New()` in `Handle` (lines 151, 165 and 203). -/
structure NewIds where
  iconsCollectionId : UUID
  lightIconId : UUID
  darkIconId : UUID
deriving DecidableEq, Repr

namespace UpdateWebServiceFromIconRequestHandler

variable {S I : Type}

/-- Lines 153-184 for the light icon and lines 191-222 for the dark icon: the icon of the
request is read from the storage, decoded, moved to its new path and saved as an icon.  The
two passages differ in the type of the icon and in the messages of their errors. -/
def icon (h : UpdateWebServiceFromIconRequestHandler S I) (type : IconType)
    (url name : String) (iconId : UUID) (getMsg decodeMsg moveMsg saveMsg : String)
    (s : S) : Step S Icon :=
  let storagePath := h.lib.filepathJoin h.lib.iconsStoragePath (h.lib.filepathBase url)
  match h.IconsStorage.Get storagePath s with
  | .error err => ⟨.returned (fmt.Errorf getMsg [] err), s, [.StorageGet storagePath]⟩
  | .ok img =>
    match h.lib.pngDecode img with
    | .error err => ⟨.returned (fmt.Errorf decodeMsg [] err), s, [.StorageGet storagePath]⟩
    | .ok bounds =>
      let newPath :=
        h.lib.filepathJoin h.lib.iconsStoragePath (h.lib.uuidString iconId ++ ".png")
      match h.IconsStorage.Move storagePath newPath s with
      | (.error err, s1) =>
        ⟨.returned (fmt.Errorf moveMsg [] err), s1,
          [.StorageGet storagePath, .StorageMove storagePath newPath]⟩
      | (.ok location, s1) =>
        let icon : Icon := ⟨iconId, name, location, bounds.1, bounds.2, type⟩
        match h.IconsRepository.Save icon s1 with
        | (some err, s2) =>
          ⟨.returned (fmt.Errorf saveMsg [] err), s2,
            [.StorageGet storagePath, .StorageMove storagePath newPath, .IconsSave icon]⟩
        | (none, s2) =>
          ⟨.next icon, s2,
            [.StorageGet storagePath, .StorageMove storagePath newPath, .IconsSave icon]⟩

/-- Lines 131-149: the two identifiers are parsed, the icon request and the web service are
looked up. -/
def lookup (h : UpdateWebServiceFromIconRequestHandler S I)
    (cmd : UpdateWebServiceFromIconRequest) (s : S) : Step S (IconRequest × WebService) :=
  match h.lib.uuidParse cmd.WebServiceId with
  | .error failed => ⟨.returned failed.err, s, []⟩
  | .ok webServiceId =>
    match h.lib.uuidParse cmd.IconRequestId with
    | .error failed => ⟨.returned failed.err, s, []⟩
    | .ok iconRequestId =>
      match h.IconsRequestsRepository.FindById iconRequestId s with
      | .error err => ⟨.returned err, s, [.IconsRequestsFindById iconRequestId]⟩
      | .ok iconRequest =>
        match h.WebServiceRepository.FindById webServiceId s with
        | .error err =>
          ⟨.returned err, s,
            [.IconsRequestsFindById iconRequestId, .WebServiceFindById webServiceId]⟩
        | .ok webService =>
          ⟨.next (iconRequest, webService), s,
            [.IconsRequestsFindById iconRequestId, .WebServiceFindById webServiceId]⟩

/-- Lines 186-225: the identifiers of the new icons, the light one and, when the request
has a dark icon, the dark one. -/
def iconsIds (h : UpdateWebServiceFromIconRequestHandler S I) (new : NewIds)
    (iconRequest : IconRequest) (lightIcon : Icon) (s : S) : Step S (List String) :=
  if iconRequest.DarkIconUrl ≠ "" then
    (h.icon .Dark iconRequest.DarkIconUrl iconRequest.ServiceName new.darkIconId
      "failed to get dark icon: %w" "failed to decode dark icon: %w"
      "failed to move dark icon: %w" "failed to save dark icon: %w" s).andThen
      fun _ s1 =>
        ⟨.next [h.lib.uuidString lightIcon.Id, h.lib.uuidString new.darkIconId], s1, []⟩
  else
    ⟨.next [h.lib.uuidString lightIcon.Id], s, []⟩

/-- Lines 227-241: the new icons collection is built from the identifiers of the icons and
saved. -/
def collection (h : UpdateWebServiceFromIconRequestHandler S I) (new : NewIds)
    (iconRequest : IconRequest) (ids : List String) (s : S) : Step S IconsCollection :=
  match h.lib.jsonMarshal ids with
  | .error err => ⟨.returned (fmt.Errorf "failed to marshal icon ids: %w" [] err), s, []⟩
  | .ok iconsJson =>
    let iconsCollection : IconsCollection :=
      ⟨new.iconsCollectionId, iconRequest.ServiceName, iconsJson⟩
    match h.IconsCollectionsRepository.Save iconsCollection s with
    | (some err, s1) =>
      ⟨.returned (fmt.Errorf "failed to save icons collection: %w" [] err), s1,
        [.IconsCollectionsSave iconsCollection]⟩
    | (none, s1) => ⟨.next iconsCollection, s1, [.IconsCollectionsSave iconsCollection]⟩

/-- Lines 243-248: the identifiers of the icons collections of the web service are
decoded. -/
def previousCollections (h : UpdateWebServiceFromIconRequestHandler S I)
    (webService : WebService) (s : S) : Step S (List String) :=
  match h.lib.jsonUnmarshal webService.IconsCollections with
  | .error err =>
    ⟨.returned (fmt.Errorf "failed to decode icons collection from web service: %w" [] err),
      s, []⟩
  | .ok webServiceIconsCollectionsIds => ⟨.next webServiceIconsCollectionsIds, s, []⟩

/-- Lines 277-285, the body of the inner loop for one element `outdatedIconId`: the error of
`uuid.Parse` is discarded, which leaves in `iconId` the identifier returned next to it; the
icon is looked up and deleted when the lookup has no error, and the failure is logged when
the error is a database error. -/
def cleanIcon (h : UpdateWebServiceFromIconRequestHandler S I) (outdatedIconId : String)
    (s : S) : Step S Unit :=
  let iconId :=
    match h.lib.uuidParse outdatedIconId with
    | .ok id => id
    | .error failed => failed.value
  match h.IconsRepository.FindById iconId s with
  | (iconToDelete, none) =>
    ⟨.next (), (h.IconsRepository.Delete iconToDelete s).2,
      [.IconsFindById iconId, .IconsDelete iconToDelete]⟩
  | (_, some err) =>
    if h.lib.IsDBError err then
      ⟨.next (), s,
        [.IconsFindById iconId,
         .logError "icon_id" (h.lib.uuidString iconId) "Failed to delete icon by id"]⟩
    else
      ⟨.next (), s, [.IconsFindById iconId]⟩

/-- Lines 276-286, the inner loop over a list of identifiers. -/
def cleanIcons (h : UpdateWebServiceFromIconRequestHandler S I) :
    List String → S → Step S Unit
  | [], s => ⟨.next (), s, []⟩
  | outdatedIconId :: rest, s =>
    (h.cleanIcon outdatedIconId s).andThen fun _ s1 => cleanIcons h rest s1

/-- Lines 251-286, the body of the outer loop for one element `outdatedIconsCollectionId`;
`webServiceIconsCollectionsIds` is the list the outer loop ranges over, which is also the
list the inner loop ranges over (line 276).  The collection is looked up; when the lookup
has an error the failure is logged, else the collection is deleted and a failure of the
deletion is logged.  Then the field `Icons` is read through the pointer the lookup returned,
which panics on the nil pointer, and decoded into `outdatedCollectionIcons`, which is not
used afterwards. -/
def cleanCollection (h : UpdateWebServiceFromIconRequestHandler S I)
    (webServiceIconsCollectionsIds : List String) (outdatedIconsCollectionId : String)
    (s : S) : Step S Unit :=
  match h.lib.uuidParse outdatedIconsCollectionId with
  | .error failed =>
    ⟨.returned (fmt.Errorf "failed to parse \x27outdatedIconsCollectionId\x27 %q: %w"
        [outdatedIconsCollectionId] failed.err), s, []⟩
  | .ok id =>
    let found := h.IconsCollectionsRepository.FindById id s
    let outDatedIconsCollection := found.1
    let deleted : Step S Unit :=
      match found.2 with
      | some _ =>
        ⟨.next (), s,
          [.IconsCollectionsFindById id,
           .logError "icon_collection_id" outdatedIconsCollectionId
             "Out of date icons collection cannot be found"]⟩
      | none =>
        match h.IconsCollectionsRepository.Delete outDatedIconsCollection s with
        | (some _, s1) =>
          ⟨.next (), s1,
            [.IconsCollectionsFindById id, .IconsCollectionsDelete outDatedIconsCollection,
             .logError "icon_collection_id" outdatedIconsCollectionId
               "Cannot delete out of date icons collection"]⟩
        | (none, s1) =>
          ⟨.next (), s1,
            [.IconsCollectionsFindById id, .IconsCollectionsDelete outDatedIconsCollection]⟩
    deleted.andThen fun _ s1 =>
      match outDatedIconsCollection with
      | none =>
        ⟨.panicked "invalid memory address or nil pointer dereference", s1,
          [.IconsField none]⟩
      | some collection =>
        match h.lib.jsonUnmarshal collection.Icons with
        | .error err =>
          ⟨.returned (fmt.Errorf "failed to decode \x27outdatedCollectionIcons\x27: %w" [] err),
            s1, [.IconsField (some collection)]⟩
        | .ok _ =>
          (⟨.next (), s1, [.IconsField (some collection)]⟩ : Step S Unit).andThen
            fun _ s2 => h.cleanIcons webServiceIconsCollectionsIds s2

/-- Lines 250-287, the outer loop over the rest of `webServiceIconsCollectionsIds`. -/
def cleanCollections (h : UpdateWebServiceFromIconRequestHandler S I)
    (webServiceIconsCollectionsIds : List String) : List String → S → Step S Unit
  | [], s => ⟨.next (), s, []⟩
  | outdatedIconsCollectionId :: rest, s =>
    (h.cleanCollection webServiceIconsCollectionsIds outdatedIconsCollectionId s).andThen
      fun _ s1 => cleanCollections h webServiceIconsCollectionsIds rest s1

/-- Lines 289-300: the web service gets the new icons collection as its only one and is
updated, and the icon request is deleted. -/
def finish (h : UpdateWebServiceFromIconRequestHandler S I) (iconRequest : IconRequest)
    (webService : WebService) (iconsCollection : IconsCollection) (s : S) : Step S Unit :=
  let updated : WebService :=
    { webService with
      IconsCollections := "[\"" ++ h.lib.uuidString iconsCollection.Id ++ "\"]" }
  match h.WebServiceRepository.Update updated s with
  | (some err, s1) =>
    ⟨.returned (fmt.Errorf "failed to update web service %q: %w"
        [h.lib.uuidString webService.Id] err), s1, [.WebServiceUpdate updated]⟩
  | (none, s1) =>
    match h.IconsRequestsRepository.Delete iconRequest s1 with
    | (some err, s2) =>
      ⟨.returned (fmt.Errorf "failed to delete icon request %q: %w"
          [h.lib.uuidString iconRequest.Id] err), s2,
        [.WebServiceUpdate updated, .IconsRequestsDelete iconRequest]⟩
    | (none, s2) =>
      ⟨.next (), s2, [.WebServiceUpdate updated, .IconsRequestsDelete iconRequest]⟩

/-- The method `UpdateWebServiceFromIconRequestHandler.Handle` (lines 130-301); `new` holds
the values of `uuid.New()`.  A run that goes on to the end returns nil. -/
def Handle (h : UpdateWebServiceFromIconRequestHandler S I) (new : NewIds)
    (cmd : UpdateWebServiceFromIconRequest) (s : S) : Step S Unit :=
  (h.lookup cmd s).andThen fun found s1 =>
    (h.icon .Light found.1.LightIconUrl found.1.ServiceName new.lightIconId
      "failed to get the icon from the storage: %w" "failed to decode the icon as pgn: %w"
      "failed to move icons storage: %w" "failed to save light icon: %w" s1).andThen
    fun lightIcon s2 =>
      (h.iconsIds new found.1 lightIcon s2).andThen fun ids s3 =>
        (h.collection new found.1 ids s3).andThen fun iconsCollection s4 =>
          (h.previousCollections found.2 s4).andThen fun webServiceIconsCollectionsIds s5 =>
            (h.cleanCollections webServiceIconsCollectionsIds webServiceIconsCollectionsIds
              s5).andThen fun _ s6 => h.finish found.1 found.2 iconsCollection s6

end UpdateWebServiceFromIconRequestHandler

/-- The identifiers passed to `IconsRepository.FindById` in a trace, in order. -/
def iconLookups (calls : List Call) : List UUID :=
  calls.filterMap fun call =>
    match call with
    | .IconsFindById id => some id
    | _ => none

/-- The number of passes of the outer loop that have decoded the icon list of their
collection, in a trace: the reads of the field `Icons` of a collection whose icon list
`json.Unmarshal` decodes (lines 270-274 without the return of line 273). -/
def decodedPasses {I : Type} (lib : Libraries I) (calls : List Call) : Nat :=
  calls.countP fun call =>
    match call with
    | .IconsField (some collection) => (lib.jsonUnmarshal collection.Icons).isOk
    | _ => false

/-- The identifier `uuid.Parse` leaves in `iconId` (line 277), where its error is
discarded: the parsed identifier, or the one returned next to the error. -/
def parsedId {I : Type} (lib : Libraries I) (text : String) : UUID :=
  match lib.uuidParse text with
  | .ok id => id
  | .error failed => failed.value

end icons

end TwoFas

namespace TwoFas

namespace Sample

/-- A store for the icons: the files of the storage with the bounds of their images, and
the tables of the repositories. -/
structure IconsStore where
  files : List (String × (Int × Int))
  webServices : List icons.WebService
  collections : List icons.IconsCollection
  iconsTable : List icons.Icon
  requests : List icons.IconRequest
deriving DecidableEq, Repr

/-- The JSON documents the sample data holds, with the lists they decode to. -/
def documents : List (icons.JSON × List String) :=
  [("[\"7d0c1a3e-0000-4000-8000-000000000002\"]", ["7d0c1a3e-0000-4000-8000-000000000002"]),
   ("[\"7d0c1a3e-0000-4000-8000-000000000001\",\"7d0c1a3e-0000-4000-8000-000000000002\"]",
     ["7d0c1a3e-0000-4000-8000-000000000001", "7d0c1a3e-0000-4000-8000-000000000002"]),
   ("[\"icon-a\"]", ["icon-a"]),
   ("[\"icon-b\",\"icon-c\"]", ["icon-b", "icon-c"])]

/-- The error of a lookup that finds no record. -/
def notFound (what identifier : String) : GoError := .leaf ⟨what, false⟩ identifier

/-- The identifiers of the sample data, with those that `uuid.New()` returns in the sample
runs. -/
def iconIds : List (String × UUID) :=
  ids ++
    [("7d0c1a3e-0000-4000-8000-000000000006", ⟨6⟩),
     ("7d0c1a3e-0000-4000-8000-000000000007", ⟨7⟩),
     ("7d0c1a3e-0000-4000-8000-000000000008", ⟨8⟩)]

/-- The libraries on the sample data: identifiers have the textual forms of `iconIds` (the
parse of another text fails with the zero identifier), paths are joined with a slash, a
stored image is its bounds, and the JSON documents are those of `documents`. -/
def libraries : icons.Libraries (Int × Int) where
  uuidParse := fun text =>
    match iconIds.find? (fun kv => decide (kv.1 = text)) with
    | some kv => .ok kv.2
    | none => .error ⟨.leaf ⟨"uuid.invalidLengthError", false⟩ text, uuid.Nil⟩
  uuidString := fun id =>
    ((iconIds.find? (fun kv => decide (kv.2 = id))).map (fun kv => kv.1)).getD ""
  iconsStoragePath := "icons"
  filepathJoin := fun dir name => dir ++ "/" ++ name
  filepathBase := fun path =>
    String.mk (path.data.reverse.takeWhile (fun c => decide (c ≠ '/'))).reverse
  pngDecode := fun img => .ok img
  jsonMarshal := fun ids =>
    .ok ("[" ++ String.intercalate "," (ids.map fun id => "\"" ++ id ++ "\"") ++ "]")
  jsonUnmarshal := fun doc =>
    match documents.find? (fun kv => decide (kv.1 = doc)) with
    | some kv => .ok kv.2
    | none => .error (.leaf ⟨"*json.SyntaxError", true⟩ doc)
  IsDBError := fun err => errors.As err ⟨"db.DBError", false⟩

/-- The handler on the sample store: the repositories are the tables of the store, a lookup
that finds no record returns the nil pointer and a not-found error. -/
def iconsHandler : icons.UpdateWebServiceFromIconRequestHandler IconsStore (Int × Int) where
  lib := libraries
  IconsStorage :=
    { Get := fun path s =>
        match s.files.find? (fun kv => decide (kv.1 = path)) with
        | some kv => .ok kv.2
        | none => .error (notFound "storage.FileNotFound" path)
      Move := fun source destination s =>
        match s.files.find? (fun kv => decide (kv.1 = source)) with
        | some kv =>
          (.ok destination,
            { s with files :=
                s.files.filter (fun kv => decide (kv.1 ≠ source)) ++ [(destination, kv.2)] })
        | none => (.error (notFound "storage.FileNotFound" source), s) }
  WebServiceRepository :=
    { FindById := fun id s =>
        match s.webServices.find? (fun w => decide (w.Id = id)) with
        | some w => .ok w
        | none => .error (notFound "adapters.WebServiceCouldNotBeFound" (config.uuidString id))
      Update := fun w s =>
        (none, { s with webServices :=
          s.webServices.map (fun x => if x.Id = w.Id then w else x) }) }
  IconsCollectionsRepository :=
    { Save := fun c s => (none, { s with collections := s.collections ++ [c] })
      FindById := fun id s =>
        match s.collections.find? (fun c => decide (c.Id = id)) with
        | some c => (some c, none)
        | none =>
          (none, some (notFound "adapters.IconsCollectionCouldNotBeFound"
            (config.uuidString id)))
      Delete := fun c s =>
        (none, { s with collections := s.collections.filter (fun x => some x ≠ c) }) }
  IconsRepository :=
    { Save := fun i s => (none, { s with iconsTable := s.iconsTable ++ [i] })
      FindById := fun id s =>
        match s.iconsTable.find? (fun i => decide (i.Id = id)) with
        | some i => (some i, none)
        | none => (none, some (notFound "adapters.IconCouldNotBeFound" (config.uuidString id)))
      Delete := fun i s =>
        (none, { s with iconsTable := s.iconsTable.filter (fun x => some x ≠ i) }) }
  IconsRequestsRepository :=
    { FindById := fun id s =>
        match s.requests.find? (fun r => decide (r.Id = id)) with
        | some r => .ok r
        | none => .error (notFound "adapters.IconRequestCouldNotBeFound" (config.uuidString id))
      Delete := fun r s => (none, { s with requests := s.requests.filter (fun x => x ≠ r) }) }

/-- The icon request 3, for the service `2FAS`, with a light icon only. -/
def iconRequest3 : icons.IconRequest :=
  ⟨⟨3⟩, "caller", "[\"2fas\"]", "2FAS", "", "https://cdn.example/icons/ir_3.light.png", ""⟩

/-- The store in which web service 1 lists the icons collection 2, which is not stored. -/
def missingCollection : IconsStore :=
  ⟨[("icons/ir_3.light.png", (64, 64))], [webService1], [], [], [iconRequest3]⟩

/-- The store in which web service 1 lists the stored icons collection 2, whose icon list
is not a JSON document. -/
def undecodableCollection : IconsStore :=
  ⟨[("icons/ir_3.light.png", (64, 64))], [webService1], [⟨⟨2⟩, "2FAS", "icon-a"⟩], [],
    [iconRequest3]⟩

/-- The same store with the icon list `["icon-a"]` in the icons collection 2. -/
def decodableCollection : IconsStore :=
  ⟨[("icons/ir_3.light.png", (64, 64))], [webService1], [⟨⟨2⟩, "2FAS", "[\"icon-a\"]"⟩], [],
    [iconRequest3]⟩

/-- The web service 4, which lists the icons collections 1 and 2. -/
def webService4 : icons.WebService :=
  ⟨⟨4⟩, "2FAS", "[\"2fas\"]", "[]",
    "[\"7d0c1a3e-0000-4000-8000-000000000001\",\"7d0c1a3e-0000-4000-8000-000000000002\"]",
    none⟩

/-- The store in which web service 4 lists the stored icons collections 1 and 2, whose
icon lists name the icons `icon-a`, `icon-b` and `icon-c`. -/
def twoCollections : IconsStore :=
  ⟨[("icons/ir_3.light.png", (64, 64))], [webService4],
    [⟨⟨1⟩, "2FAS", "[\"icon-a\"]"⟩, ⟨⟨2⟩, "2FAS", "[\"icon-b\",\"icon-c\"]"⟩], [],
    [iconRequest3]⟩

/-- The values of `uuid.New()` in the sample runs. -/
def newIds : icons.NewIds := ⟨⟨6⟩, ⟨7⟩, ⟨8⟩⟩

/-- The update of web service 1 from icon request 3. -/
def updateWebService1 : icons.UpdateWebServiceFromIconRequest :=
  ⟨"7d0c1a3e-0000-4000-8000-000000000003", "7d0c1a3e-0000-4000-8000-000000000001"⟩

/-- The update of web service 4 from icon request 3. -/
def updateWebService4 : icons.UpdateWebServiceFromIconRequest :=
  ⟨"7d0c1a3e-0000-4000-8000-000000000003", "7d0c1a3e-0000-4000-8000-000000000004"⟩

end Sample

end TwoFas

namespace TwoFas

/-! ## The handler `FindMobileAppExtensionById` of `internal/api/mobile/ports/http.go` -/

namespace query

/-- The query `query.DeviceBrowserExtensionsQuery` after `c.BindUri`, with the two fields
the handlers read. -/
structure DeviceBrowserExtensionsQuery where
  DeviceId : String
  ExtensionId : String
deriving DecidableEq, Repr

end query

/-- The collaborators of `RoutesHandler.FindMobileAppExtensionById`; `P` is the type of an
element of the query result. -/
structure FindMobileAppExtensionByIdPorts (S D P : Type) where
  /-- The call `r.validator.Struct(cmd)`. -/
  validate : query.DeviceBrowserExtensionsQuery → Option ValidationErrors
  /-- The function `uuid.Parse`; `none` stands for a returned error. -/
  uuidParse : String → Option UUID
  /-- The call `r.mobileDeviceRepository.FindById(deviceId)`. -/
  FindById : UUID → S → Except GoError D
  /-- The call `r.cqrs.Queries.DeviceBrowserExtensionsQuery.Handle(cmd)`, with both results
  of the Go method: the slice and the error. -/
  Query : query.DeviceBrowserExtensionsQuery → S → List P × Option GoError

/-- The handler `RoutesHandler.FindMobileAppExtensionById` (http.go, lines 235-269); `cmd`
is the query after `c.BindUri` has bound the request.  The length of the result is tested
before the error of the query. -/
def FindMobileAppExtensionById {S D P : Type} (r : FindMobileAppExtensionByIdPorts S D P)
    (cmd : query.DeviceBrowserExtensionsQuery) (s : S) : Outcome S P :=
  match r.validate cmd with
  | some validationErrors => ⟨400, .badRequestValidation validationErrors, s, []⟩
  | none =>
    let deviceId := (r.uuidParse cmd.DeviceId).getD uuid.Nil
    match r.FindById deviceId s with
    | .error err => ⟨404, .notFound err, s, [.FindById]⟩
    | .ok _ =>
      match r.Query cmd s with
      | ([], _) =>
        ⟨404, .notFound (.leaf BrowserExtensionsCouldNotBeFound cmd.ExtensionId), s,
          [.FindById, .DeviceBrowserExtensionsQuery]⟩
      | (_ :: _, some err) =>
        ⟨500, .internalServerError err, s, [.FindById, .DeviceBrowserExtensionsQuery]⟩
      | (first :: _, none) =>
        ⟨200, .json first, s, [.FindById, .DeviceBrowserExtensionsQuery]⟩

namespace Sample

/-- Collaborators on the sample store whose query returns the given slice and error. -/
def extensionPorts (result : List Spec.Pairing) (err : Option GoError) :
    FindMobileAppExtensionByIdPorts Spec.World Spec.MobileDevice Spec.Pairing where
  validate := fun _ => none
  uuidParse := config.uuidParse
  FindById := Spec.findById config
  Query := fun _ _ => (result, err)

/-- The lookup of extension 2 among the extensions of device 1. -/
def extensionQuery : query.DeviceBrowserExtensionsQuery :=
  ⟨"7d0c1a3e-0000-4000-8000-000000000001", "7d0c1a3e-0000-4000-8000-000000000002"⟩

/-- An error of the database. -/
def databaseError : GoError := .leaf ⟨"*mysql.MySQLError", true⟩ "connection refused"

end Sample

end TwoFas

namespace TwoFas

/-! ## `internal/common/logging/logger.go` -/

namespace logging

/-- The type `Fields` (line 12): the fields of a log entry. -/
abbrev Fields := List (String × String)

/-- A logger as `Init` builds it (lines 26-38): the keys of the JSON formatter for time,
level and message, the level, and the fields. -/
structure Entry where
  timestampKey : String
  levelKey : String
  messageKey : String
  level : String
  fields : Fields
deriving DecidableEq, Repr

/-- A value of the interface type `FieldLogger` (lines 14-16): `none` is the nil interface
value, the zero value of the type. -/
abbrev FieldLogger := Option Entry

/-- The package-level variables `log` and `once` (lines 18-21); `once` tells whether
`once.Do` has run its function. -/
structure Package where
  log : FieldLogger
  once : Bool
deriving DecidableEq, Repr

/-- The package before `Init` is called: `log` is nil. -/
def Package.initial : Package := ⟨none, false⟩

/-- The function `Init` (lines 24-41): the first call builds the logger and stores it in the
package-level `log`; every call returns the package-level `log`. -/
def Init (fields : Fields) (pkg : Package) : FieldLogger × Package :=
  if pkg.once then
    (pkg.log, pkg)
  else
    (some ⟨"timestamp", "level", "message", "info", fields⟩,
      ⟨some ⟨"timestamp", "level", "message", "info", fields⟩, true⟩)

/-- A key of a context: the dynamic type of the key and its value.  Two keys are equal when
both are. -/
structure Key where
  type : String
  value : String
deriving DecidableEq, Repr

/-- The constant `loggerKey` of the type `ctxKey` (lines 43-47). -/
def loggerKey : Key := ⟨"logging.ctxKey", "0"⟩

/-- A value of type `any` stored in a context: nil, a value whose dynamic type implements
`FieldLogger`, or a value of another type. -/
inductive Value where
  | nil
  | fieldLogger (log : Entry)
  | other (type text : String)
deriving DecidableEq, Repr

/-- A `context.Context`: the background context, a context derived with
`context.WithValue`, or a context derived with `context.WithCancel`. -/
inductive Context where
  | Background
  | WithValue (parent : Context) (key : Key) (val : Value)
  | WithCancel (parent : Context)
deriving DecidableEq, Repr

/-- The method `Value` of a context: the value of the innermost `WithValue` for the key, or
nil. -/
def Context.Value : Context → Key → Value
  | .Background, _ => .nil
  | .WithValue parent k v, key => if key = k then v else Context.Value parent key
  | .WithCancel parent, key => Context.Value parent key

/-- The conversion of a `FieldLogger` to `any`: the nil interface value becomes nil. -/
def FieldLogger.toValue : FieldLogger → Value
  | none => .nil
  | some entry => .fieldLogger entry

/-- The type assertion `v.(FieldLogger)` with two results: the value and `true` when the
dynamic type of `v` implements `FieldLogger`, else the zero value and `false`. -/
def assertFieldLogger : Value → FieldLogger × Bool
  | .fieldLogger entry => (some entry, true)
  | .nil => (none, false)
  | .other _ _ => (none, false)

/-- The function `AddToContext` (lines 49-51). -/
def AddToContext (ctx : Context) (log : FieldLogger) : Context :=
  .WithValue ctx loggerKey log.toValue

/-- The function `FromContext` (lines 53-59).  The variable `log` declared in line 54 is
local: both `return log` return it, and the package-level `log` of `pkg` is not read. -/
def FromContext (_pkg : Package) (ctx : Context) : FieldLogger :=
  match assertFieldLogger (ctx.Value loggerKey) with
  | (log, ok) => if ok then log else log

/-- The method `WithField` called on a `FieldLogger`: a call on the nil interface value
panics. -/
def FieldLogger.WithField (log : FieldLogger) (key value : String) :
    Except String FieldLogger :=
  match log with
  | none => .error "invalid memory address or nil pointer dereference"
  | some entry => .ok (some { entry with fields := entry.fields ++ [(key, value)] })

end logging

namespace websocket

/-- Line 45 of `ConnectionHandler.Handler`:
`logging.FromContext(c.Request.Context()).WithField("channel", channel)`; `ctx` is the
context of the request. -/
def HandlerLog (pkg : logging.Package) (ctx : logging.Context) (channel : String) :
    Except String logging.FieldLogger :=
  logging.FieldLogger.WithField (logging.FromContext pkg ctx) "channel" channel

end websocket

namespace Sample

/-- The logger a middleware stores in the context of a request. -/
def requestLogger : logging.Entry :=
  ⟨"timestamp", "level", "message", "info", [("request_id", "r-1")]⟩

/-- A context that carries a value of another package and no logger. -/
def plainContext : logging.Context :=
  .WithCancel (.WithValue .Background ⟨"gin.ContextKey", "0"⟩ (.other "*gin.Context" "c"))

end Sample

end TwoFas

/-! # Theorems -/

namespace TwoFas

/-! ## Error matching -/

/-- The function `errors.As` finds a target type exactly when the type occurs in the chain
of the error. -/
theorem errors_As_iff_mem_chain (err : GoError) (target : GoType) :
    errors.As err target = true ↔ target ∈ err.chain := by
  induction err with
  | leaf t d =>
    simp only [errors.As, GoError.chain, decide_eq_true_eq, List.mem_singleton]
    exact eq_comm
  | wrap t d inner ih =>
    simp only [errors.As, GoError.chain, Bool.or_eq_true, decide_eq_true_eq, List.mem_cons, ih]
    exact or_congr eq_comm Iff.rfl

/-- A blank name, as a statement about its characters. -/
theorem Spec.isBlank_iff (name : String) :
    Spec.isBlank name = true ↔ ∀ c ∈ name.data, c = ' ' := by
  simp [Spec.isBlank]

/-! ## Registration of a mobile device -/

/-- Claim C6: for every device name that is empty or consists only of space characters,
`RegisterMobileDevice` answers 400 with the validation errors, invokes neither the
register command nor the device query, and leaves the store (hence the devices) as it
was. -/
theorem register_blank_name_is_rejected (cfg : Spec.Config) (id : UUID)
    (cmd : command.RegisterMobileDevice) (w : Spec.World)
    (hblank : ∀ c ∈ cmd.Name.data, c = ' ') :
    (RegisterMobileDevice (Spec.registerPorts cfg) id cmd w).code = 400 ∧
    (RegisterMobileDevice (Spec.registerPorts cfg) id cmd w).body
      = .badRequestValidation [⟨"Name", "not_blank"⟩] ∧
    (RegisterMobileDevice (Spec.registerPorts cfg) id cmd w).calls = [] ∧
    (RegisterMobileDevice (Spec.registerPorts cfg) id cmd w).store = w ∧
    (RegisterMobileDevice (Spec.registerPorts cfg) id cmd w).store.devices = w.devices := by
  have hb : Spec.isBlank cmd.Name = true := (Spec.isBlank_iff _).2 hblank
  simp [RegisterMobileDevice, Spec.registerPorts, Spec.validateRegisterMobileDevice, hb]

/-- Witness of C6: the names of the test, the empty name and the name of three spaces,
are rejected on the empty store. -/
theorem register_blank_name_is_rejected_witness :
    (RegisterMobileDevice (Spec.registerPorts Sample.config) ⟨5⟩
        Sample.registerBlankCmd Sample.empty).code = 400 ∧
    (RegisterMobileDevice (Spec.registerPorts Sample.config) ⟨5⟩
        Sample.registerBlankCmd Sample.empty).store.devices = [] ∧
    (RegisterMobileDevice (Spec.registerPorts Sample.config) ⟨5⟩
        { Sample.registerBlankCmd with Name := "" } Sample.empty).code = 400 :=
  ⟨(register_blank_name_is_rejected Sample.config ⟨5⟩ Sample.registerBlankCmd Sample.empty
      (by decide)).1,
   (register_blank_name_is_rejected Sample.config ⟨5⟩ Sample.registerBlankCmd Sample.empty
      (by decide)).2.2.2.2,
   (register_blank_name_is_rejected Sample.config ⟨5⟩
      { Sample.registerBlankCmd with Name := "" } Sample.empty (by decide)).1⟩

/-- Claim C7: for every device name with at least one character that is not a space, and
every FCM token (the empty one included), `RegisterMobileDevice` answers 200 with the
presenter of a stored device, after the register command has saved the device and the
device query has found it.  `cmd.Id = id` says that binding kept the generated id. -/
theorem register_named_device_succeeds (cfg : Spec.Config) (id : UUID)
    (cmd : command.RegisterMobileDevice) (w : Spec.World)
    (hname : ∃ c ∈ cmd.Name.data, c ≠ ' ') (hid : cmd.Id = id) :
    (RegisterMobileDevice (Spec.registerPorts cfg) id cmd w).code = 200 ∧
    (∃ d, (RegisterMobileDevice (Spec.registerPorts cfg) id cmd w).body = .json d ∧
      d ∈ (RegisterMobileDevice (Spec.registerPorts cfg) id cmd w).store.devices ∧
      cfg.uuidString d.id = cfg.uuidString id) ∧
    (RegisterMobileDevice (Spec.registerPorts cfg) id cmd w).calls
      = [.RegisterMobileDevice, .MobileDeviceQuery] ∧
    (RegisterMobileDevice (Spec.registerPorts cfg) id cmd w).store.devices
      = w.devices ++ [⟨id, cmd.Name, cmd.Platform, cmd.FcmToken⟩] := by
  have hb : Spec.isBlank cmd.Name = false := by
    rcases hname with ⟨c, hc, hne⟩
    cases h : Spec.isBlank cmd.Name with
    | false => rfl
    | true => exact absurd ((Spec.isBlank_iff _).1 h c hc) hne
  subst hid
  cases hfind : (w.devices ++ [(⟨cmd.Id, cmd.Name, cmd.Platform, cmd.FcmToken⟩ :
      Spec.MobileDevice)]).find?
      (fun d => decide (cfg.uuidString d.id = cfg.uuidString cmd.Id)) with
  | none =>
    have := List.find?_eq_none.1 hfind ⟨cmd.Id, cmd.Name, cmd.Platform, cmd.FcmToken⟩
      (by simp)
    simp at this
  | some d =>
    have hmem := List.mem_of_find?_eq_some hfind
    have hp := List.find?_some hfind
    simp only [decide_eq_true_eq] at hp
    simp [RegisterMobileDevice, Spec.registerPorts, Spec.validateRegisterMobileDevice, hb,
      Spec.registerMobileDevice, Spec.mobileDeviceQuery, hfind, hp]
    simpa using hmem

/-- Witness of C7: the name with a leading space and the empty FCM token, as in the last
case of the test, on the empty store. -/
theorem register_named_device_succeeds_witness :
    Sample.registerCmd.Name = " john doe" ∧ Sample.registerCmd.FcmToken = "" ∧
    (RegisterMobileDevice (Spec.registerPorts Sample.config) ⟨5⟩
        Sample.registerCmd Sample.empty).code = 200 :=
  ⟨rfl, rfl,
   (register_named_device_succeeds Sample.config ⟨5⟩ Sample.registerCmd Sample.empty
      (by decide) rfl).1⟩

/-! ## Pairing -/

/-- A command error that is, or wraps, an `ExtensionHasAlreadyBeenPairedError` gets the
conflict body, passed to `c.JSON` with 409, and the pairing descriptor is not queried; the
status of the response is 409 unless `c.BindJSON` had written the header. -/
theorem pair_conflict_status {S P : Type} (r : PairMobileWithExtensionPorts S P)
    (bindJSON : Option GoError) (cmd : command.PairMobileWithBrowserExtension) (s s1 : S)
    (err : GoError) (hvalid : r.validate cmd = none) (hfail : r.Handle cmd s = (some err, s1))
    (hconflict : ExtensionHasAlreadyBeenPairedError ∈ err.chain) :
    (PairMobileWithExtension r bindJSON cmd s).code = gin.JSON (gin.BindJSON bindJSON) 409 ∧
    (PairMobileWithExtension r bindJSON cmd s).body = .conflict err ∧
    (PairMobileWithExtension r bindJSON cmd s).calls = [.PairMobileWithExtension] ∧
    Port.PairedBrowserExtensionQuery ∉ (PairMobileWithExtension r bindJSON cmd s).calls ∧
    (PairMobileWithExtension r bindJSON cmd s).store = s1 := by
  have has : errors.As err ExtensionHasAlreadyBeenPairedError = true :=
    (errors_As_iff_mem_chain _ _).2 hconflict
  simp [PairMobileWithExtension, hvalid, hfail, has]

/-- Claim C8, the code at the failing input: extension 2 is paired with device 4 and pairing
is exclusive; the request to pair device 1 with it has a JSON body for which `c.BindJSON`
returns an error while the command is bound in full.  gin has answered 400, the handler
goes on, the pairing command fails with `ExtensionHasAlreadyBeenPairedError`, and the
conflict body is written under the status 400, not 409; the same command from a body that
binds is answered 409.  In general, for every command error that is, or wraps, an
`ExtensionHasAlreadyBeenPairedError` the handler writes the conflict body and does not query
the pairing descriptor; the status is 409 when `c.BindJSON` returned no error and 400 when
it returned one. -/
theorem pair_conflict_after_failed_bind_answers_400 :
    (∀ (S P : Type) (r : PairMobileWithExtensionPorts S P) (bindJSON : Option GoError)
      (cmd : command.PairMobileWithBrowserExtension) (s s1 : S) (err : GoError),
      r.validate cmd = none → r.Handle cmd s = (some err, s1) →
      ExtensionHasAlreadyBeenPairedError ∈ err.chain →
        (bindJSON = none → (PairMobileWithExtension r bindJSON cmd s).code = 409) ∧
        (bindJSON ≠ none → (PairMobileWithExtension r bindJSON cmd s).code = 400) ∧
        (PairMobileWithExtension r bindJSON cmd s).body = .conflict err ∧
        (PairMobileWithExtension r bindJSON cmd s).calls = [.PairMobileWithExtension] ∧
        Port.PairedBrowserExtensionQuery ∉ (PairMobileWithExtension r bindJSON cmd s).calls ∧
        (PairMobileWithExtension r bindJSON cmd s).store = s1) ∧
    (PairMobileWithExtension (Spec.pairPorts Sample.config (fun _ => none))
        (some Sample.bindError) Sample.pairCmd Sample.pairedElsewhere).code = 400 ∧
    (PairMobileWithExtension (Spec.pairPorts Sample.config (fun _ => none))
        (some Sample.bindError) Sample.pairCmd Sample.pairedElsewhere).body
      = .conflict (.leaf ExtensionHasAlreadyBeenPairedError
          "7d0c1a3e-0000-4000-8000-000000000002") ∧
    (PairMobileWithExtension (Spec.pairPorts Sample.config (fun _ => none))
        (some Sample.bindError) Sample.pairCmd Sample.pairedElsewhere).calls
      = [.PairMobileWithExtension] ∧
    (PairMobileWithExtension (Spec.pairPorts Sample.config (fun _ => none))
        none Sample.pairCmd Sample.pairedElsewhere).code = 409 := by
  refine ⟨?_, by decide, by decide, by decide, by decide⟩
  intro S P r bindJSON cmd s s1 err hvalid hfail hconflict
  have h := pair_conflict_status r bindJSON cmd s s1 err hvalid hfail hconflict
  refine ⟨fun hb => ?_, fun hb => ?_, h.2.1, h.2.2.1, h.2.2.2.1, h.2.2.2.2⟩
  · rw [h.1, hb]; rfl
  · rw [h.1]
    cases bindJSON with
    | none => exact absurd rfl hb
    | some e => rfl

/-- No run of `PairMobileWithExtension` answers 404: its status is 400, 409, 500
or 200. -/
theorem pair_never_answers_404 {S P : Type} (r : PairMobileWithExtensionPorts S P)
    (bindJSON : Option GoError) (cmd : command.PairMobileWithBrowserExtension) (s : S) :
    (PairMobileWithExtension r bindJSON cmd s).code ≠ 404 := by
  unfold PairMobileWithExtension
  cases bindJSON <;> simp only [gin.BindJSON, gin.JSON]
  all_goals
    split
    · simp
    · split
      · split <;> simp
      · split <;> simp

/-- Claim C9, the code at the failing input: pairing device 1, which does not exist, with
extension 2 (from a body that binds) is answered 400 with the not-found error of the command
in a bad-request body, and so is pairing with an extension that does not exist; and whatever
the collaborators do and whether or not the body binds, the status of
`PairMobileWithExtension` is never 404. -/
theorem pair_missing_side_answers_400 :
    (∀ (S P : Type) (r : PairMobileWithExtensionPorts S P) (bindJSON : Option GoError)
      (cmd : command.PairMobileWithBrowserExtension) (s : S),
      (PairMobileWithExtension r bindJSON cmd s).code ≠ 404) ∧
    (PairMobileWithExtension (Spec.pairPorts Sample.config (fun _ => none))
        none Sample.pairCmd Sample.noDevice).code = 400 ∧
    (PairMobileWithExtension (Spec.pairPorts Sample.config (fun _ => none))
        none Sample.pairCmd Sample.noDevice).body
      = .badRequest (.leaf MobileDeviceCouldNotBeFound
          "7d0c1a3e-0000-4000-8000-000000000001") ∧
    (PairMobileWithExtension (Spec.pairPorts Sample.config (fun _ => none))
        none Sample.pairCmd Sample.noExtension).code = 400 ∧
    (PairMobileWithExtension (Spec.pairPorts Sample.config (fun _ => none))
        none Sample.pairCmd Sample.noExtension).body
      = .badRequest (.leaf BrowserExtensionsCouldNotBeFound
          "7d0c1a3e-0000-4000-8000-000000000002") :=
  ⟨fun _ _ r bindJSON cmd s => pair_never_answers_404 r bindJSON cmd s, by decide⟩

/-! ## Answering a token request -/

/-- Every error of the command gets the body of an internal server error from
`Send2FaToken`, whatever its type; the status is 500 unless `c.BindJSON` had written the
header. -/
theorem send2FaToken_command_error_answers_500 {S D P : Type} (r : Send2FaTokenPorts S D)
    (bindJSON : Option GoError) (cmd : command.Send2FaToken) (s s1 : S) (d : D)
    (err : GoError) (hvalid : r.validate cmd = none)
    (hdev : r.FindById ((r.uuidParse cmd.DeviceId).getD uuid.Nil) s = .ok d)
    (hfail : r.Handle cmd s = (some err, s1)) :
    (Send2FaToken (P := P) r bindJSON cmd s).code = gin.JSON (gin.BindJSON bindJSON) 500 ∧
    (Send2FaToken (P := P) r bindJSON cmd s).body = .internalServerError err := by
  simp [Send2FaToken, hvalid, hdev, hfail]

/-- For a well-formed request of a device that exists, from a body that binds,
`Send2FaToken` answers 500 or 200, whatever the command does. -/
theorem send2FaToken_existing_device_codes {S D P : Type} (r : Send2FaTokenPorts S D)
    (cmd : command.Send2FaToken) (s : S) (d : D)
    (hvalid : r.validate cmd = none)
    (hdev : r.FindById ((r.uuidParse cmd.DeviceId).getD uuid.Nil) s = .ok d) :
    (Send2FaToken (P := P) r none cmd s).code = 500 ∨
      (Send2FaToken (P := P) r none cmd s).code = 200 := by
  rcases h : r.Handle cmd s with ⟨_ | err, s1⟩ <;>
    simp [Send2FaToken, hvalid, hdev, h, gin.JSON, gin.BindJSON]

/-- Claim C10, the code at the failing input: device 1 exists and answers request 3 with a
body that binds.  When no request 3 is stored the command fails with `NotFound`, when
request 3 is already completed it fails with `Expired`; both times `Send2FaToken` answers
500 with the body of an internal server error, and the store is left as it was.  Whatever
the command returns, every error of it gets that body; the status is 500 when `c.BindJSON`
returned no error, and 500 or 400, never 404, in every case. -/
theorem send2FaToken_unknown_request_answers_500 :
    (∀ (S D : Type) (r : Send2FaTokenPorts S D) (bindJSON : Option GoError)
      (cmd : command.Send2FaToken) (s s1 : S) (d : D) (err : GoError),
      r.validate cmd = none →
      r.FindById ((r.uuidParse cmd.DeviceId).getD uuid.Nil) s = .ok d →
      r.Handle cmd s = (some err, s1) →
        (bindJSON = none → (Send2FaToken (P := Unit) r bindJSON cmd s).code = 500) ∧
        ((Send2FaToken (P := Unit) r bindJSON cmd s).code = 500 ∨
          (Send2FaToken (P := Unit) r bindJSON cmd s).code = 400) ∧
        (Send2FaToken (P := Unit) r bindJSON cmd s).body = .internalServerError err) ∧
    (Send2FaToken (P := Unit) (Spec.send2FaTokenPorts Sample.config (fun _ => none))
        none Sample.sendCmd Sample.paired).code = 500 ∧
    (Send2FaToken (P := Unit) (Spec.send2FaTokenPorts Sample.config (fun _ => none))
        none Sample.sendCmd Sample.paired).body
      = .internalServerError (.leaf Spec.NotFound
          "7d0c1a3e-0000-4000-8000-000000000003") ∧
    (Send2FaToken (P := Unit) (Spec.send2FaTokenPorts Sample.config (fun _ => none))
        none Sample.sendCmd Sample.paired).store = Sample.paired ∧
    (Send2FaToken (P := Unit) (Spec.send2FaTokenPorts Sample.config (fun _ => none))
        none Sample.sendCmd Sample.withCompleted).code = 500 ∧
    (Send2FaToken (P := Unit) (Spec.send2FaTokenPorts Sample.config (fun _ => none))
        none Sample.sendCmd Sample.withCompleted).body
      = .internalServerError (.leaf Spec.Expired
          "7d0c1a3e-0000-4000-8000-000000000003") ∧
    (Send2FaToken (P := Unit) (Spec.send2FaTokenPorts Sample.config (fun _ => none))
        none Sample.sendCmd Sample.withCompleted).store = Sample.withCompleted := by
  refine ⟨?_, by decide⟩
  intro S D r bindJSON cmd s s1 d err hv hd hf
  have h := send2FaToken_command_error_answers_500 (P := Unit) r bindJSON cmd s s1 d err
    hv hd hf
  refine ⟨fun hb => ?_, ?_, h.2⟩
  · rw [h.1, hb]; rfl
  · rw [h.1]
    cases bindJSON with
    | none => exact Or.inl rfl
    | some e => exact Or.inr rfl

end TwoFas

namespace TwoFas

/-! ## The listing of pending token requests -/

/-- Membership in the store's listing of pending requests, spelled out. -/
theorem Spec.mem_findPending (cfg : Spec.Config) (d : UUID) (w : Spec.World)
    (x : Spec.TokenRequest) :
    x ∈ Spec.findPending cfg d w ↔
      x ∈ w.requests ∧ x.deviceId = d ∧ x.status = .pending ∧
        w.now < x.createdAt + cfg.window := by
  unfold Spec.findPending
  rw [(List.perm_insertionSort _ _).mem_iff]
  simp [Spec.TokenRequest.isPending]

/-- A successful `create` has found target devices of the extension, returns the pending
request for the first of them and has appended the pending request for each of them. -/
theorem Spec.create_ok (rid e : UUID) (domain : String) (w : Spec.World)
    (r : Spec.TokenRequest) (h : (Spec.create rid e domain w).1 = .ok r) :
    ∃ d more, Spec.targets e w = d :: more ∧
      r = ⟨rid, e, d, domain, .pending, w.now, none⟩ ∧
      (Spec.create rid e domain w).2 =
        { w with
          requests := w.requests ++
            (d :: more).map (fun t => ⟨rid, e, t, domain, .pending, w.now, none⟩),
          events := w.events ++ (d :: more).map (fun t => .token_requested t rid domain) } := by
  cases htargets : Spec.targets e w with
  | nil => simp [Spec.create, htargets] at h
  | cons d more =>
    simp only [Spec.create, htargets, Except.ok.injEq] at h
    subst h
    exact ⟨d, more, rfl, rfl, by simp [Spec.create, htargets]⟩

/-- A listing answered with a JSON body is the store's listing of pending requests for the
parsed device id. -/
theorem getAll_body_json (cfg : Spec.Config)
    (validate : query.DeviceBrowserExtension2FaRequestQuery → Option ValidationErrors)
    (q : query.DeviceBrowserExtension2FaRequestQuery) (w : Spec.World)
    (l : List Spec.TokenRequest)
    (h : (GetAll2FaTokenRequests (Spec.getAll2FaTokenRequestsPorts cfg validate) q w).body
      = .json l) :
    l = Spec.findPending cfg ((cfg.uuidParse q.DeviceId).getD uuid.Nil) w := by
  unfold GetAll2FaTokenRequests at h
  simp only [Spec.getAll2FaTokenRequestsPorts] at h
  split at h
  · simp at h
  · split at h
    · simp at h
    · simpa using h.symm

/-- A well-formed listing for a device of the store is answered 200 with the store's
listing of pending requests. -/
theorem getAll_of_device (cfg : Spec.Config)
    (validate : query.DeviceBrowserExtension2FaRequestQuery → Option ValidationErrors)
    (q : query.DeviceBrowserExtension2FaRequestQuery) (w : Spec.World) (d : UUID)
    (hvalid : validate q = none) (hparse : cfg.uuidParse q.DeviceId = some d)
    (hdev : ∃ dev ∈ w.devices, dev.id = d) :
    (GetAll2FaTokenRequests (Spec.getAll2FaTokenRequestsPorts cfg validate) q w).code = 200 ∧
    (GetAll2FaTokenRequests (Spec.getAll2FaTokenRequestsPorts cfg validate) q w).body
      = .json (Spec.findPending cfg d w) := by
  cases hfind : w.devices.find? (fun x => decide (x.id = d)) with
  | none =>
    rcases hdev with ⟨dev, hmem, hid⟩
    have := List.find?_eq_none.1 hfind dev hmem
    simp [hid] at this
  | some dev =>
    simp [GetAll2FaTokenRequests, Spec.getAll2FaTokenRequestsPorts, hvalid, hparse,
      Spec.findById, hfind]

/-- Claim C1: whatever `GetAll2FaTokenRequests` lists, every listed request is a stored
request of the device with status `pending` whose validity window has not elapsed, so a
request that is completed or expired (by status, or by the elapsed window) is not listed;
and after an extension has created a request for a device that had none and has closed it
as completed, the listing of the device is answered 200 with the empty collection. -/
theorem listing_excludes_terminal_requests (cfg : Spec.Config)
    (validate : query.DeviceBrowserExtension2FaRequestQuery → Option ValidationErrors)
    (q : query.DeviceBrowserExtension2FaRequestQuery) :
    (∀ (w : Spec.World) (l : List Spec.TokenRequest),
      (GetAll2FaTokenRequests (Spec.getAll2FaTokenRequestsPorts cfg validate) q w).body
          = .json l →
        (∀ x ∈ l, x ∈ w.requests ∧ x.status = .pending ∧ w.now < x.createdAt + cfg.window) ∧
        (∀ r : Spec.TokenRequest,
          r.status = .completed ∨ r.status = .expired ∨ r.createdAt + cfg.window ≤ w.now →
            r ∉ l)) ∧
    (∀ (w : Spec.World) (d rid e : UUID) (domain : String) (r : Spec.TokenRequest) (dt : Nat),
      validate q = none → cfg.uuidParse q.DeviceId = some d →
      (∃ dev ∈ w.devices, dev.id = d) →
      (∀ x ∈ w.requests, x.deviceId ≠ d) →
      (Spec.create rid e domain w).1 = .ok r → r.deviceId = d →
        (GetAll2FaTokenRequests (Spec.getAll2FaTokenRequestsPorts cfg validate) q
          (Spec.close rid .completed (Spec.advance dt (Spec.create rid e domain w).2))).code
            = 200 ∧
        (GetAll2FaTokenRequests (Spec.getAll2FaTokenRequestsPorts cfg validate) q
          (Spec.close rid .completed (Spec.advance dt (Spec.create rid e domain w).2))).body
            = .json []) := by
  refine ⟨?_, ?_⟩
  · intro w l h
    have hl := getAll_body_json cfg validate q w l h
    subst hl
    refine ⟨?_, ?_⟩
    · intro x hx
      have := (Spec.mem_findPending _ _ _ _).1 hx
      exact ⟨this.1, this.2.2.1, this.2.2.2⟩
    · intro r hr hmem
      have := (Spec.mem_findPending _ _ _ _).1 hmem
      rcases hr with hr | hr | hr
      · rw [this.2.2.1] at hr; cases hr
      · rw [this.2.2.1] at hr; cases hr
      · omega
  · intro w d rid e domain r dt hvalid hparse hdev hfresh hcreate hrd
    have hdev2 : ∃ dev ∈ (Spec.close rid .completed
        (Spec.advance dt (Spec.create rid e domain w).2)).devices, dev.id = d := by
      unfold Spec.create
      split <;> simpa [Spec.close, Spec.advance] using hdev
    have key := getAll_of_device cfg validate q _ d hvalid hparse hdev2
    refine ⟨key.1, ?_⟩
    rw [key.2]
    congr 1
    apply List.eq_nil_iff_forall_not_mem.2
    intro x hx
    have hx2 := (Spec.mem_findPending _ _ _ _).1 hx
    rcases hx2 with ⟨hmem, hxd, hst, -⟩
    rcases Spec.create_ok rid e domain w r hcreate with ⟨t0, more, -, -, hw⟩
    rw [hw] at hmem
    simp only [Spec.close, Spec.advance, List.map_append, List.mem_append, List.mem_map]
      at hmem
    rcases hmem with ⟨y, hy, hyx⟩ | ⟨y, ⟨t, -, hty⟩, hyx⟩
    · have hyd := hfresh y hy
      split at hyx
      · subst hyx; exact hyd hxd
      · subst hyx; exact hyd hxd
    · subst hty
      simp only [and_self, if_true] at hyx
      subst hyx
      simp at hst

end TwoFas

namespace TwoFas

/-- Witness of C1: in the sample store, where device 1 is paired with extension 2 and has
no request, the extension creates request 3 for `domain.com` and closes it as completed five
ticks later; the listing of device 1 is then answered 200 with the empty collection. -/
theorem listing_excludes_terminal_requests_witness :
    (GetAll2FaTokenRequests (Spec.getAll2FaTokenRequestsPorts Sample.config (fun _ => none))
        Sample.listQuery
        (Spec.close ⟨3⟩ .completed
          (Spec.advance 5 (Spec.create ⟨3⟩ ⟨2⟩ "domain.com" Sample.paired).2))).code = 200 ∧
    (GetAll2FaTokenRequests (Spec.getAll2FaTokenRequestsPorts Sample.config (fun _ => none))
        Sample.listQuery
        (Spec.close ⟨3⟩ .completed
          (Spec.advance 5 (Spec.create ⟨3⟩ ⟨2⟩ "domain.com" Sample.paired).2))).body
      = .json [] :=
  (listing_excludes_terminal_requests Sample.config (fun _ => none) Sample.listQuery).2
    Sample.paired ⟨1⟩ ⟨3⟩ ⟨2⟩ "domain.com" ⟨⟨3⟩, ⟨2⟩, ⟨1⟩, "domain.com", .pending, 1000, none⟩ 5
    rfl (by decide) (by decide) (by decide) rfl rfl

end TwoFas

namespace TwoFas

/-! ## The origin check -/

/-- Claim C5: when the variable `WEBSOCKET_ALLOWED_ORIGIN` holds a non-empty origin, the
origin check accepts a request exactly when `Header.Get("Origin")` is that very string,
that is, exactly when the first value stored under `Origin` is the allowed origin. -/
theorem checkOrigin_iff_origin_is_allowed (env : os.Environ) (r : http.Request)
    (allowedOrigin : String)
    (hconf : os.Getenv env "WEBSOCKET_ALLOWED_ORIGIN" = allowedOrigin)
    (hne : allowedOrigin ≠ "") :
    (websocket.CheckOrigin env r = true ↔
      http.Header.Get r.Header "Origin" = allowedOrigin) ∧
    (websocket.CheckOrigin env r = true ↔
      ∃ more, r.Header.find? (fun kv => decide (kv.1 = "Origin"))
        = some ("Origin", allowedOrigin :: more)) := by
  have h1 : websocket.CheckOrigin env r = true ↔
      http.Header.Get r.Header "Origin" = allowedOrigin := by
    simp [websocket.CheckOrigin, hconf, hne]
  refine ⟨h1, h1.trans ?_⟩
  unfold http.Header.Get
  cases hfind : r.Header.find? (fun kv => decide (kv.1 = "Origin")) with
  | none =>
    constructor
    · intro h; exact absurd h.symm hne
    · rintro ⟨more, h⟩; cases h
  | some kv =>
    have hk : kv.1 = "Origin" := by simpa using List.find?_some hfind
    rcases kv with ⟨k, vs⟩
    simp only at hk
    subst hk
    cases vs with
    | nil =>
      constructor
      · intro h; exact absurd h.symm hne
      · rintro ⟨more, h⟩; simp at h
    | cons v more =>
      constructor
      · intro h
        simp only at h
        exact ⟨more, by rw [h]⟩
      · rintro ⟨more2, h⟩
        simp only [Option.some.injEq, Prod.mk.injEq, List.cons.injEq, true_and] at h
        exact h.1

/-- Witness of C5: with `https://2fas.com` configured, the request from that origin is
accepted, the request from another origin and the request without an origin are not. -/
theorem checkOrigin_iff_origin_is_allowed_witness :
    websocket.CheckOrigin Sample.environ Sample.fromAllowedOrigin = true ∧
    websocket.CheckOrigin Sample.environ Sample.fromOtherOrigin = false ∧
    websocket.CheckOrigin Sample.environ Sample.withoutOrigin = false :=
  ⟨(checkOrigin_iff_origin_is_allowed Sample.environ Sample.fromAllowedOrigin
      "https://2fas.com" (by decide) (by decide)).1.2 (by decide),
   by decide, by decide⟩

end TwoFas

namespace TwoFas

namespace websocket

/-! ## The lifetime supervisor -/

/-- After `unregisterClient` the client is not a member of its hub. -/
theorem hubPool.isRegistered_unregisterClient (c : Client) (p : hubPool) :
    (p.unregisterClient c).isRegistered c = false := by
  simp only [hubPool.isRegistered, hubPool.unregisterClient, List.any_eq_false,
    List.mem_filter, List.mem_map]
  rintro h ⟨⟨g, -, rfl⟩, -⟩
  by_cases hg : g.channel = c.hub
  · simp [hg]
  · simp [hg]

/-- Traffic and the clock leave the supervisor goroutine as it is. -/
theorem Runtime.traffic_sup (e : Traffic) (s : Runtime) : (s.traffic e).sup = s.sup := by
  cases e <;> rfl

/-- The clock never goes back. -/
theorem Runtime.clock_le_step (e : Event) (s : Runtime) : s.clock ≤ (s.step e).clock := by
  cases e with
  | traffic e => cases e <;> simp [Runtime.step, Runtime.traffic]
  | supervisor =>
    simp only [Runtime.step, Runtime.supervisorStep]
    split <;> try simp
    split
    · split <;> simp
    · simp

/-- During traffic the supervisor does not move and the clock advances by the time that
passes. -/
theorem Runtime.run_traffic (pre : List Traffic) (s : Runtime) :
    (s.run (pre.map .traffic)).sup = s.sup ∧
    (s.run (pre.map .traffic)).clock = s.clock + elapsed pre := by
  induction pre generalizing s with
  | nil => simp [Runtime.run, elapsed]
  | cons e pre ih =>
    have h := ih (s.traffic e)
    simp only [Runtime.run, List.map_cons, List.foldl_cons, Runtime.step] at h ⊢
    refine ⟨h.1.trans (Runtime.traffic_sup e s), h.2.trans ?_⟩
    cases e <;> simp [Runtime.traffic, elapsed]
    omega

/-- Once the timer is armed, no event changes it. -/
theorem Runtime.timeout_step (e : Event) (s : Runtime) (t : Nat)
    (hpc : s.sup.pc ≠ .arm) (ht : s.sup.timeout = some t) :
    (s.step e).sup.pc ≠ .arm ∧ (s.step e).sup.timeout = some t := by
  cases e with
  | traffic e => rw [Runtime.step, Runtime.traffic_sup]; exact ⟨hpc, ht⟩
  | supervisor =>
    simp only [Runtime.step, Runtime.supervisorStep]
    split
    · rename_i h; exact absurd h hpc
    · split
      · split
        · exact ⟨by simp, ht⟩
        · exact ⟨hpc, ht⟩
      · exact ⟨hpc, ht⟩
    · exact ⟨by simp, ht⟩
    · exact ⟨by simp, ht⟩
    · exact ⟨by simp, ht⟩
    · exact ⟨hpc, ht⟩

/-- Once the timer is armed, no schedule changes it. -/
theorem Runtime.timeout_run (es : List Event) (s : Runtime) (t : Nat)
    (hpc : s.sup.pc ≠ .arm) (ht : s.sup.timeout = some t) :
    (s.run es).sup.pc ≠ .arm ∧ (s.run es).sup.timeout = some t := by
  induction es generalizing s with
  | nil => exact ⟨hpc, ht⟩
  | cons e es ih =>
    have h := Runtime.timeout_step e s t hpc ht
    simpa [Runtime.run] using ih (s.step e) h.1 h.2

/-- The state in which the goroutines start satisfies the invariant. -/
theorem Runtime.Inv.start (clock : Nat) (c : Client) (hubs : hubPool) :
    Runtime.Inv c (Runtime.start clock c hubs) where
  client := rfl
  armed := by simp [Runtime.start]
  fired := by simp [Runtime.start]
  actions := by simp [Runtime.start, supervisorActions, Line.performed]
  unregistered := by simp [Runtime.start]

/-- Appending actions of the pumps does not change the actions of the supervisor. -/
theorem supervisorActions_append (trace more : List Action) :
    supervisorActions (trace ++ more) = supervisorActions trace ++ supervisorActions more := by
  simp [supervisorActions]

/-- Every event preserves the invariant. -/
theorem Runtime.Inv.step {c : Client} {s : Runtime} (h : Runtime.Inv c s) (e : Event) :
    Runtime.Inv c (s.step e) := by
  obtain ⟨hc, ha, hf, hact, hun⟩ := h
  cases e with
  | traffic e =>
    cases e with
    | tick dt =>
      refine ⟨hc, ha, ?_, hact, hun⟩
      intro h1 h2
      obtain ⟨t, ht, hle⟩ := hf h1 h2
      exact ⟨t, ht, by simp [Runtime.step, Runtime.traffic]; omega⟩
    | inbound => exact ⟨hc, ha, hf, hact, hun⟩
    | outbound => exact ⟨hc, ha, hf, hact, hun⟩
    | readError =>
      refine ⟨hc, ha, hf, ?_, ?_⟩
      · simp only [Runtime.step, Runtime.traffic, supervisorActions_append, hact]
        simp [supervisorActions, Action.actor]
      · intro _
        simp only [Runtime.step, Runtime.traffic, hc]
        exact hubPool.isRegistered_unregisterClient c s.hubs
    | writeError =>
      refine ⟨hc, ha, hf, ?_, ?_⟩
      · simp only [Runtime.step, Runtime.traffic, supervisorActions_append, hact]
        simp [supervisorActions, Action.actor]
      · intro _
        simp only [Runtime.step, Runtime.traffic, hc]
        exact hubPool.isRegistered_unregisterClient c s.hubs
  | supervisor =>
    cases hpc : s.sup.pc with
    | arm =>
      refine ⟨?_, ?_, ?_, ?_, ?_⟩ <;>
        simp [Runtime.step, Runtime.supervisorStep, hpc, hc, Line.performed]
      simpa [hpc, Line.performed] using hact
    | wait =>
      obtain ⟨hd, t, ht⟩ := ha (by simp [hpc])
      by_cases hle : t ≤ s.clock
      · refine ⟨?_, ?_, ?_, ?_, ?_⟩ <;>
          simp [Runtime.step, Runtime.supervisorStep, hpc, hc, ht, hle, hd, Line.performed]
        simpa [hpc, Line.performed] using hact
      · have hs : s.step .supervisor = s := by
          simp [Runtime.step, Runtime.supervisorStep, hpc, ht, hle]
        rw [hs]
        exact ⟨hc, ha, hf, hact, hun⟩
    | log =>
      obtain ⟨hd, t, ht⟩ := ha (by simp [hpc])
      obtain ⟨t2, ht2, hle⟩ := hf (by simp [hpc]) (by simp [hpc])
      refine ⟨?_, ?_, ?_, ?_, ?_⟩ <;>
        simp [Runtime.step, Runtime.supervisorStep, hpc, hc, hd, ht2, hle, Line.performed,
          supervisorActions_append]
      rw [hact, hpc]
      simp [Line.performed, supervisorActions, Action.actor]
    | unregister =>
      obtain ⟨hd, t, ht⟩ := ha (by simp [hpc])
      obtain ⟨t2, ht2, hle⟩ := hf (by simp [hpc]) (by simp [hpc])
      refine ⟨?_, ?_, ?_, ?_, ?_⟩ <;>
        simp [Runtime.step, Runtime.supervisorStep, hpc, hc, hd, ht2, hle, Line.performed,
          supervisorActions_append]
      · rw [hact, hpc]
        simp [Line.performed, supervisorActions, Action.actor]
      · exact hubPool.isRegistered_unregisterClient c s.hubs
    | close =>
      obtain ⟨hd, t, ht⟩ := ha (by simp [hpc])
      obtain ⟨t2, ht2, hle⟩ := hf (by simp [hpc]) (by simp [hpc])
      refine ⟨?_, ?_, ?_, ?_, ?_⟩ <;>
        simp [Runtime.step, Runtime.supervisorStep, hpc, hc, hd, ht2, hle, Line.performed,
          supervisorActions_append]
      · rw [hact, hpc]
        simp [Line.performed, supervisorActions, Action.actor]
      · exact hun (Or.inl hpc)
    | done =>
      have hs : s.step .supervisor = s := by
        simp [Runtime.step, Runtime.supervisorStep, hpc]
      rw [hs]
      exact ⟨hc, ha, hf, hact, hun⟩

/-- Every schedule preserves the invariant. -/
theorem Runtime.Inv.run {c : Client} (es : List Event) {s : Runtime}
    (h : Runtime.Inv c s) : Runtime.Inv c (s.run es) := by
  induction es generalizing s with
  | nil => exact h
  | cons e es ih => simpa [Runtime.run] using ih (h.step e)

end websocket

end TwoFas

namespace TwoFas

namespace websocket

/-- Running two schedules one after the other. -/
theorem Runtime.run_append (s : Runtime) (es fs : List Event) :
    s.run (es ++ fs) = (s.run es).run fs := by
  simp [Runtime.run, List.foldl_append]

/-- On a successful upgrade `serveWs` starts the supervisor of the client that
`registerClient` returned, on the hub pool that `registerClient` left. -/
theorem serveWs_runtime {β : Type}
    (registerClient : String → Conn → hubPool → (Client × β) × hubPool)
    (conn : Conn) (channel : String) (hubs : hubPool) (t0 : Nat) :
    (serveWs registerClient (.ok conn) channel hubs).runtime t0
      = some (Runtime.start t0 (registerClient channel conn hubs).1.1
          (registerClient channel conn hubs).2) := by
  rcases h : registerClient channel conn hubs with ⟨⟨client, x⟩, hubs1⟩
  simp [serveWs, Served.runtime, h, List.findSome?]

/-- The first step of the supervisor arms the timer at the instant of that step plus three
minutes, and nothing that follows changes it. -/
theorem Runtime.arm_run (s : Runtime) (hpc : s.sup.pc = .arm) (pre : List Traffic)
    (post : List Event) :
    (s.run (pre.map .traffic ++ .supervisor :: post)).sup.timeout
      = some (s.clock + elapsed pre + 3 * time.Minute) := by
  rw [Runtime.run_append]
  obtain ⟨hsup, hclock⟩ := Runtime.run_traffic pre s
  have hpc1 : (s.run (pre.map .traffic)).sup.pc = .arm := by rw [hsup]; exact hpc
  have hstep : ((s.run (pre.map .traffic)).step .supervisor).sup.pc ≠ .arm ∧
      ((s.run (pre.map .traffic)).step .supervisor).sup.timeout
        = some (s.clock + elapsed pre + 3 * time.Minute) := by
    simp [Runtime.step, Runtime.supervisorStep, hpc1, hclock]
  have := Runtime.timeout_run post _ _ hstep.1 hstep.2
  simpa [Runtime.run] using this.2

/-- Claim C3: the supervisor started by `serveWs` on a successful upgrade has no timer
until its first step and traffic cannot arm one; its first step arms the timer at the
instant of that step plus 3 minutes (180000000000 ns), which is 3 minutes after `serveWs`
returned when the goroutine starts at once; from then on no schedule of inbound frames,
outbound frames, pump errors, clock ticks and further supervisor steps changes the timer;
the supervisor is never past `<-timeout` before the clock has reached the timer, and once
the clock has reached it the next supervisor step passes `<-timeout`, whatever state the
hub and the transport are in. -/
theorem lifetime_deadline_is_fixed {β : Type}
    (registerClient : String → Conn → hubPool → (Client × β) × hubPool)
    (conn : Conn) (channel : String) (hubs : hubPool) (t0 : Nat) :
    ∃ s0, (serveWs registerClient (.ok conn) channel hubs).runtime t0 = some s0 ∧
      s0.clock = t0 ∧
      (∀ pre : List Traffic, (s0.run (pre.map .traffic)).sup.timeout = none) ∧
      (∀ (pre : List Traffic) (post : List Event),
        (s0.run (pre.map .traffic ++ .supervisor :: post)).sup.timeout
          = some (t0 + elapsed pre + 180000000000)) ∧
      (∀ post : List Event,
        (s0.run (.supervisor :: post)).sup.timeout = some (t0 + 3 * time.Minute)) ∧
      (∀ es : List Event,
        (s0.run es).sup.pc ≠ .arm → (s0.run es).sup.pc ≠ .wait →
          ∃ t, (s0.run es).sup.timeout = some t ∧ t ≤ (s0.run es).clock) ∧
      (∀ (es : List Event) (t : Nat),
        (s0.run es).sup.pc = .wait → (s0.run es).sup.timeout = some t →
          t ≤ (s0.run es).clock → ((s0.run es).step .supervisor).sup.pc = .log) := by
  refine ⟨_, serveWs_runtime registerClient conn channel hubs t0, rfl, ?_, ?_, ?_, ?_, ?_⟩
  · intro pre
    rw [(Runtime.run_traffic pre _).1]
    rfl
  · intro pre post
    exact Runtime.arm_run _ rfl pre post
  · intro post
    simpa [elapsed] using Runtime.arm_run (Runtime.start t0
      (registerClient channel conn hubs).1.1 (registerClient channel conn hubs).2) rfl [] post
  · intro es h1 h2
    exact (Runtime.Inv.run es (Runtime.Inv.start _ _ _)).fired h1 h2
  · intro es t hpc ht hle
    simp [Runtime.step, Runtime.supervisorStep, hpc, ht, hle]

end websocket

end TwoFas

namespace TwoFas

namespace websocket

/-- Traffic between two steps of the supervisor does not move the supervisor. -/
theorem Runtime.run_traffic_pc (pre : List Traffic) (s : Runtime) :
    (s.run (pre.map .traffic)).sup.pc = s.sup.pc := by
  rw [(Runtime.run_traffic pre s).1]

/-- Past `<-timeout`, each step of the supervisor executes its next statement. -/
theorem Runtime.supervisor_advances (s : Runtime) :
    (s.sup.pc = .log → (s.step .supervisor).sup.pc = .unregister) ∧
    (s.sup.pc = .unregister → (s.step .supervisor).sup.pc = .close) ∧
    (s.sup.pc = .close → (s.step .supervisor).sup.pc = .done) := by
  refine ⟨?_, ?_, ?_⟩ <;> intro h <;> simp [Runtime.step, Runtime.supervisorStep, h]

/-- The number of occurrences of a supervisor action in a trace is its number of
occurrences among the actions of the supervisor. -/
theorem count_supervisorActions (trace : List Action) (a : Action)
    (ha : a.actor = .supervisor) :
    (supervisorActions trace).count a = trace.count a := by
  unfold supervisorActions
  exact List.count_filter (by simp [ha])

/-- In every state of the invariant the actions of the supervisor are an initial part of
its three actions. -/
theorem Runtime.Inv.actions_initial_part {c : Client} {s : Runtime} (inv : Runtime.Inv c s) :
    supervisorActions s.trace <+:
      [.logInfo .supervisor "Connection closed after" 180000000000,
       .unregisterClient .supervisor c, .Close .supervisor c.conn] := by
  rw [inv.actions]
  cases s.sup.pc <;> simp [Line.performed, time.Minute, time.Second]

/-- In every state of the invariant in which the supervisor has closed the transport, it
has unregistered the client, and the client is not registered. -/
theorem Runtime.Inv.closed_after_unregister {c : Client} {s : Runtime}
    (inv : Runtime.Inv c s) (hmem : Action.Close .supervisor c.conn ∈ s.trace) :
    Action.unregisterClient .supervisor c ∈ s.trace ∧ s.hubs.isRegistered c = false := by
  have hmem2 : Action.Close .supervisor c.conn ∈ supervisorActions s.trace := by
    simp [supervisorActions, hmem, Action.actor]
  rw [inv.actions] at hmem2
  have hpc : s.sup.pc = .done := by
    cases hpc : s.sup.pc <;> simp [hpc, Line.performed] at hmem2 ⊢
  refine ⟨?_, inv.unregistered (Or.inr hpc)⟩
  have : Action.unregisterClient .supervisor c ∈ supervisorActions s.trace := by
    rw [inv.actions, hpc]; simp [Line.performed]
  exact (List.mem_filter.1 this).1

/-- In every state of the invariant in which the supervisor has returned, it has performed
its three actions, each once. -/
theorem Runtime.Inv.done_once {c : Client} {s : Runtime} (inv : Runtime.Inv c s)
    (hpc : s.sup.pc = .done) :
    supervisorActions s.trace =
      [.logInfo .supervisor "Connection closed after" 180000000000,
       .unregisterClient .supervisor c, .Close .supervisor c.conn] ∧
    s.trace.count (.unregisterClient .supervisor c) = 1 ∧
    s.trace.count (.Close .supervisor c.conn) = 1 := by
  have hact := inv.actions
  rw [hpc] at hact
  refine ⟨by rw [hact]; simp [Line.performed, time.Minute, time.Second], ?_, ?_⟩
  · rw [← count_supervisorActions s.trace (.unregisterClient .supervisor c) rfl, hact]
    simp [Line.performed, List.count_cons]
  · rw [← count_supervisorActions s.trace (.Close .supervisor c.conn) rfl, hact]
    simp [Line.performed, List.count_cons]

/-- A supervisor that has returned leaves the transport closed: one event keeps this. -/
theorem Runtime.closed_when_done_step (s : Runtime) (e : Event)
    (h : s.sup.pc = .done → s.closed = true) :
    (s.step e).sup.pc = .done → (s.step e).closed = true := by
  cases e with
  | traffic t =>
    cases t <;> simp only [Runtime.step, Runtime.traffic] <;>
      first | exact h | exact fun _ => trivial
  | supervisor =>
    simp only [Runtime.step, Runtime.supervisorStep]
    cases hpc : s.sup.pc with
    | arm => simp
    | wait =>
      simp only []
      split
      · split
        · simp
        · intro hd; rw [hpc] at hd; cases hd
      · intro hd; rw [hpc] at hd; cases hd
    | log => simp
    | unregister => simp
    | close => simp
    | done => exact fun _ => h hpc

/-- A supervisor that has returned leaves the transport closed, after every schedule. -/
theorem Runtime.closed_when_done_run (es : List Event) (s : Runtime)
    (h : s.sup.pc = .done → s.closed = true) :
    (s.run es).sup.pc = .done → (s.run es).closed = true := by
  induction es generalizing s with
  | nil => exact h
  | cons e es ih => exact ih (s.step e) (Runtime.closed_when_done_step s e h)

/-- Claim C4: for the supervisor started by `serveWs` on a successful upgrade and every
schedule of traffic, clock ticks and supervisor steps: the actions of the supervisor are
always an initial part of "log, unregister the client, close the transport", so it never
closes before it has unregistered and does neither twice; in the state in which it
executes `client.conn.Close()`, and ever after, the client is not registered with its hub;
once it has returned it has performed exactly one unregistration and exactly one close,
and the transport is closed;
and once the deadline has fired, four steps of the supervisor take it there, whatever
traffic comes in between. -/
theorem supervisor_unregisters_then_closes_once {β : Type}
    (registerClient : String → Conn → hubPool → (Client × β) × hubPool)
    (conn : Conn) (channel : String) (hubs : hubPool) (t0 : Nat) :
    ∃ s0 c, (serveWs registerClient (.ok conn) channel hubs).runtime t0 = some s0 ∧
      c = (registerClient channel conn hubs).1.1 ∧
      (∀ es : List Event,
        supervisorActions (s0.run es).trace <+:
          [.logInfo .supervisor "Connection closed after" 180000000000,
           .unregisterClient .supervisor c, .Close .supervisor c.conn]) ∧
      (∀ es : List Event,
        (s0.run es).sup.pc = .close ∨ (s0.run es).sup.pc = .done →
          (s0.run es).hubs.isRegistered c = false) ∧
      (∀ es : List Event,
        Action.Close .supervisor c.conn ∈ (s0.run es).trace →
          Action.unregisterClient .supervisor c ∈ (s0.run es).trace ∧
          (s0.run es).hubs.isRegistered c = false) ∧
      (∀ es : List Event,
        (s0.run es).sup.pc = .done →
          supervisorActions (s0.run es).trace =
            [.logInfo .supervisor "Connection closed after" 180000000000,
             .unregisterClient .supervisor c, .Close .supervisor c.conn] ∧
          (s0.run es).trace.count (.unregisterClient .supervisor c) = 1 ∧
          (s0.run es).trace.count (.Close .supervisor c.conn) = 1 ∧
          (s0.run es).closed = true) ∧
      (∀ (es : List Event) (t : Nat) (e1 e2 e3 : List Traffic),
        (s0.run es).sup.pc = .wait → (s0.run es).sup.timeout = some t →
          t ≤ (s0.run es).clock →
          ((s0.run es).run (.supervisor :: e1.map .traffic ++ .supervisor :: e2.map .traffic
            ++ .supervisor :: e3.map .traffic ++ [.supervisor])).sup.pc = .done ∧
          supervisorActions ((s0.run es).run (.supervisor :: e1.map .traffic ++
            .supervisor :: e2.map .traffic ++ .supervisor :: e3.map .traffic
            ++ [.supervisor])).trace =
            [.logInfo .supervisor "Connection closed after" 180000000000,
             .unregisterClient .supervisor c, .Close .supervisor c.conn]) := by
  refine ⟨_, _, serveWs_runtime registerClient conn channel hubs t0, rfl, ?_, ?_, ?_, ?_, ?_⟩
  · intro es
    exact (Runtime.Inv.run es (Runtime.Inv.start _ _ _)).actions_initial_part
  · intro es h
    exact (Runtime.Inv.run es (Runtime.Inv.start _ _ _)).unregistered h
  · intro es hmem
    exact (Runtime.Inv.run es (Runtime.Inv.start _ _ _)).closed_after_unregister hmem
  · intro es hpc
    have hdone := (Runtime.Inv.run es (Runtime.Inv.start _ _ _)).done_once hpc
    exact ⟨hdone.1, hdone.2.1, hdone.2.2,
      Runtime.closed_when_done_run es _ (fun hd => by cases hd) hpc⟩
  · intro es t e1 e2 e3 hpc ht hle
    have inv := Runtime.Inv.run (es ++ (.supervisor :: e1.map .traffic ++
      .supervisor :: e2.map .traffic ++ .supervisor :: e3.map .traffic ++ [.supervisor]))
      (Runtime.Inv.start t0 (registerClient channel conn hubs).1.1
        (registerClient channel conn hubs).2)
    rw [Runtime.run_append] at inv
    generalize Runtime.run _ es = s at hpc ht hle inv
    suffices hdone : (s.run (.supervisor :: e1.map .traffic ++ .supervisor :: e2.map .traffic
        ++ .supervisor :: e3.map .traffic ++ [.supervisor])).sup.pc = .done from
      ⟨hdone, (inv.done_once hdone).1⟩
    clear inv
    have h1 : (s.step .supervisor).sup.pc = .log := by
      simp [Runtime.step, Runtime.supervisorStep, hpc, ht, hle]
    have step : ∀ (u : Runtime) (e : List Traffic) (rest : List Event),
        u.run (.supervisor :: e.map .traffic ++ rest)
          = (((u.step .supervisor).run (e.map .traffic))).run rest := by
      intro u e rest
      rw [List.cons_append, ← Runtime.run_append]
      simp [Runtime.run]
    rw [List.append_assoc, List.append_assoc, step, step, step]
    have h2 := Runtime.run_traffic_pc e1 (s.step .supervisor)
    rw [h1] at h2
    have h3 := (Runtime.supervisor_advances _).1 h2
    have h4 := Runtime.run_traffic_pc e2 (Runtime.step (Runtime.run (s.step .supervisor)
      (e1.map .traffic)) .supervisor)
    rw [h3] at h4
    have h5 := (Runtime.supervisor_advances _).2.1 h4
    have h6 := Runtime.run_traffic_pc e3 (Runtime.step (Runtime.run (Runtime.step
      (Runtime.run (s.step .supervisor) (e1.map .traffic)) .supervisor)
      (e2.map .traffic)) .supervisor)
    rw [h5] at h6
    have h7 := (Runtime.supervisor_advances _).2.2 h6
    simpa [Runtime.run] using h7

/-- Witness of C3: on an empty hub pool at instant 0 a connection on channel `/ch` is
served; a frame arrives and 5 ns pass before the supervisor starts; whatever traffic
follows, the timer stays at 180000000005 ns. -/
theorem lifetime_deadline_is_fixed_witness :
    ∃ s0, (serveWs hubPool.registerClient (.ok ⟨7⟩) "/ch" Sample.noHubs).runtime 0 = some s0 ∧
      (s0.run [.traffic .inbound, .traffic (.tick 5), .supervisor, .traffic .inbound,
        .traffic (.tick 1000), .traffic .outbound, .supervisor,
        .traffic .readError]).sup.timeout = some 180000000005 :=
  (lifetime_deadline_is_fixed hubPool.registerClient ⟨7⟩ "/ch" Sample.noHubs 0).elim
    fun s0 h => ⟨s0, h.1, h.2.2.2.1 [.inbound, .tick 5]
      [.traffic .inbound, .traffic (.tick 1000), .traffic .outbound, .supervisor,
        .traffic .readError]⟩

/-- Witness of C4: the same connection; the supervisor arms, three minutes pass, and after
five more steps of the supervisor with a frame and a read error in between, its actions are
the log line, one unregistration and one close, in this order. -/
theorem supervisor_unregisters_then_closes_once_witness :
    ∃ s0 c, (serveWs hubPool.registerClient (.ok ⟨7⟩) "/ch" Sample.noHubs).runtime 0
        = some s0 ∧ c = (⟨0, "/ch", ⟨7⟩⟩ : Client) ∧
      supervisorActions
        ((s0.run [.supervisor, .traffic (.tick 180000000000)]).run
          (.supervisor :: [Traffic.inbound].map .traffic ++
            .supervisor :: [Traffic.readError].map .traffic ++
            .supervisor :: ([] : List Traffic).map .traffic ++ [.supervisor])).trace
        = [.logInfo .supervisor "Connection closed after" 180000000000,
           .unregisterClient .supervisor c, .Close .supervisor c.conn] :=
  (supervisor_unregisters_then_closes_once hubPool.registerClient ⟨7⟩ "/ch"
      Sample.noHubs 0).elim
    fun s0 h0 => h0.elim fun c h =>
      ⟨s0, c, h.1, h.2.1,
        (h.2.2.2.2.2.2 [.supervisor, .traffic (.tick 180000000000)] 180000000000
          [.inbound] [.readError] [] (by rw [Option.some.inj h.1.symm]; rfl)
          (by rw [Option.some.inj h.1.symm]; rfl)
          (by rw [Option.some.inj h.1.symm]; decide)).2⟩

end websocket

end TwoFas

namespace TwoFas

/-! ## A device that cannot be found -/

/-- When the lookup of the device returns an error, `Send2FaToken` writes the not-found body
built from it, passed to `c.JSON` with 404, and does not invoke the command; the status of
the response is 404 unless `c.BindJSON` had written the header. -/
theorem send2FaToken_missing_device {S D P : Type} (send : Send2FaTokenPorts S D)
    (bindJSON : Option GoError) (cmd : command.Send2FaToken) (s : S) (err : GoError)
    (hvalid : send.validate cmd = none)
    (hfind : send.FindById ((send.uuidParse cmd.DeviceId).getD uuid.Nil) s = .error err) :
    (Send2FaToken (P := P) send bindJSON cmd s).code = gin.JSON (gin.BindJSON bindJSON) 404 ∧
    (Send2FaToken (P := P) send bindJSON cmd s).body = .notFound err ∧
    (Send2FaToken (P := P) send bindJSON cmd s).calls = [.FindById] ∧
    Port.Send2FaToken ∉ (Send2FaToken (P := P) send bindJSON cmd s).calls ∧
    (Send2FaToken (P := P) send bindJSON cmd s).store = s := by
  simp [Send2FaToken, hvalid, hfind]

/-- Claim C11, the code at the failing input: on the sample store without device 1, device 1
answers a token request with a JSON body for which `c.BindJSON` returns an error while the
command is bound in full.  gin has answered 400, the handler goes on, the lookup of the
device fails, and the not-found body is written under the status 400, not 404; the command
is not invoked and the store is unchanged.  The same command from a body that binds is
answered 404, and so is the listing of the requests of device 1.  In general, whenever the
request is well formed and the lookup of the device returns an error: `Send2FaToken` writes
the not-found body built from that error, invokes only the lookup and leaves the store as it
was, with status 404 when `c.BindJSON` returned no error and 400 when it returned one;
`GetAll2FaTokenRequests` answers 404 with that body, invokes only the lookup and leaves the
store as it was. -/
theorem send2FaToken_missing_device_after_failed_bind :
    (∀ (S D : Type) (send : Send2FaTokenPorts S D) (bindJSON : Option GoError)
      (cmd : command.Send2FaToken) (s : S) (err : GoError),
      send.validate cmd = none →
      send.FindById ((send.uuidParse cmd.DeviceId).getD uuid.Nil) s = .error err →
        (bindJSON = none → (Send2FaToken (P := Unit) send bindJSON cmd s).code = 404) ∧
        (bindJSON ≠ none → (Send2FaToken (P := Unit) send bindJSON cmd s).code = 400) ∧
        (Send2FaToken (P := Unit) send bindJSON cmd s).body = .notFound err ∧
        (Send2FaToken (P := Unit) send bindJSON cmd s).calls = [.FindById] ∧
        Port.Send2FaToken ∉ (Send2FaToken (P := Unit) send bindJSON cmd s).calls ∧
        (Send2FaToken (P := Unit) send bindJSON cmd s).store = s) ∧
    (∀ (S D P : Type) (list : GetAll2FaTokenRequestsPorts S D P)
      (q : query.DeviceBrowserExtension2FaRequestQuery) (s : S) (err : GoError),
      list.validate q = none →
      list.FindById ((list.uuidParse q.DeviceId).getD uuid.Nil) s = .error err →
        (GetAll2FaTokenRequests list q s).code = 404 ∧
        (GetAll2FaTokenRequests list q s).body = .notFound err ∧
        (GetAll2FaTokenRequests list q s).calls = [.FindById] ∧
        Port.DeviceBrowserExtension2FaRequestQuery ∉ (GetAll2FaTokenRequests list q s).calls ∧
        (GetAll2FaTokenRequests list q s).store = s) ∧
    (Send2FaToken (P := Unit) (Spec.send2FaTokenPorts Sample.config (fun _ => none))
        (some Sample.bindError) Sample.sendCmd Sample.noDevice).code = 400 ∧
    (Send2FaToken (P := Unit) (Spec.send2FaTokenPorts Sample.config (fun _ => none))
        (some Sample.bindError) Sample.sendCmd Sample.noDevice).body
      = .notFound (.leaf MobileDeviceCouldNotBeFound
          "7d0c1a3e-0000-4000-8000-000000000001") ∧
    (Send2FaToken (P := Unit) (Spec.send2FaTokenPorts Sample.config (fun _ => none))
        (some Sample.bindError) Sample.sendCmd Sample.noDevice).calls = [.FindById] ∧
    (Send2FaToken (P := Unit) (Spec.send2FaTokenPorts Sample.config (fun _ => none))
        (some Sample.bindError) Sample.sendCmd Sample.noDevice).store = Sample.noDevice ∧
    (Send2FaToken (P := Unit) (Spec.send2FaTokenPorts Sample.config (fun _ => none))
        none Sample.sendCmd Sample.noDevice).code = 404 ∧
    (GetAll2FaTokenRequests (Spec.getAll2FaTokenRequestsPorts Sample.config (fun _ => none))
        Sample.listQuery Sample.noDevice).code = 404 ∧
    (GetAll2FaTokenRequests (Spec.getAll2FaTokenRequestsPorts Sample.config (fun _ => none))
        Sample.listQuery Sample.noDevice).store = Sample.noDevice := by
  refine ⟨?_, ?_, by decide, by decide, by decide, by decide, by decide, by decide,
    by decide⟩
  · intro S D send bindJSON cmd s err hvalid hfind
    have h := send2FaToken_missing_device (P := Unit) send bindJSON cmd s err hvalid hfind
    refine ⟨fun hb => ?_, fun hb => ?_, h.2.1, h.2.2.1, h.2.2.2.1, h.2.2.2.2⟩
    · rw [h.1, hb]; rfl
    · rw [h.1]
      cases bindJSON with
      | none => exact absurd rfl hb
      | some e => rfl
  · intro S D P list q s err hvalid hfind
    simp [GetAll2FaTokenRequests, hvalid, hfind]

/-! ## Removing a pairing -/

/-- An error whose chain holds no pointer to one of the two not-found types is answered 500
by `RemovePairingWithExtension`. -/
theorem removePairing_value_error_answers_500 {S P : Type}
    (r : RemovePairingWithExtensionPorts S) (cmd : command.RemoveDevicePairedExtension)
    (s s1 : S) (err : GoError)
    (hvalid : r.validate cmd = none) (hfail : r.Handle cmd s = (some err, s1))
    (hvalues : ∀ t ∈ err.chain, t.pointer = false) :
    (RemovePairingWithExtension (P := P) r cmd s).code = 500 ∧
    (RemovePairingWithExtension (P := P) r cmd s).body = .internalServerError err := by
  have h1 : errors.As err MobileDeviceCouldNotBeFound.ptr = false := by
    cases h : errors.As err MobileDeviceCouldNotBeFound.ptr with
    | false => rfl
    | true =>
      have := hvalues _ ((errors_As_iff_mem_chain _ _).1 h)
      simp [GoType.ptr] at this
  have h2 : errors.As err BrowserExtensionsCouldNotBeFound.ptr = false := by
    cases h : errors.As err BrowserExtensionsCouldNotBeFound.ptr with
    | false => rfl
    | true =>
      have := hvalues _ ((errors_As_iff_mem_chain _ _).1 h)
      simp [GoType.ptr] at this
  simp [RemovePairingWithExtension, hvalid, hfail, h1, h2]

/-- Claim C12, the code at the failing input: on the store without device 1, and on the
store without extension 2, removing the pairing of device 1 with extension 2 fails with the
not-found error value of the missing side, and `RemovePairingWithExtension` answers 500
with the body of an internal server error; `UpdateMobileDevice` answers the same error
value for device 1 with 404.  Every command error made of struct values only (no pointer
in its chain) is answered 500. -/
theorem removePairing_missing_side_answers_500 :
    (∀ (S : Type) (r : RemovePairingWithExtensionPorts S)
      (cmd : command.RemoveDevicePairedExtension) (s s1 : S) (err : GoError),
      r.validate cmd = none → r.Handle cmd s = (some err, s1) →
      (∀ t ∈ err.chain, t.pointer = false) →
        (RemovePairingWithExtension (P := Unit) r cmd s).code = 500) ∧
    (RemovePairingWithExtension (P := Unit) (Spec.removePairingPorts Sample.config
        (fun _ => none)) Sample.removeCmd Sample.noDevice).code = 500 ∧
    (RemovePairingWithExtension (P := Unit) (Spec.removePairingPorts Sample.config
        (fun _ => none)) Sample.removeCmd Sample.noDevice).body
      = .internalServerError (.leaf MobileDeviceCouldNotBeFound
          "7d0c1a3e-0000-4000-8000-000000000001") ∧
    (RemovePairingWithExtension (P := Unit) (Spec.removePairingPorts Sample.config
        (fun _ => none)) Sample.removeCmd Sample.noExtension).code = 500 ∧
    (RemovePairingWithExtension (P := Unit) (Spec.removePairingPorts Sample.config
        (fun _ => none)) Sample.removeCmd Sample.noExtension).body
      = .internalServerError (.leaf BrowserExtensionsCouldNotBeFound
          "7d0c1a3e-0000-4000-8000-000000000002") ∧
    (UpdateMobileDevice (Spec.updatePorts Sample.config (fun _ => none))
        Sample.updateCmd Sample.noDevice).code = 404 ∧
    (UpdateMobileDevice (Spec.updatePorts Sample.config (fun _ => none))
        Sample.updateCmd Sample.noDevice).body
      = .notFound (.leaf MobileDeviceCouldNotBeFound
          "7d0c1a3e-0000-4000-8000-000000000001") :=
  ⟨fun _ r cmd s s1 err hv hf hp =>
      (removePairing_value_error_answers_500 r cmd s s1 err hv hf hp).1,
   by decide⟩

end TwoFas

namespace TwoFas

namespace websocket

/-! ## `serveWs` and the channel key -/

/-- After `registerClient` of the hub pool the returned client is a member of the hub of
the channel, with the given transport. -/
theorem hubPool.isRegistered_registerClient (channel : String) (conn : Conn) (p : hubPool) :
    (hubPool.registerClient channel conn p).2.isRegistered
        (hubPool.registerClient channel conn p).1.1 = true ∧
    (hubPool.registerClient channel conn p).1.1.hub = channel ∧
    (hubPool.registerClient channel conn p).1.1.conn = conn := by
  refine ⟨?_, rfl, rfl⟩
  by_cases hany : p.hubs.any (fun h => decide (h.channel = channel)) = true
  · obtain ⟨h, hmem, hch⟩ := List.any_eq_true.1 hany
    simp only [decide_eq_true_eq] at hch
    simp only [hubPool.isRegistered, hubPool.registerClient, hany, if_true, List.any_eq_true,
      List.mem_map]
    exact ⟨_, ⟨h, hmem, rfl⟩, by simp [hch]⟩
  · simp only [hubPool.isRegistered, hubPool.registerClient, hany, List.any_eq_true]
    exact ⟨⟨channel, [⟨p.next, channel, conn⟩]⟩, by simp, by simp⟩

/-- On a successful upgrade `serveWs` starts the three tasks on the client that
`registerClient` returned, keeps the hub pool of the registration, and neither logs nor
sets a status. -/
theorem serveWs_three_tasks {β : Type}
    (registerClient : String → Conn → hubPool → (Client × β) × hubPool)
    (conn : Conn) (channel : String) (hubs : hubPool) :
    (serveWs registerClient (.ok conn) channel hubs).tasks
      = [.writePump (registerClient channel conn hubs).1.1,
         .readPump (registerClient channel conn hubs).1.1,
         .supervisor (registerClient channel conn hubs).1.1] ∧
    (serveWs registerClient (.ok conn) channel hubs).hubs
      = (registerClient channel conn hubs).2 ∧
    (serveWs registerClient (.ok conn) channel hubs).header = none ∧
    (serveWs registerClient (.ok conn) channel hubs).logged = none := by
  rcases h : registerClient channel conn hubs with ⟨⟨client, x⟩, hubs1⟩
  simp [serveWs, h]

/-- Claim C13: on a successful upgrade `serveWs` registers the client (the result of
`registerClient` is kept and the hub pool is the one registration left), passes no status to
`w.WriteHeader`, and starts exactly three tasks on the registered client, the write pump,
the read pump and the lifetime supervisor, which begin on the hub pool that registration
left; with the hub pool of the specification the client is then a member of the hub of its
channel.  On a failed upgrade it logs the error, registers no client, leaves the hub pool as
it was and starts no task; it passes 500 to `w.WriteHeader`, but the status of the response
is the one the upgrader has written before (the call is superfluous then), there is no
status when the upgrader had taken the connection over, and the status is 500 only when the
upgrader left the header unwritten or wrote 500 itself.  The code at the failing input: for
a request that is no websocket handshake the response has status 400, for a refused origin
403, not 500. -/
theorem serveWs_registers_then_starts_three_tasks {β : Type}
    (registerClient : String → Conn → hubPool → (Client × β) × hubPool)
    (channel : String) (hubs : hubPool) :
    (∀ (conn : Conn) (t0 : Nat),
      (serveWs registerClient (.ok conn) channel hubs).registered
        = some (registerClient channel conn hubs).1 ∧
      (serveWs registerClient (.ok conn) channel hubs).hubs
        = (registerClient channel conn hubs).2 ∧
      (serveWs registerClient (.ok conn) channel hubs).tasks
        = [.writePump (registerClient channel conn hubs).1.1,
           .readPump (registerClient channel conn hubs).1.1,
           .supervisor (registerClient channel conn hubs).1.1] ∧
      (serveWs registerClient (.ok conn) channel hubs).tasks.length = 3 ∧
      (serveWs registerClient (.ok conn) channel hubs).header = none ∧
      (serveWs registerClient (.ok conn) channel hubs).logged = none ∧
      (serveWs registerClient (.ok conn) channel hubs).runtime t0
        = some (Runtime.start t0 (registerClient channel conn hubs).1.1
            (registerClient channel conn hubs).2)) ∧
    (∀ conn : Conn,
      (serveWs hubPool.registerClient (.ok conn) channel hubs).hubs.isRegistered
        (hubPool.registerClient channel conn hubs).1.1 = true ∧
      (hubPool.registerClient channel conn hubs).1.1.hub = channel ∧
      (hubPool.registerClient channel conn hubs).1.1.conn = conn) ∧
    (∀ (failed : UpgradeError) (t0 : Nat),
      (serveWs registerClient (.error failed) channel hubs).header = some 500 ∧
      (serveWs registerClient (.error failed) channel hubs).logged = some failed.err ∧
      (serveWs registerClient (.error failed) channel hubs).registered = none ∧
      (serveWs registerClient (.error failed) channel hubs).hubs = hubs ∧
      (serveWs registerClient (.error failed) channel hubs).tasks = [] ∧
      (serveWs registerClient (.error failed) channel hubs).runtime t0 = none ∧
      (∀ status, failed.w = .wrote status →
        (serveWs registerClient (.error failed) channel hubs).status = some status) ∧
      (failed.w = .hijacked →
        (serveWs registerClient (.error failed) channel hubs).status = none) ∧
      ((serveWs registerClient (.error failed) channel hubs).status = some 500 ↔
        failed.w = .fresh ∨ failed.w = .wrote 500)) ∧
    (serveWs registerClient (.error Sample.notAHandshake) channel hubs).status = some 400 ∧
    (serveWs registerClient (.error Sample.originRefused) channel hubs).status = some 403 := by
  refine ⟨?_, ?_, ?_, rfl, rfl⟩
  · intro conn t0
    refine ⟨?_, ?_, ?_, ?_, ?_, ?_, serveWs_runtime registerClient conn channel hubs t0⟩ <;>
      rcases h : registerClient channel conn hubs with ⟨⟨client, x⟩, hubs1⟩ <;>
      simp [serveWs, h]
  · intro conn
    have h := hubPool.isRegistered_registerClient channel conn hubs
    refine ⟨?_, h.2.1, h.2.2⟩
    have hs : (serveWs hubPool.registerClient (.ok conn) channel hubs).hubs
        = (hubPool.registerClient channel conn hubs).2 := by
      rcases h2 : hubPool.registerClient channel conn hubs with ⟨⟨client, x⟩, hubs1⟩
      simp [serveWs, h2]
    rw [hs]
    exact h.1
  · intro failed t0
    refine ⟨rfl, rfl, rfl, rfl, rfl, by simp [serveWs, Served.runtime], ?_, ?_, ?_⟩
    · intro status hw
      simp [serveWs, hw, http.ResponseWriter.WriteHeader, http.ResponseWriter.status]
    · intro hw
      simp [serveWs, hw, http.ResponseWriter.WriteHeader, http.ResponseWriter.status]
    · cases hw : failed.w <;>
        simp [serveWs, hw, http.ResponseWriter.WriteHeader, http.ResponseWriter.status]

/-- Witness of C13: on the empty hub pool a connection on channel `/ch` is registered as
client 0 and gets its three tasks; the failed upgrade of a request that is no websocket
handshake gets no task, 500 is passed to `w.WriteHeader`, and the status of the response
is the 400 of the upgrader. -/
theorem serveWs_registers_then_starts_three_tasks_witness :
    (serveWs hubPool.registerClient (.ok ⟨7⟩) "/ch" Sample.noHubs).tasks
      = [.writePump ⟨0, "/ch", ⟨7⟩⟩, .readPump ⟨0, "/ch", ⟨7⟩⟩, .supervisor ⟨0, "/ch", ⟨7⟩⟩] ∧
    (serveWs hubPool.registerClient (.ok ⟨7⟩) "/ch" Sample.noHubs).hubs
      = ⟨[⟨"/ch", [⟨0, "/ch", ⟨7⟩⟩]⟩], 1⟩ ∧
    (serveWs hubPool.registerClient (.error Sample.notAHandshake) "/ch" Sample.noHubs).header
      = some 500 ∧
    (serveWs hubPool.registerClient (.error Sample.notAHandshake) "/ch" Sample.noHubs).tasks
      = [] ∧
    (serveWs hubPool.registerClient (.error Sample.notAHandshake) "/ch" Sample.noHubs).status
      = some 400 :=
  have h := serveWs_registers_then_starts_three_tasks hubPool.registerClient "/ch"
    Sample.noHubs
  ⟨(h.1 ⟨7⟩ 0).2.2.1, (h.1 ⟨7⟩ 0).2.1, (h.2.2.1 Sample.notAHandshake 0).1,
   (h.2.2.1 Sample.notAHandshake 0).2.2.2.2.1, h.2.2.2.1⟩

/-- Claim C16: `Handler` serves a request on the channel that is the path of its URL: the
connection is registered by `registerClient` called with that path; with the hub pool of the
specification the hub of the registered client is the path, so two registered clients are
on the same channel key exactly when the paths of their requests are equal strings; and two
requests with the same path and the same upgrade result are served alike, whatever their
query strings and headers. -/
theorem channel_key_is_url_path {β : Type}
    (registerClient : String → Conn → hubPool → (Client × β) × hubPool)
    (upgrade : http.Request → Except UpgradeError Conn) (hubs : hubPool) :
    (∀ r : http.Request,
      Handler registerClient upgrade r hubs
        = serveWs registerClient (upgrade r) r.URL.Path hubs) ∧
    (∀ (r : http.Request) (conn : Conn), upgrade r = .ok conn →
      (Handler registerClient upgrade r hubs).registered
        = some (registerClient r.URL.Path conn hubs).1 ∧
      (Handler registerClient upgrade r hubs).hubs = (registerClient r.URL.Path conn hubs).2) ∧
    (∀ (r : http.Request) (conn : Conn), upgrade r = .ok conn →
      ∃ c x, (Handler hubPool.registerClient upgrade r hubs).registered = some (c, x) ∧
        c.hub = r.URL.Path ∧
        (Handler hubPool.registerClient upgrade r hubs).hubs.isRegistered c = true) ∧
    (∀ (r1 r2 : http.Request) (hubs1 hubs2 : hubPool) (c1 c2 : Client)
      (x1 x2 : Option GoError),
      (Handler hubPool.registerClient upgrade r1 hubs1).registered = some (c1, x1) →
      (Handler hubPool.registerClient upgrade r2 hubs2).registered = some (c2, x2) →
        (c1.hub = c2.hub ↔ r1.URL.Path = r2.URL.Path)) ∧
    (∀ r1 r2 : http.Request, r1.URL.Path = r2.URL.Path → upgrade r1 = upgrade r2 →
      Handler registerClient upgrade r1 hubs = Handler registerClient upgrade r2 hubs) := by
  refine ⟨fun r => rfl, ?_, ?_, ?_, ?_⟩
  · intro r conn hup
    rcases h : registerClient r.URL.Path conn hubs with ⟨⟨client, x⟩, hubs1⟩
    simp [Handler, serveWs, hup, h]
  · intro r conn hup
    have h := hubPool.isRegistered_registerClient r.URL.Path conn hubs
    refine ⟨(hubPool.registerClient r.URL.Path conn hubs).1.1,
      (hubPool.registerClient r.URL.Path conn hubs).1.2, ?_, h.2.1, ?_⟩
    · simp [Handler, serveWs, hup]
    · simpa [Handler, serveWs, hup] using h.1
  · intro r1 r2 hubs1 hubs2 c1 c2 x1 x2 h1 h2
    have key : ∀ (r : http.Request) (p : hubPool) (c : Client) (x : Option GoError),
        (Handler hubPool.registerClient upgrade r p).registered = some (c, x) →
          c.hub = r.URL.Path := by
      intro r p c x h
      cases hup : upgrade r with
      | error e => simp [Handler, serveWs, hup] at h
      | ok conn =>
        simp only [Handler, serveWs, hup, Option.some.injEq, Prod.mk.injEq] at h
        rw [← h.1]
        rfl
    rw [key r1 hubs1 c1 x1 h1, key r2 hubs2 c2 x2 h2]
  · intro r1 r2 hpath hup
    simp [Handler, hpath, hup]

/-- Witness of C16: the request from the allowed origin and the request with a query
string, other headers and the same path get the same channel key. -/
theorem channel_key_is_url_path_witness :
    Sample.fromAllowedOrigin.URL.RawQuery ≠ Sample.samePathOtherQuery.URL.RawQuery ∧
    Sample.fromAllowedOrigin.Header ≠ Sample.samePathOtherQuery.Header ∧
    Handler hubPool.registerClient (fun _ => .ok ⟨7⟩) Sample.fromAllowedOrigin Sample.noHubs
      = Handler hubPool.registerClient (fun _ => .ok ⟨7⟩) Sample.samePathOtherQuery
          Sample.noHubs :=
  ⟨by decide, by decide,
   (channel_key_is_url_path hubPool.registerClient (fun _ => .ok ⟨7⟩) Sample.noHubs).2.2.2.2
      Sample.fromAllowedOrigin Sample.samePathOtherQuery rfl rfl⟩

/-- Claim C18: `serveWs` keeps only the client of the two results of `registerClient`: on a
successful upgrade it starts the write pump, the read pump and the lifetime supervisor on
the returned client, logs nothing and passes no status to `w.WriteHeader`, also when the
second result is an error; and two `registerClient` that return the same client and leave
the same hub pool are served alike (same tasks, same hub pool, same state of the
goroutines), whatever their second results are. -/
theorem serveWs_discards_registration_error
    (registerClient : String → Conn → hubPool → (Client × Option GoError) × hubPool)
    (conn : Conn) (channel : String) (hubs : hubPool) :
    (∀ (err : GoError) (t0 : Nat), (registerClient channel conn hubs).1.2 = some err →
      (serveWs registerClient (.ok conn) channel hubs).tasks
        = [.writePump (registerClient channel conn hubs).1.1,
           .readPump (registerClient channel conn hubs).1.1,
           .supervisor (registerClient channel conn hubs).1.1] ∧
      (serveWs registerClient (.ok conn) channel hubs).header = none ∧
      (serveWs registerClient (.ok conn) channel hubs).logged = none ∧
      (serveWs registerClient (.ok conn) channel hubs).runtime t0
        = some (Runtime.start t0 (registerClient channel conn hubs).1.1
            (registerClient channel conn hubs).2)) ∧
    (∀ (γ : Type) (other : String → Conn → hubPool → (Client × γ) × hubPool),
      (other channel conn hubs).1.1 = (registerClient channel conn hubs).1.1 →
      (other channel conn hubs).2 = (registerClient channel conn hubs).2 →
        (serveWs other (.ok conn) channel hubs).tasks
          = (serveWs registerClient (.ok conn) channel hubs).tasks ∧
        (serveWs other (.ok conn) channel hubs).hubs
          = (serveWs registerClient (.ok conn) channel hubs).hubs ∧
        (serveWs other (.ok conn) channel hubs).header
          = (serveWs registerClient (.ok conn) channel hubs).header ∧
        (serveWs other (.ok conn) channel hubs).logged
          = (serveWs registerClient (.ok conn) channel hubs).logged ∧
        ∀ t0, (serveWs other (.ok conn) channel hubs).runtime t0
          = (serveWs registerClient (.ok conn) channel hubs).runtime t0) := by
  have base := serveWs_three_tasks registerClient conn channel hubs
  refine ⟨?_, ?_⟩
  · intro err t0 _
    exact ⟨base.1, base.2.2.1, base.2.2.2, serveWs_runtime registerClient conn channel hubs t0⟩
  · intro γ other h1 h2
    have b2 := serveWs_three_tasks other conn channel hubs
    refine ⟨?_, ?_, ?_, ?_, ?_⟩
    · rw [b2.1, base.1, h1]
    · rw [b2.2.1, base.2.1, h2]
    · rw [b2.2.2.1, base.2.2.1]
    · rw [b2.2.2.2, base.2.2.2]
    · intro t0
      rw [serveWs_runtime, serveWs_runtime, h1, h2]

end websocket

end TwoFas

namespace TwoFas

namespace websocket

/-- Witness of C18: with a `registerClient` that fails, the three tasks are started on the
client it returned, and nothing is logged or answered. -/
theorem serveWs_discards_registration_error_witness :
    (Sample.failingRegisterClient "/ch" ⟨7⟩ Sample.noHubs).1.2
      = some (.leaf ⟨"*errors.errorString", true⟩ "hub is closed") ∧
    (serveWs Sample.failingRegisterClient (.ok ⟨7⟩) "/ch" Sample.noHubs).tasks
      = [.writePump ⟨0, "/ch", ⟨7⟩⟩, .readPump ⟨0, "/ch", ⟨7⟩⟩, .supervisor ⟨0, "/ch", ⟨7⟩⟩] ∧
    (serveWs Sample.failingRegisterClient (.ok ⟨7⟩) "/ch" Sample.noHubs).header = none ∧
    (serveWs Sample.failingRegisterClient (.ok ⟨7⟩) "/ch" Sample.noHubs).logged = none :=
  have h := (serveWs_discards_registration_error Sample.failingRegisterClient ⟨7⟩ "/ch"
    Sample.noHubs).1 (.leaf ⟨"*errors.errorString", true⟩ "hub is closed") 0 rfl
  ⟨rfl, h.1, h.2.1, h.2.2.1⟩

/-- An environment without the variable gives the empty string. -/
theorem Getenv_unset (env : os.Environ) (key : String) (h : ∀ kv ∈ env, kv.1 ≠ key) :
    os.Getenv env key = "" := by
  have : env.find? (fun kv => decide (kv.1 = key)) = none := by
    apply List.find?_eq_none.2
    intro kv hkv
    simpa using h kv hkv
  simp [os.Getenv, this]

/-- Claim C17: when the variable `WEBSOCKET_ALLOWED_ORIGIN` is not set, or is set to the
empty string, the origin check accepts every request, whatever its headers are. -/
theorem checkOrigin_accepts_all_when_unconfigured (env : os.Environ) (r : http.Request)
    (hconf : (∀ kv ∈ env, kv.1 ≠ "WEBSOCKET_ALLOWED_ORIGIN") ∨
      os.Getenv env "WEBSOCKET_ALLOWED_ORIGIN" = "") :
    CheckOrigin env r = true := by
  have h : os.Getenv env "WEBSOCKET_ALLOWED_ORIGIN" = "" := by
    rcases hconf with h | h
    · exact Getenv_unset env _ h
    · exact h
  simp [CheckOrigin, h]

/-- Witness of C17: without the variable a request from any origin and a request without
`Origin` are accepted, and so is a request from any origin when the variable is empty. -/
theorem checkOrigin_accepts_all_when_unconfigured_witness :
    CheckOrigin Sample.environWithoutOrigin Sample.fromOtherOrigin = true ∧
    CheckOrigin Sample.environWithoutOrigin Sample.withoutOrigin = true ∧
    CheckOrigin Sample.environWithEmptyOrigin Sample.fromOtherOrigin = true :=
  ⟨checkOrigin_accepts_all_when_unconfigured Sample.environWithoutOrigin
      Sample.fromOtherOrigin (Or.inl (by decide)),
   checkOrigin_accepts_all_when_unconfigured Sample.environWithoutOrigin
      Sample.withoutOrigin (Or.inl (by decide)),
   checkOrigin_accepts_all_when_unconfigured Sample.environWithEmptyOrigin
      Sample.fromOtherOrigin (Or.inr (by decide))⟩

/-! ## Membership of the hubs -/

/-- The empty hub pool agrees with the empty ledger. -/
theorem hubPool.Agrees.empty : hubPool.Agrees ⟨[], 0⟩ ⟨[], 0⟩ where
  next := rfl
  members := by simp
  hubs := by simp

/-- The count of a channel in a hub pool that agrees with a ledger is the count of the
ledger. -/
theorem hubPool.Agrees.count_eq {p : hubPool} {l : Ledger} (h : p.Agrees l)
    (channel : String) : p.count channel = l.count channel := by
  unfold hubPool.count Ledger.count
  cases hfind : p.hubs.find? (fun h => decide (h.channel = channel)) with
  | none =>
    have hnone : l.live.filter (fun c => decide (c.hub = channel)) = [] := by
      apply List.filter_eq_nil_iff.2
      intro c hc
      obtain ⟨g, hg, hgc⟩ := h.hubs c hc
      have := List.find?_eq_none.1 hfind g hg
      simp only [decide_eq_true_eq] at this ⊢
      intro hcc
      exact this (hgc.trans hcc)
    simp [hnone]
  | some g =>
    have hg := List.mem_of_find?_eq_some hfind
    have hch : g.channel = channel := by simpa using List.find?_some hfind
    simp only []
    rw [(h.members g hg).1, hch]

end websocket

end TwoFas

namespace TwoFas

namespace websocket

/-- The registration issued by `serveWs` leaves the hub pool of `registerClient`. -/
theorem hubPool.apply_register (p : hubPool) (channel : String) (conn : Conn) :
    p.apply (.register channel conn) = (hubPool.registerClient channel conn p).2 :=
  (serveWs_three_tasks hubPool.registerClient conn channel p).2.1

/-- Every operation keeps the hub pool in agreement with the ledger. -/
theorem hubPool.Agrees.apply {p : hubPool} {l : Ledger} (h : p.Agrees l) (op : HubOp) :
    (p.apply op).Agrees (l.apply op) := by
  obtain ⟨hn, hm, hh⟩ := h
  cases op with
  | register channel conn =>
    rw [hubPool.apply_register]
    cases hany : p.hubs.any (fun h => decide (h.channel = channel)) with
    | true =>
      refine ⟨?_, ?_, ?_⟩
      · simp [hubPool.registerClient, Ledger.apply, hn]
      · intro g hg
        simp only [hubPool.registerClient, hany, if_true, List.mem_map] at hg
        obtain ⟨g0, hg0, rfl⟩ := hg
        obtain ⟨hc, hne⟩ := hm g0 hg0
        by_cases hch : g0.channel = channel
        · simp [hch, Ledger.apply, List.filter_append, hn, hc]
        · have hch2 : ¬ channel = g0.channel := fun e => hch e.symm
          simp [hch, hch2, Ledger.apply, List.filter_append, hc, hne]
          obtain ⟨x, hx⟩ := List.exists_mem_of_ne_nil _ hne
          rw [hc] at hx
          simp only [List.mem_filter, decide_eq_true_eq] at hx
          exact ⟨x, hx.1, hx.2⟩
      · intro c hc
        simp only [Ledger.apply, List.mem_append, List.mem_singleton] at hc
        simp only [hubPool.registerClient, hany, if_true, List.mem_map]
        rcases hc with hc | rfl
        · obtain ⟨g, hg, hgc⟩ := hh c hc
          refine ⟨_, ⟨g, hg, rfl⟩, ?_⟩
          by_cases hch : g.channel = channel <;> simp [hch, hgc.symm]
        · obtain ⟨g, hg, hgc⟩ := List.any_eq_true.1 hany
          simp only [decide_eq_true_eq] at hgc
          exact ⟨_, ⟨g, hg, rfl⟩, by simp [hgc]⟩
    | false =>
      have hnone : ∀ g ∈ p.hubs, g.channel ≠ channel := by
        intro g hg e
        have : p.hubs.any (fun h => decide (h.channel = channel)) = true :=
          List.any_eq_true.2 ⟨g, hg, decide_eq_true e⟩
        rw [hany] at this
        cases this
      have hempty : l.live.filter (fun c => decide (c.hub = channel)) = [] := by
        apply List.filter_eq_nil_iff.2
        intro c hc
        obtain ⟨g, hg, hgc⟩ := hh c hc
        simp only [decide_eq_true_eq]
        intro e
        exact hnone g hg (hgc.trans e)
      refine ⟨?_, ?_, ?_⟩
      · simp [hubPool.registerClient, Ledger.apply, hn]
      · intro g hg
        simp only [hubPool.registerClient, hany, List.mem_append, List.mem_singleton,
          Bool.false_eq_true, if_false] at hg
        rcases hg with hg | rfl
        · obtain ⟨hc, hne⟩ := hm g hg
          have hch2 : ¬ channel = g.channel := fun e => hnone g hg e.symm
          refine ⟨?_, hne⟩
          simp [Ledger.apply, List.filter_append, hc, hch2]
        · simp [Ledger.apply, List.filter_append, hempty, hn]
      · intro c hc
        simp only [Ledger.apply, List.mem_append, List.mem_singleton] at hc
        simp only [hubPool.registerClient, hany, List.mem_append, List.mem_singleton,
          Bool.false_eq_true, if_false]
        rcases hc with hc | rfl
        · obtain ⟨g, hg, hgc⟩ := hh c hc
          exact ⟨g, Or.inl hg, hgc⟩
        · exact ⟨⟨channel, [⟨p.next, channel, conn⟩]⟩, Or.inr rfl, rfl⟩
  | unregister client =>
    refine ⟨hn, ?_, ?_⟩
    · intro g hg
      simp only [hubPool.apply, hubPool.unregisterClient, List.mem_filter, List.mem_map] at hg
      obtain ⟨⟨g0, hg0, rfl⟩, hkeep⟩ := hg
      obtain ⟨hc, hne⟩ := hm g0 hg0
      by_cases hch : g0.channel = client.hub
      · simp only [hch, if_true, decide_True, Bool.true_and, Bool.not_eq_true',
          List.isEmpty_eq_false] at hkeep ⊢
        refine ⟨?_, hkeep⟩
        rw [hc, hch]
        simp [Ledger.apply, List.filter_filter, Bool.and_comm]
      · simp only [hch, if_false] at hkeep ⊢
        refine ⟨?_, hne⟩
        rw [hc]
        simp only [Ledger.apply, List.filter_filter]
        apply List.filter_congr
        intro x _
        by_cases hx : x.hub = g0.channel
        · have : x ≠ client := by
            intro e; subst e; exact hch hx.symm
          simp [hx, this]
        · simp [hx]
    · intro c hc
      simp only [Ledger.apply, List.mem_filter, decide_eq_true_eq] at hc
      obtain ⟨hcl, hcne⟩ := hc
      obtain ⟨g, hg, hgc⟩ := hh c hcl
      obtain ⟨hgm, -⟩ := hm g hg
      have hcg : c ∈ g.clients := by
        rw [hgm]; simp [hcl, hgc]
      simp only [hubPool.apply, hubPool.unregisterClient, List.mem_filter, List.mem_map]
      by_cases hch : g.channel = client.hub
      · refine ⟨_, ⟨⟨g, hg, rfl⟩, ?_⟩, ?_⟩
        · simp only [hch, if_true, decide_True, Bool.true_and, Bool.not_eq_true',
            List.isEmpty_eq_false]
          intro hnil
          have : c ∈ g.clients.filter (fun x => x ≠ client) := by
            simp [hcg, hcne]
          rw [hnil] at this
          cases this
        · simp [hch, hgc.symm]
      · refine ⟨_, ⟨⟨g, hg, rfl⟩, ?_⟩, ?_⟩
        · simp [hch]
        · rw [if_neg hch]; exact hgc

/-- Every sequence of operations keeps the hub pool in agreement with the ledger. -/
theorem hubPool.Agrees.applyAll {p : hubPool} {l : Ledger} (h : p.Agrees l)
    (ops : List HubOp) : (p.applyAll ops).Agrees (l.applyAll ops) := by
  induction ops generalizing p l with
  | nil => exact h
  | cons op ops ih => simpa [hubPool.applyAll, Ledger.applyAll] using ih (h.apply op)

end websocket

end TwoFas

namespace TwoFas

namespace websocket

/-- A sequence of operations followed by one more operation. -/
theorem hubPool.applyAll_concat (p : hubPool) (ops : List HubOp) (op : HubOp) :
    p.applyAll (ops ++ [op]) = (p.applyAll ops).apply op := by
  simp [hubPool.applyAll, List.foldl_append]

/-- The ledger of a sequence of operations followed by one more operation. -/
theorem Ledger.applyAll_snoc (l : Ledger) (ops : List HubOp) (op : HubOp) :
    l.applyAll (ops ++ [op]) = (l.applyAll ops).apply op := by
  simp [Ledger.applyAll, List.foldl_append]

/-- Claim C14: start from the empty hub pool and apply any sequence of registrations (as
`serveWs` issues them) and unregistrations (as the lifetime supervisor and the pumps issue
them, of any client, any number of times).  The membership count of every channel equals
the number of clients of that channel that were registered and have not been unregistered
since (the ledger of the sequence), and is not negative.  A further registration on the
channel raises the count by one; unregistering a client that is not a member at that
moment (never registered, or already unregistered) leaves the count as it is, and
unregistering the same client twice gives the same count as unregistering it once. -/
theorem hub_count_is_live_membership (ops : List HubOp) (channel : String) :
    ((⟨[], 0⟩ : hubPool).applyAll ops).count channel
      = ((⟨[], 0⟩ : Ledger).applyAll ops).count channel ∧
    (0 : Int) ≤ (((⟨[], 0⟩ : hubPool).applyAll ops).count channel : Int) ∧
    (∀ conn : Conn,
      ((⟨[], 0⟩ : hubPool).applyAll (ops ++ [.register channel conn])).count channel
        = ((⟨[], 0⟩ : hubPool).applyAll ops).count channel + 1) ∧
    (∀ c : Client, c ∉ ((⟨[], 0⟩ : Ledger).applyAll ops).live →
      ((⟨[], 0⟩ : hubPool).applyAll (ops ++ [.unregister c])).count channel
        = ((⟨[], 0⟩ : hubPool).applyAll ops).count channel) ∧
    (∀ c : Client,
      ((⟨[], 0⟩ : hubPool).applyAll (ops ++ [.unregister c, .unregister c])).count channel
        = ((⟨[], 0⟩ : hubPool).applyAll (ops ++ [.unregister c])).count channel) := by
  have agree : ∀ ops : List HubOp,
      ((⟨[], 0⟩ : hubPool).applyAll ops).Agrees ((⟨[], 0⟩ : Ledger).applyAll ops) :=
    fun ops => hubPool.Agrees.empty.applyAll ops
  refine ⟨(agree ops).count_eq channel, Int.natCast_nonneg _, ?_, ?_, ?_⟩
  · intro conn
    rw [(agree _).count_eq, (agree ops).count_eq, Ledger.applyAll_snoc]
    simp [Ledger.count, Ledger.apply, List.filter_append]
  · intro c hc
    rw [(agree _).count_eq, (agree ops).count_eq, Ledger.applyAll_snoc]
    have : (((⟨[], 0⟩ : Ledger).applyAll ops).live.filter (fun x => x ≠ c))
        = ((⟨[], 0⟩ : Ledger).applyAll ops).live := by
      apply List.filter_eq_self.2
      intro x hx
      have : x ≠ c := fun e => hc (e ▸ hx)
      simpa using this
    simp only [Ledger.count, Ledger.apply, this]
  · intro c
    rw [(agree _).count_eq, (agree _).count_eq]
    have : ops ++ [HubOp.unregister c, .unregister c]
        = (ops ++ [.unregister c]) ++ [.unregister c] := by simp
    rw [this, Ledger.applyAll_snoc, Ledger.applyAll_snoc]
    simp [Ledger.count, Ledger.apply, List.filter_filter]

/-- Witness of C14: two connections join channel `/a` and one joins `/b`; the first client
of `/a` is unregistered twice and a client that never joined is unregistered; `/a` and `/b`
then have one member each, and a channel without a hub has none. -/
theorem hub_count_is_live_membership_witness :
    ((⟨[], 0⟩ : hubPool).applyAll
      [.register "/a" ⟨1⟩, .register "/a" ⟨2⟩, .register "/b" ⟨3⟩,
       .unregister ⟨0, "/a", ⟨1⟩⟩, .unregister ⟨0, "/a", ⟨1⟩⟩,
       .unregister ⟨9, "/b", ⟨9⟩⟩]).count "/a" = 1 ∧
    ((⟨[], 0⟩ : hubPool).applyAll
      [.register "/a" ⟨1⟩, .register "/a" ⟨2⟩, .register "/b" ⟨3⟩,
       .unregister ⟨0, "/a", ⟨1⟩⟩, .unregister ⟨0, "/a", ⟨1⟩⟩,
       .unregister ⟨9, "/b", ⟨9⟩⟩]).count "/b" = 1 ∧
    ((⟨[], 0⟩ : hubPool).applyAll
      [.register "/a" ⟨1⟩, .unregister ⟨0, "/a", ⟨1⟩⟩]).count "/a" = 0 :=
  ⟨(hub_count_is_live_membership _ "/a").1.trans (by decide),
   (hub_count_is_live_membership _ "/b").1.trans (by decide),
   (hub_count_is_live_membership _ "/a").1.trans (by decide)⟩

end websocket

end TwoFas

namespace TwoFas

namespace icons

/-! ## The lookup of a web service -/

/-- Claim C15: `WebServiceMysqlRepository.FindById` returns the row with no error when the
statement finds one; it returns the `WebServiceCouldNotBeFound` error whose `Identifier` is
the string form of the id when the error of the statement is, or wraps,
`gorm.ErrRecordNotFound`; it returns every other error of the statement as
`db.WrapError(err)`.  Provided `db.WrapError` never builds a `WebServiceCouldNotBeFound`,
the returned error is a `WebServiceCouldNotBeFound` exactly when the store reported
record-not-found.  On a table without failure, a row with the id is returned when there is
one, and the not-found error when there is none. -/
theorem webService_findById_entity_or_not_found (r : WebServiceMysqlRepository) (id : UUID)
    (hwrap : ∀ err, (r.WrapError err).type ≠ WebServiceCouldNotBeFound) :
    (∀ row, r.db.First (fun row => decide (r.uuidString row.Id = r.uuidString id)) = .ok row →
      r.FindById id = .ok row) ∧
    (∀ err, r.db.First (fun row => decide (r.uuidString row.Id = r.uuidString id))
        = .error err →
      errors.Is err gorm.ErrRecordNotFound = true →
      r.FindById id = .error (.leaf WebServiceCouldNotBeFound (r.uuidString id))) ∧
    (∀ err, r.db.First (fun row => decide (r.uuidString row.Id = r.uuidString id))
        = .error err →
      errors.Is err gorm.ErrRecordNotFound = false →
      r.FindById id = .error (r.WrapError err)) ∧
    (∀ e, r.FindById id = .error e →
      (e.type = WebServiceCouldNotBeFound ↔
        ∃ err, r.db.First (fun row => decide (r.uuidString row.Id = r.uuidString id))
          = .error err ∧ errors.Is err gorm.ErrRecordNotFound = true)) ∧
    (r.db.failure = none →
      (∀ row ∈ r.db.rows, r.uuidString row.Id = r.uuidString id →
        ∃ found, r.FindById id = .ok found ∧ found ∈ r.db.rows ∧
          r.uuidString found.Id = r.uuidString id) ∧
      ((∀ row ∈ r.db.rows, r.uuidString row.Id ≠ r.uuidString id) →
        r.FindById id = .error (.leaf WebServiceCouldNotBeFound (r.uuidString id)))) := by
  refine ⟨?_, ?_, ?_, ?_, ?_⟩
  · intro row h
    simp [WebServiceMysqlRepository.FindById, h]
  · intro err h his
    simp [WebServiceMysqlRepository.FindById, h, his]
  · intro err h his
    simp [WebServiceMysqlRepository.FindById, h, his]
  · intro e he
    cases hfirst : r.db.First (fun row => decide (r.uuidString row.Id = r.uuidString id)) with
    | ok row => simp [WebServiceMysqlRepository.FindById, hfirst] at he
    | error err =>
      cases his : errors.Is err gorm.ErrRecordNotFound with
      | true =>
        simp only [WebServiceMysqlRepository.FindById, hfirst, his, if_true,
          Except.error.injEq] at he
        subst he
        simp [GoError.type, his]
      | false =>
        simp only [WebServiceMysqlRepository.FindById, hfirst, his, Bool.false_eq_true,
          if_false, Except.error.injEq] at he
        subst he
        simp [hwrap err, his]
  · intro hfail
    refine ⟨?_, ?_⟩
    · intro row hrow hid
      cases hfind : r.db.rows.find?
          (fun row => decide (r.uuidString row.Id = r.uuidString id)) with
      | none =>
        have := List.find?_eq_none.1 hfind row hrow
        simp [hid] at this
      | some found =>
        refine ⟨found, ?_, List.mem_of_find?_eq_some hfind, ?_⟩
        · simp [WebServiceMysqlRepository.FindById, gorm.DB.First, hfail, hfind]
        · simpa using List.find?_some hfind
    · intro hnone
      have hfind : r.db.rows.find?
          (fun row => decide (r.uuidString row.Id = r.uuidString id)) = none := by
        apply List.find?_eq_none.2
        intro row hrow
        simpa using hnone row hrow
      simp [WebServiceMysqlRepository.FindById, gorm.DB.First, hfail, hfind, errors.Is,
        gorm.ErrRecordNotFound]

/-- Witness of C15: the sample repository returns web service 1 for id 1 and the not-found
error with the string form of the id for id 3; when the connection is lost it returns the
wrapped error of the connection, which is not a `WebServiceCouldNotBeFound`. -/
theorem webService_findById_entity_or_not_found_witness :
    Sample.webServices.FindById ⟨1⟩ = .ok Sample.webService1 ∧
    Sample.webServices.FindById ⟨3⟩
      = .error (.leaf WebServiceCouldNotBeFound "7d0c1a3e-0000-4000-8000-000000000003") ∧
    Sample.webServicesOffline.FindById ⟨1⟩
      = .error (.wrap ⟨"db.DBError", false⟩ "db error"
          (.leaf ⟨"*net.OpError", true⟩ "connection refused")) :=
  ⟨(webService_findById_entity_or_not_found Sample.webServices ⟨1⟩
      (fun _ => by simp [Sample.webServices, GoError.type, WebServiceCouldNotBeFound])).1
      Sample.webService1 rfl,
   (webService_findById_entity_or_not_found Sample.webServices ⟨3⟩
      (fun _ => by simp [Sample.webServices, GoError.type, WebServiceCouldNotBeFound])).2.1
      gorm.ErrRecordNotFound rfl rfl,
   (webService_findById_entity_or_not_found Sample.webServicesOffline ⟨1⟩
      (fun _ => by
        simp [Sample.webServicesOffline, Sample.webServices, GoError.type,
          WebServiceCouldNotBeFound])).2.2.1
      (.leaf ⟨"*net.OpError", true⟩ "connection refused") rfl rfl⟩

end icons

end TwoFas

namespace TwoFas

namespace icons

open UpdateWebServiceFromIconRequestHandler

/-! ## The clean-up of outdated icons -/

section

variable {S I : Type}

/-- The lookups of icons in a sequence of two parts. -/
theorem iconLookups_andThen {α β : Type} (x : Step S α) (f : α → S → Step S β) :
    iconLookups (x.andThen f).calls =
      iconLookups x.calls ++
        (match x.flow with
         | .next a => iconLookups (f a x.store).calls
         | _ => []) := by
  unfold Step.andThen
  cases x.flow <;> simp [iconLookups, List.filterMap_append]

/-- The decoded passes in a sequence of two parts. -/
theorem decodedPasses_andThen {α β : Type} (lib : Libraries I) (x : Step S α)
    (f : α → S → Step S β) :
    decodedPasses lib (x.andThen f).calls =
      decodedPasses lib x.calls +
        (match x.flow with
         | .next a => decodedPasses lib (f a x.store).calls
         | _ => 0) := by
  unfold Step.andThen
  cases x.flow <;> simp [decodedPasses, List.countP_append]

/-- A sequence of two parts goes on only when both parts go on. -/
theorem andThen_next {α β : Type} (x : Step S α) (f : α → S → Step S β) (b : β)
    (h : (x.andThen f).flow = .next b) :
    ∃ a, x.flow = .next a ∧ (f a x.store).flow = .next b := by
  unfold Step.andThen at h
  cases hx : x.flow with
  | next a => rw [hx] at h; exact ⟨a, rfl, h⟩
  | returned err => rw [hx] at h; cases h
  | panicked reason => rw [hx] at h; cases h

/-- Reading, decoding, moving and saving an icon looks no icon up. -/
theorem icon_iconLookups (h : UpdateWebServiceFromIconRequestHandler S I) (type : IconType)
    (url name : String) (iconId : UUID) (m1 m2 m3 m4 : String) (s : S) :
    iconLookups (h.icon type url name iconId m1 m2 m3 m4 s).calls = [] := by
  unfold UpdateWebServiceFromIconRequestHandler.icon
  simp only []
  split
  · rfl
  · split
    · rfl
    · split
      · rfl
      · split <;> rfl

/-- Reading, decoding, moving and saving an icon reads no icon list. -/
theorem icon_decodedPasses (h : UpdateWebServiceFromIconRequestHandler S I) (type : IconType)
    (url name : String) (iconId : UUID) (m1 m2 m3 m4 : String) (s : S) :
    decodedPasses h.lib (h.icon type url name iconId m1 m2 m3 m4 s).calls = 0 := by
  unfold UpdateWebServiceFromIconRequestHandler.icon
  simp only []
  split
  · rfl
  · split
    · rfl
    · split
      · rfl
      · split <;> rfl

/-- The lookups of the request and of the web service look no icon up. -/
theorem lookup_iconLookups (h : UpdateWebServiceFromIconRequestHandler S I)
    (cmd : UpdateWebServiceFromIconRequest) (s : S) :
    iconLookups (h.lookup cmd s).calls = [] := by
  unfold UpdateWebServiceFromIconRequestHandler.lookup
  split
  · rfl
  · split
    · rfl
    · split
      · rfl
      · split <;> rfl

/-- The lookups of the request and of the web service read no icon list. -/
theorem lookup_decodedPasses (h : UpdateWebServiceFromIconRequestHandler S I)
    (cmd : UpdateWebServiceFromIconRequest) (s : S) :
    decodedPasses h.lib (h.lookup cmd s).calls = 0 := by
  unfold UpdateWebServiceFromIconRequestHandler.lookup
  split
  · rfl
  · split
    · rfl
    · split
      · rfl
      · split <;> rfl

/-- Collecting the identifiers of the new icons reads no icon list. -/
theorem iconsIds_decodedPasses (h : UpdateWebServiceFromIconRequestHandler S I)
    (new : NewIds) (iconRequest : IconRequest) (lightIcon : Icon) (s : S) :
    decodedPasses h.lib (h.iconsIds new iconRequest lightIcon s).calls = 0 := by
  unfold UpdateWebServiceFromIconRequestHandler.iconsIds
  split
  · rw [decodedPasses_andThen, icon_decodedPasses]
    split <;> rfl
  · rfl

/-- Saving the new icons collection reads no icon list. -/
theorem collection_decodedPasses (h : UpdateWebServiceFromIconRequestHandler S I)
    (new : NewIds) (iconRequest : IconRequest) (ids : List String) (s : S) :
    decodedPasses h.lib (h.collection new iconRequest ids s).calls = 0 := by
  unfold UpdateWebServiceFromIconRequestHandler.collection
  split
  · rfl
  · simp only []
    split <;> rfl

/-- Decoding the icons collections of the web service reads no icon list. -/
theorem previousCollections_decodedPasses (h : UpdateWebServiceFromIconRequestHandler S I)
    (webService : WebService) (s : S) :
    decodedPasses h.lib (h.previousCollections webService s).calls = 0 := by
  unfold UpdateWebServiceFromIconRequestHandler.previousCollections
  split <;> rfl

/-- Updating the web service and deleting the request reads no icon list. -/
theorem finish_decodedPasses (h : UpdateWebServiceFromIconRequestHandler S I)
    (iconRequest : IconRequest) (webService : WebService) (iconsCollection : IconsCollection)
    (s : S) :
    decodedPasses h.lib (h.finish iconRequest webService iconsCollection s).calls = 0 := by
  unfold UpdateWebServiceFromIconRequestHandler.finish
  simp only []
  split
  · rfl
  · split <;> rfl

/-- One pass of the inner loop reads no icon list. -/
theorem cleanIcon_decodedPasses (h : UpdateWebServiceFromIconRequestHandler S I)
    (outdatedIconId : String) (s : S) :
    decodedPasses h.lib (h.cleanIcon outdatedIconId s).calls = 0 := by
  unfold UpdateWebServiceFromIconRequestHandler.cleanIcon
  simp only []
  split
  · rfl
  · split <;> rfl

/-- Collecting the identifiers of the new icons looks no icon up. -/
theorem iconsIds_iconLookups (h : UpdateWebServiceFromIconRequestHandler S I) (new : NewIds)
    (iconRequest : IconRequest) (lightIcon : Icon) (s : S) :
    iconLookups (h.iconsIds new iconRequest lightIcon s).calls = [] := by
  unfold UpdateWebServiceFromIconRequestHandler.iconsIds
  split
  · rw [iconLookups_andThen, icon_iconLookups]
    split <;> rfl
  · rfl

/-- Saving the new icons collection looks no icon up. -/
theorem collection_iconLookups (h : UpdateWebServiceFromIconRequestHandler S I)
    (new : NewIds) (iconRequest : IconRequest) (ids : List String) (s : S) :
    iconLookups (h.collection new iconRequest ids s).calls = [] := by
  unfold UpdateWebServiceFromIconRequestHandler.collection
  split
  · rfl
  · simp only []
    split <;> rfl

/-- Decoding the icons collections of the web service looks no icon up; when it goes on,
its value is the decoded list and the store is as before. -/
theorem previousCollections_spec (h : UpdateWebServiceFromIconRequestHandler S I)
    (webService : WebService) (s : S) :
    iconLookups (h.previousCollections webService s).calls = [] ∧
    ∀ ids, (h.previousCollections webService s).flow = .next ids →
      h.lib.jsonUnmarshal webService.IconsCollections = .ok ids := by
  unfold UpdateWebServiceFromIconRequestHandler.previousCollections
  split
  · exact ⟨rfl, fun ids hh => by cases hh⟩
  · rename_i l hl
    exact ⟨rfl, fun ids hh => by cases hh; exact hl⟩

/-- Updating the web service and deleting the request looks no icon up. -/
theorem finish_iconLookups (h : UpdateWebServiceFromIconRequestHandler S I)
    (iconRequest : IconRequest) (webService : WebService) (iconsCollection : IconsCollection)
    (s : S) : iconLookups (h.finish iconRequest webService iconsCollection s).calls = [] := by
  unfold UpdateWebServiceFromIconRequestHandler.finish
  simp only []
  split
  · rfl
  · split <;> rfl

/-- One pass of the inner loop looks up the parsed element, and goes on. -/
theorem cleanIcon_spec (h : UpdateWebServiceFromIconRequestHandler S I)
    (outdatedIconId : String) (s : S) :
    iconLookups (h.cleanIcon outdatedIconId s).calls = [parsedId h.lib outdatedIconId] ∧
    (h.cleanIcon outdatedIconId s).flow = .next () := by
  unfold UpdateWebServiceFromIconRequestHandler.cleanIcon parsedId
  simp only []
  split
  · exact ⟨rfl, rfl⟩
  · split <;> exact ⟨rfl, rfl⟩

/-- The inner loop looks up the parsed elements of its list, in order, and goes on. -/
theorem cleanIcons_spec (h : UpdateWebServiceFromIconRequestHandler S I)
    (ids : List String) (s : S) :
    iconLookups (h.cleanIcons ids s).calls = ids.map (parsedId h.lib) ∧
    (h.cleanIcons ids s).flow = .next () := by
  induction ids generalizing s with
  | nil => exact ⟨rfl, rfl⟩
  | cons x rest ih =>
    unfold UpdateWebServiceFromIconRequestHandler.cleanIcons
    have hx := cleanIcon_spec h x s
    refine ⟨?_, ?_⟩
    · rw [iconLookups_andThen, hx.1, hx.2]
      simp [(ih _).1]
    · simp only [Step.andThen, hx.2]
      exact (ih _).2

/-- The inner loop reads no icon list. -/
theorem cleanIcons_decodedPasses (h : UpdateWebServiceFromIconRequestHandler S I)
    (ids : List String) (s : S) :
    decodedPasses h.lib (h.cleanIcons ids s).calls = 0 := by
  induction ids generalizing s with
  | nil => rfl
  | cons x rest ih =>
    unfold UpdateWebServiceFromIconRequestHandler.cleanIcons
    rw [decodedPasses_andThen, cleanIcon_decodedPasses, (cleanIcon_spec h x s).2]
    simp [ih]

end

end icons

end TwoFas

namespace TwoFas

namespace icons

open UpdateWebServiceFromIconRequestHandler

section

variable {S I : Type}

/-- One pass of the outer loop either goes on, having decoded the icon list of its
collection and looked up the parsed elements of `webServiceIconsCollectionsIds` once, or
ends the run, having decoded no icon list and looked no icon up. -/
theorem cleanCollection_spec (h : UpdateWebServiceFromIconRequestHandler S I)
    (ids : List String) (x : String) (s : S) :
    (iconLookups (h.cleanCollection ids x s).calls = ids.map (parsedId h.lib) ∧
      (h.cleanCollection ids x s).flow = .next () ∧
      decodedPasses h.lib (h.cleanCollection ids x s).calls = 1) ∨
    (iconLookups (h.cleanCollection ids x s).calls = [] ∧
      (h.cleanCollection ids x s).flow ≠ .next () ∧
      decodedPasses h.lib (h.cleanCollection ids x s).calls = 0) := by
  unfold UpdateWebServiceFromIconRequestHandler.cleanCollection
  split
  · exact Or.inr ⟨rfl, by simp, rfl⟩
  · rename_i id hid
    simp only []
    generalize hd : (match (h.IconsCollectionsRepository.FindById id s).2 with
      | some _ => (⟨.next (), s,
          [.IconsCollectionsFindById id,
           .logError "icon_collection_id" x
             "Out of date icons collection cannot be found"]⟩ : Step S Unit)
      | none =>
        match h.IconsCollectionsRepository.Delete
            (h.IconsCollectionsRepository.FindById id s).1 s with
        | (some _, s1) =>
          ⟨.next (), s1,
            [.IconsCollectionsFindById id,
             .IconsCollectionsDelete (h.IconsCollectionsRepository.FindById id s).1,
             .logError "icon_collection_id" x
               "Cannot delete out of date icons collection"]⟩
        | (none, s1) =>
          ⟨.next (), s1,
            [.IconsCollectionsFindById id,
             .IconsCollectionsDelete (h.IconsCollectionsRepository.FindById id s).1]⟩)
      = deleted
    have hdel : iconLookups deleted.calls = [] ∧ deleted.flow = .next () ∧
        decodedPasses h.lib deleted.calls = 0 := by
      rw [← hd]
      split
      · exact ⟨rfl, rfl, rfl⟩
      · split <;> exact ⟨rfl, rfl, rfl⟩
    rw [iconLookups_andThen, decodedPasses_andThen, hdel.1, hdel.2.1, hdel.2.2]
    simp only [Step.andThen, hdel.2.1, List.nil_append, Nat.zero_add]
    cases hfound : (h.IconsCollectionsRepository.FindById id s).1 with
    | none => exact Or.inr ⟨rfl, by simp, rfl⟩
    | some collection =>
      simp only []
      cases hdec : h.lib.jsonUnmarshal collection.Icons with
      | error err =>
        refine Or.inr ⟨rfl, by simp, ?_⟩
        simp [decodedPasses, hdec, Except.isOk, Except.toBool]
      | ok icons =>
        simp only []
        refine Or.inl ⟨?_, ?_, ?_⟩
        · simp [iconLookups, List.filterMap_append]
          exact (cleanIcons_spec h ids deleted.store).1
        · exact (cleanIcons_spec h ids deleted.store).2
        · have hz := cleanIcons_decodedPasses h ids deleted.store
          unfold decodedPasses at hz ⊢
          rw [List.countP_append, hz]
          simp [hdec, Except.isOk, Except.toBool]

/-- The outer loop, run on the rest of its list, has looked up the parsed elements of
`webServiceIconsCollectionsIds` once for each pass that reached the inner loop; when it
goes on to the end it has made all its passes. -/
theorem cleanCollections_spec (h : UpdateWebServiceFromIconRequestHandler S I)
    (ids rest : List String) (s : S) :
    ∃ k, k ≤ rest.length ∧
      iconLookups (h.cleanCollections ids rest s).calls
        = (List.replicate k (ids.map (parsedId h.lib))).flatten ∧
      decodedPasses h.lib (h.cleanCollections ids rest s).calls = k ∧
      ((h.cleanCollections ids rest s).flow = .next () → k = rest.length) := by
  induction rest generalizing s with
  | nil => exact ⟨0, Nat.le_refl _, rfl, rfl, fun _ => rfl⟩
  | cons x rest ih =>
    unfold UpdateWebServiceFromIconRequestHandler.cleanCollections
    rcases cleanCollection_spec h ids x s with ⟨hl, hf, hp⟩ | ⟨hl, hf, hp⟩
    · obtain ⟨k, hk, hcalls, hpasses, hnext⟩ := ih (h.cleanCollection ids x s).store
      refine ⟨k + 1, by simpa using hk, ?_, ?_, ?_⟩
      · rw [iconLookups_andThen, hl, hf]
        simp [hcalls, List.replicate_succ]
      · rw [decodedPasses_andThen, hp, hf]
        simp only [hpasses]
        omega
      · intro hflow
        simp only [Step.andThen, hf] at hflow
        simp [hnext hflow]
    · refine ⟨0, Nat.zero_le _, ?_, ?_, ?_⟩
      · rw [iconLookups_andThen, hl]
        cases hflow : (h.cleanCollection ids x s).flow with
        | next u => exact absurd hflow hf
        | returned err => rfl
        | panicked reason => rfl
      · rw [decodedPasses_andThen, hp]
        cases hflow : (h.cleanCollection ids x s).flow with
        | next u => exact absurd hflow hf
        | returned err => rfl
        | panicked reason => rfl
      · intro hflow
        obtain ⟨a, ha, -⟩ := andThen_next _ _ _ hflow
        exact absurd ha hf

end

end icons

end TwoFas

namespace TwoFas

namespace icons

open UpdateWebServiceFromIconRequestHandler

/-- Claim C19: in one pass of the outer loop of `Handle`, when the identifier parses and
`IconsCollectionsRepository.FindById` returns an error, the pass logs "Out of date icons
collection cannot be found" and its next step is the read of the field `Icons` through the
pointer that the lookup returned: it has neither skipped the identifier nor returned at the
failed lookup; when that pointer is nil the read panics.  The sample run is such an input: web service 1
lists the icons collection 2, which is not stored, and `Handle` ends in the panic of the
nil pointer right after the log line. -/
theorem handle_reads_icons_of_missing_collection :
    (∀ (S I : Type) (h : UpdateWebServiceFromIconRequestHandler S I) (ids : List String)
      (x : String) (s : S) (id : UUID) (err : GoError),
      h.lib.uuidParse x = .ok id →
      (h.IconsCollectionsRepository.FindById id s).2 = some err →
        (∃ more, (h.cleanCollection ids x s).calls =
          [.IconsCollectionsFindById id,
           .logError "icon_collection_id" x "Out of date icons collection cannot be found",
           .IconsField (h.IconsCollectionsRepository.FindById id s).1] ++ more) ∧
        ((h.IconsCollectionsRepository.FindById id s).1 = none →
          (h.cleanCollection ids x s).flow
            = .panicked "invalid memory address or nil pointer dereference" ∧
          (h.cleanCollection ids x s).calls =
            [.IconsCollectionsFindById id,
             .logError "icon_collection_id" x "Out of date icons collection cannot be found",
             .IconsField none])) ∧
    (Sample.iconsHandler.Handle Sample.newIds Sample.updateWebService1
        Sample.missingCollection).flow
      = .panicked "invalid memory address or nil pointer dereference" ∧
    (Sample.iconsHandler.Handle Sample.newIds Sample.updateWebService1
        Sample.missingCollection).calls
      = [.IconsRequestsFindById ⟨3⟩, .WebServiceFindById ⟨1⟩,
         .StorageGet "icons/ir_3.light.png",
         .StorageMove "icons/ir_3.light.png" "icons/7d0c1a3e-0000-4000-8000-000000000007.png",
         .IconsSave ⟨⟨7⟩, "2FAS", "icons/7d0c1a3e-0000-4000-8000-000000000007.png", 64, 64,
           .Light⟩,
         .IconsCollectionsSave ⟨⟨6⟩, "2FAS", "[\"7d0c1a3e-0000-4000-8000-000000000007\"]"⟩,
         .IconsCollectionsFindById ⟨2⟩,
         .logError "icon_collection_id" "7d0c1a3e-0000-4000-8000-000000000002"
           "Out of date icons collection cannot be found",
         .IconsField none] := by
  refine ⟨?_, by decide, by decide⟩
  intro S I h ids x s id err hparse herr
  unfold UpdateWebServiceFromIconRequestHandler.cleanCollection
  simp only [hparse, herr]
  cases hfound : (h.IconsCollectionsRepository.FindById id s).1 with
  | none =>
    refine ⟨⟨[], ?_⟩, fun _ => ⟨?_, ?_⟩⟩ <;> simp [Step.andThen]
  | some collection =>
    cases hdec : h.lib.jsonUnmarshal collection.Icons with
    | error e =>
      refine ⟨⟨[], ?_⟩, fun hn => by cases hn⟩
      simp [Step.andThen, hdec]
    | ok icons =>
      refine ⟨⟨(h.cleanIcons ids s).calls, ?_⟩, fun hn => by cases hn⟩
      simp [Step.andThen, hdec]

end icons

end TwoFas

namespace TwoFas

namespace icons

open UpdateWebServiceFromIconRequestHandler

/-- When the lookups go on, the web service is the one the repository returned for the
parsed identifier of the command. -/
theorem lookup_next {S I : Type} (h : UpdateWebServiceFromIconRequestHandler S I)
    (cmd : UpdateWebServiceFromIconRequest) (s : S) (found : IconRequest × WebService)
    (hnext : (h.lookup cmd s).flow = .next found) :
    ∃ webServiceId, h.lib.uuidParse cmd.WebServiceId = .ok webServiceId ∧
      h.WebServiceRepository.FindById webServiceId s = .ok found.2 := by
  unfold UpdateWebServiceFromIconRequestHandler.lookup at hnext
  split at hnext
  · cases hnext
  · rename_i webServiceId hw
    split at hnext
    · cases hnext
    · split at hnext
      · cases hnext
      · split at hnext
        · cases hnext
        · rename_i webService hws
          simp only [Flow.next.injEq] at hnext
          subst hnext
          exact ⟨webServiceId, hw, hws⟩

/-- A part that looks no icon up and reads no icon list, followed by a part whose lookups are
one copy of a list for each of its decoded passes, has one copy of that list for each of its
decoded passes as its lookups. -/
theorem andThen_copies {S I α : Type} (lib : Libraries I) (x : Step S α)
    (f : α → S → Step S Unit) (n : Nat)
    (xs : List UUID) (hx : iconLookups x.calls = []) (hx0 : decodedPasses lib x.calls = 0)
    (hf : ∀ a, x.flow = .next a →
      ∃ k, k ≤ n ∧ iconLookups (f a x.store).calls = (List.replicate k xs).flatten ∧
        decodedPasses lib (f a x.store).calls = k ∧
        ((f a x.store).flow = .next () → k = n)) :
    ∃ k, k ≤ n ∧ iconLookups (x.andThen f).calls = (List.replicate k xs).flatten ∧
      decodedPasses lib (x.andThen f).calls = k ∧
      ((x.andThen f).flow = .next () → k = n) := by
  cases hflow : x.flow with
  | next a =>
    obtain ⟨k, hk, hcalls, hpasses, hnext⟩ := hf a hflow
    refine ⟨k, hk, ?_, ?_, ?_⟩
    · rw [iconLookups_andThen, hx, hflow]
      simpa using hcalls
    · rw [decodedPasses_andThen, hx0, hflow]
      simpa using hpasses
    · intro hn
      apply hnext
      simpa [Step.andThen, hflow] using hn
  | returned err =>
    refine ⟨0, Nat.zero_le _, ?_, ?_, ?_⟩
    · rw [iconLookups_andThen, hx, hflow]; rfl
    · rw [decodedPasses_andThen, hx0, hflow]; rfl
    · intro hn
      simp [Step.andThen, hflow] at hn
  | panicked reason =>
    refine ⟨0, Nat.zero_le _, ?_, ?_, ?_⟩
    · rw [iconLookups_andThen, hx, hflow]; rfl
    · rw [decodedPasses_andThen, hx0, hflow]; rfl
    · intro hn
      simp [Step.andThen, hflow] at hn

/-- A pass of the outer loop whose collection is found and whose icon list decodes looks up
the parsed elements of `webServiceIconsCollectionsIds`, whatever the icon list holds. -/
theorem cleanCollection_decoded {S I : Type} (h : UpdateWebServiceFromIconRequestHandler S I)
    (ids : List String) (x : String) (s : S) (id : UUID) (collection : IconsCollection)
    (outdatedCollectionIcons : List String)
    (hparse : h.lib.uuidParse x = .ok id)
    (hfound : (h.IconsCollectionsRepository.FindById id s).1 = some collection)
    (hdecoded : h.lib.jsonUnmarshal collection.Icons = .ok outdatedCollectionIcons) :
    iconLookups (h.cleanCollection ids x s).calls = ids.map (parsedId h.lib) := by
  rcases cleanCollection_spec h ids x s with ⟨hl, -, -⟩ | ⟨-, hf, -⟩
  · exact hl
  · exfalso
    apply hf
    unfold UpdateWebServiceFromIconRequestHandler.cleanCollection
    simp only [hparse, hfound]
    cases herr : (h.IconsCollectionsRepository.FindById id s).2 with
    | some err =>
      simp only [Step.andThen, hdecoded]
      exact (cleanIcons_spec h ids s).2
    | none =>
      simp only []
      rcases hdel : h.IconsCollectionsRepository.Delete (some collection) s with
        ⟨_ | derr, s1⟩
      · simp only [Step.andThen, hdecoded]
        exact (cleanIcons_spec h ids s1).2
      · simp only [Step.andThen, hdecoded]
        exact (cleanIcons_spec h ids s1).2

/-- In every run of `Handle` that has found the web service and decoded its icons
collections into `ids`, the identifiers passed to `IconsRepository.FindById` are `k` copies
of the parsed `ids`, where `k` is the number of passes that decoded the icon list of their
collection; `k` is at most the number of outdated collections and equal to it when the run
goes on to the end. -/
theorem handle_copies {S I : Type}
    (h : UpdateWebServiceFromIconRequestHandler S I) (new : NewIds)
    (cmd : UpdateWebServiceFromIconRequest) (s : S) (webServiceId : UUID)
    (webService : WebService) (ids : List String)
    (hparse : h.lib.uuidParse cmd.WebServiceId = .ok webServiceId)
    (hfound : h.WebServiceRepository.FindById webServiceId s = .ok webService)
    (hids : h.lib.jsonUnmarshal webService.IconsCollections = .ok ids) :
    ∃ k, k ≤ ids.length ∧
      iconLookups (h.Handle new cmd s).calls
        = (List.replicate k (ids.map (parsedId h.lib))).flatten ∧
      decodedPasses h.lib (h.Handle new cmd s).calls = k ∧
      ((h.Handle new cmd s).flow = .next () → k = ids.length) := by
  unfold UpdateWebServiceFromIconRequestHandler.Handle
  apply andThen_copies h.lib _ _ _ _ (lookup_iconLookups h cmd s) (lookup_decodedPasses h cmd s)
  intro found hfoundNext
  obtain ⟨wid, hw, hws⟩ := lookup_next h cmd s found hfoundNext
  rw [hparse] at hw
  cases hw
  rw [hfound] at hws
  cases hws
  apply andThen_copies h.lib _ _ _ _ (icon_iconLookups h _ _ _ _ _ _ _ _ _)
    (icon_decodedPasses h _ _ _ _ _ _ _ _ _)
  intro lightIcon _
  apply andThen_copies h.lib _ _ _ _ (iconsIds_iconLookups h _ _ _ _)
    (iconsIds_decodedPasses h _ _ _ _)
  intro iconsIds _
  apply andThen_copies h.lib _ _ _ _ (collection_iconLookups h _ _ _ _)
    (collection_decodedPasses h _ _ _ _)
  intro iconsCollection _
  apply andThen_copies h.lib _ _ _ _ (previousCollections_spec h _ _).1
    (previousCollections_decodedPasses h _ _)
  intro decoded hdecoded
  have hd := (previousCollections_spec h _ _).2 decoded hdecoded
  rw [hids] at hd
  cases hd
  obtain ⟨k, hk, hcalls, hpasses, hnext⟩ := cleanCollections_spec h ids ids
    (h.previousCollections found.2 (h.collection new found.1 iconsIds
      (h.iconsIds new found.1 lightIcon (h.icon IconType.Light found.1.LightIconUrl
        found.1.ServiceName new.lightIconId "failed to get the icon from the storage: %w"
        "failed to decode the icon as pgn: %w" "failed to move icons storage: %w"
        "failed to save light icon: %w" (h.lookup cmd s).store).store).store).store).store
  refine ⟨k, hk, ?_, ?_, ?_⟩
  · rw [iconLookups_andThen, hcalls]
    split
    · rw [finish_iconLookups]; simp
    · simp
  · rw [decodedPasses_andThen, hpasses]
    split
    · rw [finish_decodedPasses]; rfl
    · rfl
  · intro hn
    obtain ⟨a, ha, -⟩ := andThen_next _ _ _ hn
    exact hnext ha

/-- Claim C20, as amended: in every run of `Handle` that has found the web service and
decoded its icons collections into `ids`, the identifiers passed to
`IconsRepository.FindById` are the parsed elements of `ids` (for an element that does not
parse, the identifier `uuid.Parse` returns next to its error), in order, once in full for each outdated collection whose icon list the run
has decoded; the number of these passes is at most the number of outdated collections, and
equal to it when `Handle` returns nil.  A pass whose collection is found and whose icon list
decodes looks up the parsed `ids` whatever list `outdatedCollectionIcons` the icon list
decodes to. -/
theorem icon_cleanup_looks_up_collection_ids {S I : Type}
    (h : UpdateWebServiceFromIconRequestHandler S I) (new : NewIds)
    (cmd : UpdateWebServiceFromIconRequest) (s : S) (webServiceId : UUID)
    (webService : WebService) (ids : List String)
    (hparse : h.lib.uuidParse cmd.WebServiceId = .ok webServiceId)
    (hfound : h.WebServiceRepository.FindById webServiceId s = .ok webService)
    (hids : h.lib.jsonUnmarshal webService.IconsCollections = .ok ids) :
    iconLookups (h.Handle new cmd s).calls
      = (List.replicate (decodedPasses h.lib (h.Handle new cmd s).calls)
          (ids.map (parsedId h.lib))).flatten ∧
    decodedPasses h.lib (h.Handle new cmd s).calls ≤ ids.length ∧
    ((h.Handle new cmd s).flow = .next () →
      decodedPasses h.lib (h.Handle new cmd s).calls = ids.length) ∧
    (∀ (x : String) (s1 : S) (id : UUID) (collection : IconsCollection)
      (outdatedCollectionIcons : List String),
      h.lib.uuidParse x = .ok id →
      (h.IconsCollectionsRepository.FindById id s1).1 = some collection →
      h.lib.jsonUnmarshal collection.Icons = .ok outdatedCollectionIcons →
        iconLookups (h.cleanCollection ids x s1).calls = ids.map (parsedId h.lib)) := by
  obtain ⟨k, hk, hcalls, hpasses, hnext⟩ :=
    handle_copies h new cmd s webServiceId webService ids hparse hfound hids
  refine ⟨by rw [hpasses]; exact hcalls, by rw [hpasses]; exact hk,
    fun hn => by rw [hpasses]; exact hnext hn,
    fun x s1 id collection icons h1 h2 h3 =>
      cleanCollection_decoded h ids x s1 id collection icons h1 h2 h3⟩

/-- Witness of C20: web service 4 lists the icons collections 1 and 2, whose icon lists name
`icon-a`, `icon-b` and `icon-c`; the run returns nil, has decoded both icon lists and has
looked up the identifiers 1, 2, 1, 2: the collection identifiers, once per outdated
collection. -/
theorem icon_cleanup_looks_up_collection_ids_witness :
    (Sample.iconsHandler.Handle Sample.newIds Sample.updateWebService4
        Sample.twoCollections).flow = .next () ∧
    iconLookups (Sample.iconsHandler.Handle Sample.newIds Sample.updateWebService4
        Sample.twoCollections).calls = [⟨1⟩, ⟨2⟩, ⟨1⟩, ⟨2⟩] ∧
    decodedPasses Sample.libraries (Sample.iconsHandler.Handle Sample.newIds
        Sample.updateWebService4 Sample.twoCollections).calls = 2 :=
  have h := icon_cleanup_looks_up_collection_ids Sample.iconsHandler Sample.newIds
    Sample.updateWebService4 Sample.twoCollections ⟨4⟩ Sample.webService4
    ["7d0c1a3e-0000-4000-8000-000000000001", "7d0c1a3e-0000-4000-8000-000000000002"]
    rfl rfl rfl
  ⟨by decide, by decide, h.2.2.1 (by decide)⟩

/-- Counterexample to C20 as stated: web service 1 lists one icons collection, collection 2,
which is stored with an icon list that is not a JSON document.  `Handle` finds and deletes
the collection and returns the error of decoding its icon list (line 273); no identifier
has been passed to `IconsRepository.FindById`, although the web service has one previous
icons collection, whose identifier is 2.  With the icon list `["icon-a"]` in the same
collection the run returns nil and has looked up the identifier 2: the identifiers looked up
depend on the icon list of the outdated collection. -/
theorem icon_cleanup_stops_at_undecodable_list :
    Sample.libraries.jsonUnmarshal Sample.webService1.IconsCollections
      = .ok ["7d0c1a3e-0000-4000-8000-000000000002"] ∧
    (Sample.iconsHandler.Handle Sample.newIds Sample.updateWebService1
        Sample.undecodableCollection).flow
      = .returned (fmt.Errorf "failed to decode \x27outdatedCollectionIcons\x27: %w" []
          (.leaf ⟨"*json.SyntaxError", true⟩ "icon-a")) ∧
    iconLookups (Sample.iconsHandler.Handle Sample.newIds Sample.updateWebService1
        Sample.undecodableCollection).calls = [] ∧
    iconLookups (Sample.iconsHandler.Handle Sample.newIds Sample.updateWebService1
        Sample.undecodableCollection).calls ≠ [⟨2⟩] ∧
    (Sample.iconsHandler.Handle Sample.newIds Sample.updateWebService1
        Sample.decodableCollection).flow = .next () ∧
    iconLookups (Sample.iconsHandler.Handle Sample.newIds Sample.updateWebService1
        Sample.decodableCollection).calls = [⟨2⟩] := by
  refine ⟨rfl, by decide, by decide, by decide, by decide, by decide⟩

end icons

end TwoFas

namespace TwoFas

/-! ## One extension of a device -/

/-- Claim C21: in `FindMobileAppExtensionById`, for a well-formed request of a device that
exists: an empty query result is answered 404 with the not-found error of the extension,
whatever error the query returned with it; the answer is 500 exactly when the query returned
an error together with a non-empty result, and then carries that error; the answer is 200
exactly when the result is non-empty and there is no error, and then carries the first
element of the result.  No other status is answered. -/
theorem findMobileAppExtensionById_status {S D P : Type}
    (r : FindMobileAppExtensionByIdPorts S D P) (cmd : query.DeviceBrowserExtensionsQuery)
    (s : S) (device : D) (hvalid : r.validate cmd = none)
    (hdevice : r.FindById ((r.uuidParse cmd.DeviceId).getD uuid.Nil) s = .ok device) :
    ((r.Query cmd s).1 = [] →
      (FindMobileAppExtensionById r cmd s).code = 404 ∧
      (FindMobileAppExtensionById r cmd s).body
        = .notFound (.leaf BrowserExtensionsCouldNotBeFound cmd.ExtensionId)) ∧
    ((FindMobileAppExtensionById r cmd s).code = 404 ↔ (r.Query cmd s).1 = []) ∧
    ((FindMobileAppExtensionById r cmd s).code = 500 ↔
      (r.Query cmd s).1 ≠ [] ∧ (r.Query cmd s).2 ≠ none) ∧
    ((FindMobileAppExtensionById r cmd s).code = 200 ↔
      (r.Query cmd s).1 ≠ [] ∧ (r.Query cmd s).2 = none) ∧
    (∀ first rest err, r.Query cmd s = (first :: rest, some err) →
      (FindMobileAppExtensionById r cmd s).body = .internalServerError err) ∧
    (∀ first rest, r.Query cmd s = (first :: rest, none) →
      (FindMobileAppExtensionById r cmd s).body = .json first) ∧
    ((FindMobileAppExtensionById r cmd s).code = 404 ∨
      (FindMobileAppExtensionById r cmd s).code = 500 ∨
      (FindMobileAppExtensionById r cmd s).code = 200) := by
  rcases hq : r.Query cmd s with ⟨_ | ⟨first, rest⟩, _ | err⟩ <;>
    simp [FindMobileAppExtensionById, hvalid, hdevice, hq]

/-- Witness of C21: for device 1 of the sample store, an empty result with an error of the
database is answered 404, a non-empty result with that error 500, and a non-empty result
without error 200 with its first element. -/
theorem findMobileAppExtensionById_status_witness :
    (FindMobileAppExtensionById (Sample.extensionPorts [] (some Sample.databaseError))
        Sample.extensionQuery Sample.paired).code = 404 ∧
    (FindMobileAppExtensionById
        (Sample.extensionPorts [⟨⟨1⟩, ⟨2⟩, "key-1"⟩] (some Sample.databaseError))
        Sample.extensionQuery Sample.paired).code = 500 ∧
    (FindMobileAppExtensionById
        (Sample.extensionPorts [⟨⟨1⟩, ⟨2⟩, "key-1"⟩, ⟨⟨1⟩, ⟨4⟩, "key-4"⟩] none)
        Sample.extensionQuery Sample.paired).body = .json ⟨⟨1⟩, ⟨2⟩, "key-1"⟩ :=
  ⟨((findMobileAppExtensionById_status
      (Sample.extensionPorts [] (some Sample.databaseError)) Sample.extensionQuery
      Sample.paired Sample.device1 rfl rfl).1 rfl).1,
   (findMobileAppExtensionById_status
      (Sample.extensionPorts [⟨⟨1⟩, ⟨2⟩, "key-1"⟩] (some Sample.databaseError))
      Sample.extensionQuery Sample.paired Sample.device1 rfl rfl).2.2.1.2
      ⟨by decide, by decide⟩,
   (findMobileAppExtensionById_status
      (Sample.extensionPorts [⟨⟨1⟩, ⟨2⟩, "key-1"⟩, ⟨⟨1⟩, ⟨4⟩, "key-4"⟩] none)
      Sample.extensionQuery Sample.paired Sample.device1 rfl rfl).2.2.2.2.2.1 _ _ rfl⟩

end TwoFas

namespace TwoFas

namespace logging

/-! ## The logger of a context -/

/-- The two cases of `FromContext`: the logger the context carries, or nil. -/
theorem fromContext_stored_or_nil_aux (pkg : Package) (ctx : Context) :
    (∀ entry, ctx.Value loggerKey = .fieldLogger entry → FromContext pkg ctx = some entry) ∧
    ((∀ entry, ctx.Value loggerKey ≠ .fieldLogger entry) → FromContext pkg ctx = none) := by
  refine ⟨?_, ?_⟩
  · intro entry h
    simp [FromContext, h, assertFieldLogger]
  · intro h
    unfold FromContext
    cases hv : ctx.Value loggerKey with
    | nil => rfl
    | fieldLogger entry => exact absurd hv (h entry)
    | other t x => rfl

/-- Claim C22: for every state of the package, `FromContext` returns the logger the context
carries under `loggerKey` when it carries one, in particular the logger just stored with
`AddToContext`, also under further values and cancellations; for every context that
carries no logger it returns the nil `FieldLogger`, the zero value of its local variable
`log`; this is so also after `Init` has built the package-level logger, which is not nil and
is not what `FromContext` returns. -/
theorem fromContext_returns_stored_or_nil (pkg : Package) (ctx : Context) :
    (∀ entry, ctx.Value loggerKey = .fieldLogger entry → FromContext pkg ctx = some entry) ∧
    (∀ entry, FromContext pkg (AddToContext ctx (some entry)) = some entry) ∧
    (∀ entry key val, key ≠ loggerKey →
      FromContext pkg (.WithCancel (.WithValue (AddToContext ctx (some entry)) key val))
        = some entry) ∧
    ((∀ entry, ctx.Value loggerKey ≠ .fieldLogger entry) → FromContext pkg ctx = none) ∧
    (FromContext pkg .Background = none ∧ FromContext pkg (AddToContext ctx none) = none) ∧
    (∀ fields, (∀ entry, ctx.Value loggerKey ≠ .fieldLogger entry) →
      (Init fields Package.initial).2.log
        = some ⟨"timestamp", "level", "message", "info", fields⟩ ∧
      FromContext (Init fields Package.initial).2 ctx = none ∧
      FromContext (Init fields Package.initial).2 ctx ≠ (Init fields Package.initial).2.log) := by
  have hnone : ∀ (p : Package) (c : Context),
      (∀ entry, c.Value loggerKey ≠ .fieldLogger entry) → FromContext p c = none :=
    fun p c => (fromContext_stored_or_nil_aux p c).2
  refine ⟨(fromContext_stored_or_nil_aux pkg ctx).1, ?_, ?_, hnone pkg ctx, ⟨rfl, ?_⟩, ?_⟩
  · intro entry
    simp [FromContext, AddToContext, Context.Value, FieldLogger.toValue, assertFieldLogger]
  · intro entry key val hkey
    have hk : ¬ loggerKey = key := fun e => hkey e.symm
    simp [FromContext, AddToContext, Context.Value, FieldLogger.toValue, assertFieldLogger, hk]
  · simp [FromContext, AddToContext, Context.Value, FieldLogger.toValue, assertFieldLogger]
  · intro fields h
    have h2 := hnone (Init fields Package.initial).2 ctx h
    refine ⟨rfl, h2, ?_⟩
    rw [h2]
    simp [Init, Package.initial]

/-- Witness of C22: with the package-level logger built by `Init`, the context that carries
no logger gives nil, and the same context with the request logger added gives that
logger. -/
theorem fromContext_returns_stored_or_nil_witness :
    FromContext (Init [("app", "api")] Package.initial).2 Sample.plainContext = none ∧
    (Init [("app", "api")] Package.initial).2.log
      = some ⟨"timestamp", "level", "message", "info", [("app", "api")]⟩ ∧
    FromContext (Init [("app", "api")] Package.initial).2
      (AddToContext Sample.plainContext (some Sample.requestLogger))
      = some Sample.requestLogger :=
  have h := fromContext_returns_stored_or_nil (Init [("app", "api")] Package.initial).2
    Sample.plainContext
  ⟨h.2.2.2.1 (fun entry he => by
      simp [Sample.plainContext, Context.Value, loggerKey] at he), rfl,
    h.2.1 Sample.requestLogger⟩

end logging

namespace websocket

/-- Line 45 of `Handler` on a request whose context carries no logger: the call of
`WithField` on the nil `FieldLogger` that `FromContext` returns panics; on a request whose
context carries a logger it gives that logger with the field `channel`. -/
theorem HandlerLog_spec (pkg : logging.Package) (ctx : logging.Context) (channel : String) :
    ((∀ entry, ctx.Value logging.loggerKey ≠ .fieldLogger entry) →
      HandlerLog pkg ctx channel
        = .error "invalid memory address or nil pointer dereference") ∧
    (∀ entry, ctx.Value logging.loggerKey = .fieldLogger entry →
      HandlerLog pkg ctx channel
        = .ok (some { entry with fields := entry.fields ++ [("channel", channel)] })) := by
  have h := logging.fromContext_stored_or_nil_aux pkg ctx
  refine ⟨fun hno => ?_, fun entry he => ?_⟩
  · simp [HandlerLog, h.2 hno, logging.FieldLogger.WithField]
  · simp [HandlerLog, h.1 entry he, logging.FieldLogger.WithField]

end websocket

end TwoFas
